import Mathlib

/-!
# Capacity-constrained assignment: iteration coordinator and load factor

Shallow embedding of `Algorithms/Assignment/Capacities/Assignment.h` and
`Algorithms/Assignment/Capacities/ComputeLockstepPATs.h`.

Conventions of the embedding:
* a C++ `double` is an element of a linearly ordered field `K` (exact arithmetic; NaN
  and infinities are not modelled); concrete evaluations use `ℚ`, evaluations of `exp`
  use `ℝ`. Where `initialize` converts a `double` to an `int`, the rounding of the
  `double` operations is modelled by `roundToDouble`;
* an `int` is an `Int`; for `int passengerCount` of `getPassengerData` a value outside
  the 32-bit range is a failure;
* `size_t` is a `Nat` taken modulo `2 ^ 64` where the code subtracts or increments;
* a `std::vector` is a `List`, read with `List.getD _ _ 0` and written with `List.set`;
* `ConnectionId`, `Vertex`, `GroupId` are `Nat`.
-/

namespace Assignment.Capacities

/-- Number of values of a `size_t`. -/
def sizeLimit : Nat := 2 ^ 64

/-- The fields of `Settings` that `Assignment.h` and `ComputeLockstepPATs.h` read
(`Settings.h` itself declares them). -/
structure Settings (K : Type) where
  passengerMultiplier : Int
  convergenceLimit : K
  maxDelay : Int
  waitingCosts : K
  walkingCosts : K
  transferCosts : K
  failureCosts : K
  strandingWaitingTime : K
  congestionEnterCosts : K
  congestionTravelCosts : K
  congestionExitCosts : K
  loadFactorCutoff : K
  loadFactorSwitchPoint : K
  loadFactorCoefficient1 : K
  loadFactorCoefficient2 : K

/-- The fields of `GroupData` used by `Assignment::getPassengerData`. -/
structure GroupData where
  demandIndex : Nat
  groupSize : Nat
deriving DecidableEq, Repr

/-- The members of `AssignmentData` that `Assignment.h` reads. -/
structure AssignmentData where
  groups : List GroupData
  groupsPerConnection : List (List Nat)
  unassignedGroups : List Nat
  directWalkingGroups : List Nat
deriving DecidableEq, Repr

/-- The members of class `Assignment`: `data.numberOfConnections()`, the inputs
`connectionCapacity` and `settings`, and the outputs `assignmentData` and
`connectionLoad`. -/
structure Assignment (K : Type) where
  numberOfConnections : Nat
  connectionCapacity : List K
  settings : Settings K
  assignmentData : AssignmentData
  connectionLoad : List K

/-- Input domain of the coordinator: the constructor sizes `connectionLoad` to the
number of connections, the capacity vector has one positive entry per connection,
and the passenger multiplier is at least 1. -/
def Assignment.wellFormed {K : Type} [LinearOrderedField K] (a : Assignment K) : Prop :=
  a.connectionLoad.length = a.numberOfConnections ∧
  a.connectionCapacity.length = a.numberOfConnections ∧
  (∀ c, c < a.numberOfConnections → 0 < a.connectionCapacity.getD c 0) ∧
  1 ≤ a.settings.passengerMultiplier

section Coordinator

variable {K : Type} [LinearOrderedField K]

/-- `std::max(a, b)`, which is `(a < b) ? b : a`. -/
def stdMax (a b : K) : K := if a < b then b else a

/-- `std::min(a, b)`, which is `(b < a) ? b : a`. -/
def stdMin (a b : K) : K := if b < a then b else a

/-- `Assignment::getPassengerCountForConnection`. The body of
`AssignmentData::getConnectionLoad` is declared in `AssignmentData.h`; it is the
parameter `getConnectionLoad`. -/
def getPassengerCountForConnection (getConnectionLoad : AssignmentData → Nat → K)
    (a : Assignment K) (connectionId : Nat) : K :=
  getConnectionLoad a.assignmentData connectionId / (a.settings.passengerMultiplier : K)

/-- `Assignment::getPassengerCountsPerConnection`: a vector of
`data.numberOfConnections()` zeros, then one write per connection id. -/
def getPassengerCountsPerConnection (getConnectionLoad : AssignmentData → Nat → K)
    (a : Assignment K) : List K :=
  (List.range a.numberOfConnections).foldl
    (fun passengerCounts i => passengerCounts.set i (getPassengerCountForConnection getConnectionLoad a i))
    (List.replicate a.numberOfConnections 0)

/-- Local variables of the first loop of `Assignment::updateConnectionLoad`. The two
`size_t` counters grow by at most one per connection, so they stay below the
`size_t` number of connections and are not reduced modulo `2 ^ 64`. -/
structure LoadScan (K : Type) where
  newConnectionLoad : List K
  unfinishedConnections : Nat
  overloadedConnections : Nat
  maxOverload : K
  maxDiff : K

/-- The relative load difference `diff` of one connection, given its new load. -/
def loadDiff (a : Assignment K) (newLoad : K) (connection : Nat) : K :=
  |newLoad - a.connectionLoad.getD connection 0| / a.connectionCapacity.getD connection 0

/-- One pass of the body of the first loop of `updateConnectionLoad`. -/
def measureConnection (getConnectionLoad : AssignmentData → Nat → K) (a : Assignment K)
    (s : LoadScan K) (connection : Nat) : LoadScan K :=
  let newConnectionLoad := s.newConnectionLoad.set connection (getPassengerCountForConnection getConnectionLoad a connection)
  let diff := loadDiff a (newConnectionLoad.getD connection 0) connection
  let maxDiff := stdMax s.maxDiff diff
  let unfinishedConnections :=
    if diff ≥ a.settings.convergenceLimit then s.unfinishedConnections + 1 else s.unfinishedConnections
  if newConnectionLoad.getD connection 0 > a.connectionCapacity.getD connection 0 then
    { newConnectionLoad := newConnectionLoad
      unfinishedConnections := unfinishedConnections
      overloadedConnections := s.overloadedConnections + 1
      maxOverload := stdMax s.maxOverload (newConnectionLoad.getD connection 0 / a.connectionCapacity.getD connection 0)
      maxDiff := maxDiff }
  else
    { newConnectionLoad := newConnectionLoad
      unfinishedConnections := unfinishedConnections
      overloadedConnections := s.overloadedConnections
      maxOverload := s.maxOverload
      maxDiff := maxDiff }

/-- The first loop of `updateConnectionLoad`, over `data.connectionIds()`. -/
def measureConnections (getConnectionLoad : AssignmentData → Nat → K) (a : Assignment K) : LoadScan K :=
  (List.range a.numberOfConnections).foldl (measureConnection getConnectionLoad a)
    { newConnectionLoad := List.replicate a.connectionLoad.length 0
      unfinishedConnections := 0
      overloadedConnections := 0
      maxOverload := 0
      maxDiff := 0 }

/-- The `size_t` expression `iteration - 1`. -/
def iterationMinusOne (iteration : Nat) : Nat := (iteration + sizeLimit - 1) % sizeLimit

/-- The smoothing assignment of the second loop of `updateConnectionLoad` for one
connection. -/
def smoothConnection (iteration : Nat) (newConnectionLoad : List K) (connectionLoad : List K)
    (connection : Nat) : List K :=
  connectionLoad.set connection
    (((iterationMinusOne iteration : K) * connectionLoad.getD connection 0
      + newConnectionLoad.getD connection 0) / (iteration : K))

/-- `Assignment::updateConnectionLoad`: the returned flag and the object afterwards
(the console output is left out). -/
def updateConnectionLoad (getConnectionLoad : AssignmentData → Nat → K) (a : Assignment K)
    (iteration : Nat) : Bool × Assignment K :=
  let s := measureConnections getConnectionLoad a
  if s.unfinishedConnections = 0 then (false, a)
  else
    (true, { a with connectionLoad :=
      (List.range a.numberOfConnections).foldl (smoothConnection iteration s.newConnectionLoad) a.connectionLoad })

/-- A connection is unfinished: `diff >= settings.convergenceLimit`, with `diff`
taken on the new load `getPassengerCountForConnection`. -/
def unfinished (getConnectionLoad : AssignmentData → Nat → K) (a : Assignment K) (c : Nat) : Prop :=
  loadDiff a (getPassengerCountForConnection getConnectionLoad a c) c ≥ a.settings.convergenceLimit

/-- The state of the do-while loop of `Assignment::run`: the object and the local
`iteration`. -/
structure RunState (K : Type) where
  assignment : Assignment K
  iteration : Nat

/-- State of `Assignment::run` when the do-while loop is entered:
`Vector::fill(connectionLoad, 0.0)` and `iteration = 1`. -/
def runStart (a : Assignment K) : RunState K :=
  { assignment := { a with connectionLoad := List.replicate a.connectionLoad.length 0 }
    iteration := 1 }

/-- The object when the parallel region of a pass of the loop of `Assignment::run`
has ended: `clear`, the workers and `finalize` leave the merged assignment data of
this pass in `assignmentData`. `AssignmentWorker.h` computes it from the iteration
number and the current `connectionLoad`, which is the parameter `workers`. -/
def assignmentOfPass (workers : Nat → List K → AssignmentData) (st : RunState K) : Assignment K :=
  { st.assignment with assignmentData := workers st.iteration st.assignment.connectionLoad }

/-- One pass of the do-while loop of `Assignment::run`: the parallel region, then
the loop condition `updateConnectionLoad(iteration++)`. -/
def runIteration (getConnectionLoad : AssignmentData → Nat → K)
    (workers : Nat → List K → AssignmentData) (st : RunState K) : Bool × RunState K :=
  let r := updateConnectionLoad getConnectionLoad (assignmentOfPass workers st) st.iteration
  (r.1, { assignment := r.2, iteration := (st.iteration + 1) % sizeLimit })

/-- The do-while loop of `Assignment::run`, with `fuel` bounding the number of
passes: `none` when the loop is still running after `fuel` passes. -/
def runLoop (getConnectionLoad : AssignmentData → Nat → K)
    (workers : Nat → List K → AssignmentData) : Nat → RunState K → Option (RunState K)
  | 0, _ => none
  | fuel + 1, st =>
    let r := runIteration getConnectionLoad workers st
    if r.1 then runLoop getConnectionLoad workers fuel r.2 else some r.2

/-- `Assignment::run` with at most `fuel` passes of its loop. -/
def run (getConnectionLoad : AssignmentData → Nat → K)
    (workers : Nat → List K → AssignmentData) (fuel : Nat) (a : Assignment K) : Option (RunState K) :=
  runLoop getConnectionLoad workers fuel (runStart a)

/-- The state of the do-while loop `k` passes after state `st0`, when all of these
passes continued (`updateConnectionLoad` returned true); `none` when the loop has
stopped before. -/
def loopStateFrom (getConnectionLoad : AssignmentData → Nat → K)
    (workers : Nat → List K → AssignmentData) (st0 : RunState K) : Nat → Option (RunState K)
  | 0 => some st0
  | k + 1 =>
    match loopStateFrom getConnectionLoad workers st0 k with
    | none => none
    | some st =>
      let r := runIteration getConnectionLoad workers st
      if r.1 then some r.2 else none

/-- The state of the loop of `Assignment::run` after `k` passes that all continued. -/
def loopState (getConnectionLoad : AssignmentData → Nat → K)
    (workers : Nat → List K → AssignmentData) (a : Assignment K) (k : Nat) : Option (RunState K) :=
  loopStateFrom getConnectionLoad workers (runStart a) k

/-- The new load `L_new[c]` that the pass starting in state `st` computes for
connection `c`: `getPassengerCountForConnection` on the assignment data of the pass. -/
def newLoadOfPass (getConnectionLoad : AssignmentData → Nat → K)
    (workers : Nat → List K → AssignmentData) (st : RunState K) (c : Nat) : K :=
  getPassengerCountForConnection getConnectionLoad (assignmentOfPass workers st) c

/-- The new load `L_new[c]` computed in pass `i + 1` of the loop of
`Assignment::run` (0 when the loop has stopped before that pass). -/
def passNewLoad (getConnectionLoad : AssignmentData → Nat → K)
    (workers : Nat → List K → AssignmentData) (a : Assignment K) (i : Nat) (c : Nat) : K :=
  match loopState getConnectionLoad workers a i with
  | some st => newLoadOfPass getConnectionLoad workers st c
  | none => 0

end Coordinator

section LockstepPATs

variable {K : Type} [LinearOrderedField K]

/-- The two accessors of `ConnectionLoadData` (declared in `ConnectionLoadData.h`)
that `ComputeLockstepPATs` calls, as the values they return. -/
structure ConnectionLoadData (K : Type) where
  relativeLoad : K
  boardingProbability : K

/-- `ComputeLockstepPATs::ConnectionLabel`; `PerceivedTime` is a `double`. -/
structure ConnectionLabel (K : Type) where
  tripPAT : K
  transferPAT : K
  failureTransferPAT : K
  hopOnPAT : K
  skipPAT : K
  loadFactor : K

/-- `ConnectionLabel::bestPAT`. -/
def ConnectionLabel.bestPAT (label : ConnectionLabel K) : K :=
  stdMin label.hopOnPAT label.skipPAT

/-- `ComputeLockstepPATs::quadraticLoadFactor`. -/
def quadraticLoadFactor (settings : Settings K) (relativeLoad : K) : K :=
  let shiftedLoad := relativeLoad - settings.loadFactorCutoff
  settings.loadFactorCoefficient1 * shiftedLoad * shiftedLoad

/-- The member `loadFactorCorrection`, as the constructor of `ComputeLockstepPATs`
initialises it. -/
def loadFactorCorrection (settings : Settings K) : K :=
  quadraticLoadFactor settings settings.loadFactorSwitchPoint - settings.loadFactorCoefficient2

/-- `ComputeLockstepPATs::exponentialLoadFactor`; `exp` is the library function of
`<cmath>`. -/
def exponentialLoadFactor (exp : K → K) (settings : Settings K) (relativeLoad : K) : K :=
  settings.loadFactorCoefficient2 * exp (relativeLoad - settings.loadFactorSwitchPoint)
    + loadFactorCorrection settings

/-- `ComputeLockstepPATs::computeLoadFactor`; the read-only vector `loadData` is a
function of the connection id. -/
def computeLoadFactor (exp : K → K) (settings : Settings K)
    (loadData : Nat → ConnectionLoadData K) (connection : Nat) : K :=
  let relativeLoad := (loadData connection).relativeLoad
  if relativeLoad ≤ settings.loadFactorCutoff then 0
  else if relativeLoad ≤ settings.loadFactorSwitchPoint then quadraticLoadFactor settings relativeLoad
  else exponentialLoadFactor exp settings relativeLoad

/-- The piecewise reference function of the specification, written as a relation
between the relative load `rho` and the load factor `phi`:
`phi = 0` when `rho ≤ cutoff`; `phi = a·(rho − cutoff)²` when `cutoff < rho ≤ switch`;
`phi = b·exp(rho − switch) + k` when `rho > switch`, with
`k = a·(switch − cutoff)² − b`. -/
def loadFactorReference (exp : K → K) (settings : Settings K) (rho phi : K) : Prop :=
  (rho ≤ settings.loadFactorCutoff → phi = 0) ∧
  (settings.loadFactorCutoff < rho ∧ rho ≤ settings.loadFactorSwitchPoint →
    phi = settings.loadFactorCoefficient1 * (rho - settings.loadFactorCutoff) ^ 2) ∧
  (rho > settings.loadFactorSwitchPoint →
    phi = settings.loadFactorCoefficient2 * exp (rho - settings.loadFactorSwitchPoint)
      + (settings.loadFactorCoefficient1
          * (settings.loadFactorSwitchPoint - settings.loadFactorCutoff) ^ 2
        - settings.loadFactorCoefficient2))

end LockstepPATs

section PassengerData

variable {K : Type}

/-- The fields of `AccumulatedVertexDemand::Entry` that `Assignment::getPassengerData`
reads. -/
structure DemandEntry where
  demandIndex : Nat
  originVertex : Nat
  destinationVertex : Nat
  earliestDepartureTime : Int
  numberOfPassengers : Int
deriving DecidableEq, Repr

/-- The fields of an entry of `IdVertexDemand` that `getPassengerData` reads; `ids`
are the destination specific passenger ids of the entry. -/
structure IdVertexDemandEntry where
  originVertex : Nat
  destinationVertex : Nat
  departureTime : Int
  ids : List Nat
deriving DecidableEq, Repr

/-- The ways in which `getPassengerData` stops: its seven assertions, in source
order, a read of `globalPassengerListByDemandIndex` outside the vector, and a value of
`int passengerCount` outside the range of `int`, for which the behaviour of the code is
undefined. -/
inductive PassengerDataFailure where
  | demandNotSorted
  | idVertexDemandIndexOutOfBounds
  | destinationVertexMismatch
  | originVertexMismatch
  | departureTimeMismatch
  | idVertexDemandMissing
  | notEnoughPassengersForGroup
  | passengersNotAssignedToGroup
  | demandIndexOutOfRange
  | passengerCountOverflow
deriving DecidableEq, Repr

/-- What `getPassengerData` hands to `PassengerData::FromApportionment`. -/
structure PassengerLists where
  globalPassengerListByGroupId : List (List Nat)
  passengersInConnection : List (List Nat)
  unassignedPassengers : List Nat
  walkingPassengers : List Nat
deriving DecidableEq, Repr

/-- Whether a value lies in the range of `int`, which has 32 bits. -/
def fitsInt (x : Int) : Bool := decide (-(2 : Int) ^ 31 ≤ x) && decide (x < (2 : Int) ^ 31)

/-- `std::vector::resize` on a vector of passenger lists. -/
def resizeLists (lists : List (List Nat)) (n : Nat) : List (List Nat) :=
  lists.take n ++ List.replicate (n - lists.length) []

/-- The while loop of `getPassengerData` for one demand entry. `rest` are the entries
of `idVertexDemand` from `idVertexDemandIndex` on, `passengers` is
`globalPassengerListByDemandIndex[demandEntry.demandIndex]`. The helper
`getGlobalPassengerId` is a parameter. `passengerCount--` runs once for every id of the
entry; the loop stops when that takes the `int` below its range. -/
def collectPassengers (getGlobalPassengerId : Nat → Nat → Nat) (demandEntry : DemandEntry) :
    List IdVertexDemandEntry → Int → List Nat →
      Except PassengerDataFailure (List IdVertexDemandEntry × Int × List Nat)
  | [], passengerCount, passengers =>
    if passengerCount > 0 then .error .idVertexDemandIndexOutOfBounds
    else .ok ([], passengerCount, passengers)
  | e :: rest, passengerCount, passengers =>
    if passengerCount > 0 then
      if e.destinationVertex ≠ demandEntry.destinationVertex then .error .destinationVertexMismatch
      else if e.originVertex ≠ demandEntry.originVertex then .error .originVertexMismatch
      else if e.departureTime ≠ demandEntry.earliestDepartureTime then .error .departureTimeMismatch
      else if ¬ fitsInt (passengerCount - e.ids.length) then .error .passengerCountOverflow
      else
        collectPassengers getGlobalPassengerId demandEntry rest (passengerCount - e.ids.length)
          (passengers ++ e.ids.map (getGlobalPassengerId demandEntry.destinationVertex))
    else .ok (e :: rest, passengerCount, passengers)

/-- One pass of the loop of `getPassengerData` over `demand.entries`; the state is
`globalPassengerListByDemandIndex` and the entries of `idVertexDemand` not yet read.
The product `numberOfPassengers * passengerMultiplier` is an `int`: the pass stops when
the product lies outside the range of `int`. -/
def collectDemandEntry (getGlobalPassengerId : Nat → Nat → Nat) (passengerMultiplier : Int)
    (state : List (List Nat) × List IdVertexDemandEntry) (demandEntry : DemandEntry) :
    Except PassengerDataFailure (List (List Nat) × List IdVertexDemandEntry) :=
  if ¬ (demandEntry.demandIndex + 1 ≥ state.1.length) then .error .demandNotSorted
  else if ¬ fitsInt (demandEntry.numberOfPassengers * passengerMultiplier) then
    .error .passengerCountOverflow
  else
    let lists := resizeLists state.1 (demandEntry.demandIndex + 1)
    match collectPassengers getGlobalPassengerId demandEntry state.2
        (demandEntry.numberOfPassengers * passengerMultiplier) (lists.getD demandEntry.demandIndex []) with
    | .error f => .error f
    | .ok (rest, passengerCount, passengers) =>
      if passengerCount ≠ 0 then .error .idVertexDemandMissing
      else .ok (lists.set demandEntry.demandIndex passengers, rest)

/-- The loop of `getPassengerData` over `demand.entries`. -/
def collectDemand (getGlobalPassengerId : Nat → Nat → Nat) (passengerMultiplier : Int) :
    List DemandEntry → List (List Nat) × List IdVertexDemandEntry →
      Except PassengerDataFailure (List (List Nat) × List IdVertexDemandEntry)
  | [], state => .ok state
  | demandEntry :: demand, state =>
    match collectDemandEntry getGlobalPassengerId passengerMultiplier state demandEntry with
    | .error f => .error f
    | .ok state1 => collectDemand getGlobalPassengerId passengerMultiplier demand state1

/-- The loop over `j` of `getPassengerData`: `groupSize` times, the last passenger of
the demand's list is appended to the group's list and removed from the demand's. -/
def movePassengers : Nat → List Nat → List Nat → List Nat × List Nat
  | 0, available, groupList => (available, groupList)
  | j + 1, available, groupList =>
    match available.getLast? with
    | none => (available, groupList)
    | some p => movePassengers j available.dropLast (groupList ++ [p])

/-- One pass of the loop of `getPassengerData` over the groups, for group `i`; the
state is `globalPassengerListByDemandIndex` and `globalPassengerListByGroupId`. -/
def assignGroup (groups : List GroupData) (state : List (List Nat) × List (List Nat)) (i : Nat) :
    Except PassengerDataFailure (List (List Nat) × List (List Nat)) :=
  let group := groups.getD i { demandIndex := 0, groupSize := 0 }
  if state.1.length ≤ group.demandIndex then .error .demandIndexOutOfRange
  else if ¬ (group.groupSize ≤ (state.1.getD group.demandIndex []).length) then
    .error .notEnoughPassengersForGroup
  else
    let moved := movePassengers group.groupSize (state.1.getD group.demandIndex []) (state.2.getD i [])
    .ok (state.1.set group.demandIndex moved.1, state.2.set i moved.2)

/-- The loop of `getPassengerData` over the groups; `indices` are the values that `i`
takes. -/
def assignGroups (groups : List GroupData) :
    List Nat → List (List Nat) × List (List Nat) →
      Except PassengerDataFailure (List (List Nat) × List (List Nat))
  | [], state => .ok state
  | i :: indices, state =>
    match assignGroup groups state i with
    | .error f => .error f
    | .ok state1 => assignGroups groups indices state1

/-- The values of `i` in `for (size_t i = size - 1; i < size; i--)`: `size - 1`
down to 0, none when `size` is 0. -/
def descendingIndices (size : Nat) : List Nat := (List.range size).reverse

/-- The passengers of a list of groups, one group after the other. -/
def passengersOfGroups (globalPassengerListByGroupId : List (List Nat)) (groupIds : List Nat) : List Nat :=
  (groupIds.map (fun groupId => globalPassengerListByGroupId.getD groupId [])).flatten

/-- `Assignment::getPassengerData` up to the call of `PassengerData::FromApportionment`.
`idVertexDemand` is the list of entries that `IdVertexDemand::FromAccumulatedVertexDemand`
returns and `getGlobalPassengerId` the helper of that name; both are parameters. -/
def getPassengerData (getGlobalPassengerId : Nat → Nat → Nat)
    (idVertexDemand : List IdVertexDemandEntry) (a : Assignment K) (demand : List DemandEntry) :
    Except PassengerDataFailure PassengerLists :=
  match collectDemand getGlobalPassengerId a.settings.passengerMultiplier demand ([], idVertexDemand) with
  | .error f => .error f
  | .ok (globalPassengerListByDemandIndex, _) =>
    match assignGroups a.assignmentData.groups (descendingIndices a.assignmentData.groups.length)
        (globalPassengerListByDemandIndex, List.replicate a.assignmentData.groups.length []) with
    | .error f => .error f
    | .ok (remaining, globalPassengerListByGroupId) =>
      if ¬ remaining.all (fun l => l.isEmpty) then .error .passengersNotAssignedToGroup
      else
        .ok { globalPassengerListByGroupId := globalPassengerListByGroupId
              passengersInConnection :=
                a.assignmentData.groupsPerConnection.map (passengersOfGroups globalPassengerListByGroupId)
              unassignedPassengers :=
                passengersOfGroups globalPassengerListByGroupId a.assignmentData.unassignedGroups
              walkingPassengers :=
                passengersOfGroups globalPassengerListByGroupId a.assignmentData.directWalkingGroups }

/-- The sum of `groupSize` over the groups with demand index `d`. -/
def groupTotal (groups : List GroupData) (d : Nat) : Nat :=
  ((groups.filter (fun g => g.demandIndex = d)).map (fun g => g.groupSize)).sum

/-- The sum of `numberOfPassengers * passengerMultiplier` over the demand entries
with demand index `d`. -/
def demandTotal (passengerMultiplier : Int) (demand : List DemandEntry) (d : Nat) : Int :=
  ((demand.filter (fun e => e.demandIndex = d)).map
    (fun e => e.numberOfPassengers * passengerMultiplier)).sum

end PassengerData


section LockstepRun

/-- `CSA::Connection`, with the five members that `ComputeLockstepPATs` reads. -/
structure CSA.Connection where
  departureStopId : Nat
  arrivalStopId : Nat
  departureTime : Int
  arrivalTime : Int
  tripId : Nat
deriving DecidableEq, Repr

/-- An edge of `CSA::TransferGraph` as its two attributes `ToVertex` and `TravelTime`. -/
structure CSA.TransferEdge where
  toVertex : Nat
  travelTime : Int
deriving DecidableEq, Repr

/-- `CSA::TransferGraph`: the number of vertices and the out-edges of every vertex in
the order in which `edgesFrom` lists them. -/
structure CSA.TransferGraph where
  numVertices : Nat
  outEdges : List (List CSA.TransferEdge)

/-- `isVertex` of the graph: `vertex < numVertices()`, as `Graph::Union::isVertex`
has it. -/
def CSA.TransferGraph.isVertex (graph : CSA.TransferGraph) (vertex : Nat) : Bool :=
  decide (vertex < graph.numVertices)

/-- `edgesFrom` of the graph. -/
def CSA.TransferGraph.edgesFrom (graph : CSA.TransferGraph) (vertex : Nat) : List CSA.TransferEdge :=
  graph.outEdges.getD vertex []

/-- The view of `CSA::Data` that `ComputeLockstepPATs` uses; `isStop` and
`minTransferTime` are declared in `CSA/Data.h` and taken as they are. -/
structure CSA.Data where
  numberOfStops : Nat
  numberOfTrips : Nat
  connections : List CSA.Connection
  isStop : Nat → Bool
  minTransferTime : Nat → Int

/-- `data.numberOfConnections()`. -/
def CSA.Data.numberOfConnections (data : CSA.Data) : Nat := data.connections.length

/-- The operations of `ProfileEntry` (type `E`, `Profile.h`) and `StopLabel` (type
`L`, `StopLabel.h`) that `ComputeLockstepPATs` calls. Their bodies are not part of
the sources; a mutating member function is the function from the old to the new
object. -/
structure StopLabelOps (K E L : Type) where
  /-- `StopLabel()`, the value that `Vector::fill(stopLabels)` writes. -/
  emptyLabel : L
  /-- `ProfileEntry(departureTime, connection, pat, waitingCosts)`. -/
  waitingEntry : Int → Nat → K → K → E
  /-- `ProfileEntry(departureTime, connection, pat, transferTime, bufferTime,
  walkingCosts, waitingCosts)`. -/
  transferEntry : Int → Nat → K → Int → Int → K → K → E
  /-- The member `departureTime` of a profile entry. -/
  departureTime : E → Int
  /-- `ProfileEntry::evaluate(time, waitingCosts)`. -/
  evaluate : E → Int → K → K
  /-- `StopLabel::getSkipEntry()`. -/
  getSkipEntry : L → E
  /-- `StopLabel::getFailureEntry(time)`. -/
  getFailureEntry : L → Int → E
  /-- `StopLabel::evaluateWithDelay(time, maxDelay, waitingCosts)`. -/
  evaluateWithDelay : L → Int → Int → K → K
  /-- `StopLabel::addWaitingEntry(entry)`. -/
  addWaitingEntry : L → E → L
  /-- `StopLabel::addTransferEntry(entry, profiler)`. -/
  addTransferEntry : L → E → L
  /-- `StopLabel::getWaitingProfile()`. -/
  getWaitingProfile : L → List E

/-- `ComputeLockstepPATs::PATProfileContainer`. -/
structure PATProfileContainer (E : Type) where
  firstEntry : List Nat
  entries : List E
  scanIndex : List Nat

/-- The constructor of `PATProfileContainer` and also the state after `clear()`. -/
def PATProfileContainer.empty (E : Type) : PATProfileContainer E :=
  { firstEntry := [0], entries := [], scanIndex := [] }

/-- `PATProfileContainer::addProfile`; `entries.size() - 1` is a `size_t`. -/
def PATProfileContainer.addProfile {E : Type} (c : PATProfileContainer E) (profile : List E) :
    PATProfileContainer E :=
  { entries := c.entries ++ profile
    scanIndex := c.scanIndex ++ [((c.entries ++ profile).length + sizeLimit - 1) % sizeLimit]
    firstEntry := c.firstEntry ++ [(c.entries ++ profile).length] }

/-- `ComputeLockstepPATs::PATData`. -/
structure PATData (K E : Type) where
  profiles : PATProfileContainer E
  transferDistanceToTarget : List Int
  connectionLabels : List (ConnectionLabel K)

/-- The default member initialisers of `ConnectionLabel`. -/
def ConnectionLabel.fresh {K : Type} [LinearOrderedField K] (unreachable : K) : ConnectionLabel K :=
  { tripPAT := unreachable
    transferPAT := unreachable
    failureTransferPAT := unreachable
    hopOnPAT := unreachable
    skipPAT := unreachable
    loadFactor := 0 }

/-- The constructor `PATData(numberOfStops, numberOfConnections)`. -/
def PATData.fresh {K : Type} [LinearOrderedField K] (E : Type) (unreachable : K) (infty : Int)
    (numberOfStops numberOfConnections : Nat) : PATData K E :=
  { profiles := PATProfileContainer.empty E
    transferDistanceToTarget := List.replicate numberOfStops infty
    connectionLabels := List.replicate numberOfConnections (ConnectionLabel.fresh unreachable) }

/-- `PATData::targetPAT(stop, time)`. -/
def PATData.targetPAT {K E : Type} [LinearOrderedField K] (unreachable : K) (infty : Int)
    (patData : PATData K E) (stop : Nat) (time : Int) : K :=
  if patData.transferDistanceToTarget.getD stop 0 < infty then
    ((time + patData.transferDistanceToTarget.getD stop 0 : Int) : K)
  else unreachable

/-- `PATData::failureTargetPAT(connection)`. -/
def PATData.failureTargetPAT {K E : Type} [LinearOrderedField K] (unreachable : K) (infty : Int)
    (patData : PATData K E) (connection : CSA.Connection) : K :=
  patData.targetPAT unreachable infty connection.departureStopId connection.departureTime

/-- What a `ComputeLockstepPATs` object refers to and never changes: the constructor
arguments `data`, `reverseGraph`, `settings`, `loadData`, the template flag
`UseTransferBufferTimes`, the constants `INFTY` and `Unreachable` (declared outside
the sources), the library function `exp`, and the operations of the stop labels. -/
structure LockstepContext (K E L : Type) where
  data : CSA.Data
  reverseGraph : CSA.TransferGraph
  settings : Settings K
  loadData : Nat → ConnectionLoadData K
  useTransferBufferTimes : Bool
  infty : Int
  unreachable : K
  exp : K → K
  ops : StopLabelOps K E L

/-- The members of a `ComputeLockstepPATs` object that change: `patData` (the vector
behind the reference), `patDataIndex`, `tripPAT`, `stopLabels` and `targetVertex`
(`none` is `noVertex`, for which `isVertex` is false). -/
structure ComputeLockstepPATs (K E L : Type) where
  patData : List (PATData K E)
  patDataIndex : Nat
  tripPAT : List K
  stopLabels : List L
  targetVertex : Option Nat

variable {K E L : Type} [LinearOrderedField K]

/-- The object `patData[patDataIndex]`. -/
def ComputeLockstepPATs.currentPATData (ctx : LockstepContext K E L)
    (st : ComputeLockstepPATs K E L) : PATData K E :=
  st.patData.getD st.patDataIndex (PATData.fresh E ctx.unreachable ctx.infty 0 0)

/-- A write to `patData[patDataIndex].transferDistanceToTarget`. -/
def ComputeLockstepPATs.setDistances (ctx : LockstepContext K E L)
    (st : ComputeLockstepPATs K E L) (distances : List Int) : ComputeLockstepPATs K E L :=
  let current := st.currentPATData ctx
  { st with
    patData := st.patData.set st.patDataIndex { current with transferDistanceToTarget := distances } }

/-- The loop over `reverseGraph.edgesFrom(targetVertex)` that `initialize` and
`cleanUp` share: the distance of every head that is a stop is set to `value edge`. -/
def relaxTargetEdges (ctx : LockstepContext K E L) (value : CSA.TransferEdge → Int)
    (target : Nat) (distances : List Int) : List Int :=
  (ctx.reverseGraph.edgesFrom target).foldl
    (fun d edge => if ctx.data.isStop edge.toVertex then d.set edge.toVertex (value edge) else d)
    distances

/-- The distances after `cleanUp()` for target vertex `target`. -/
def cleanUpDistances (ctx : LockstepContext K E L) (target : Nat) (distances : List Int) : List Int :=
  let d := relaxTargetEdges ctx (fun _ => ctx.infty) target distances
  if ctx.data.isStop target then d.set target ctx.infty else d

/-- `ComputeLockstepPATs::cleanUp`, for `targetVertex = target`. -/
def ComputeLockstepPATs.cleanUp (ctx : LockstepContext K E L) (st : ComputeLockstepPATs K E L)
    (target : Nat) : ComputeLockstepPATs K E L :=
  st.setDistances ctx (cleanUpDistances ctx target (st.currentPATData ctx).transferDistanceToTarget)

/-- `ComputeLockstepPATs::clear`. -/
def ComputeLockstepPATs.clear (ctx : LockstepContext K E L) (st : ComputeLockstepPATs K E L) :
    ComputeLockstepPATs K E L :=
  let st1 : ComputeLockstepPATs K E L :=
    { st with
      tripPAT := List.replicate st.tripPAT.length ctx.unreachable
      stopLabels := List.replicate st.stopLabels.length ctx.ops.emptyLabel }
  match st1.targetVertex with
  | none => st1
  | some target => if ctx.reverseGraph.isVertex target then st1.cleanUp ctx target else st1

/-- The integer nearest to `x`; of two nearest integers the even one. -/
def roundHalfEven [FloorRing K] (x : K) : Int :=
  if x - ⌊x⌋ < 1 / 2 then ⌊x⌋
  else if 1 / 2 < x - ⌊x⌋ then ⌊x⌋ + 1
  else if ⌊x⌋ % 2 = 0 then ⌊x⌋ else ⌊x⌋ + 1

/-- The `double` that an arithmetic operation with the exact result `x` returns (IEEE
754 binary64, rounding to nearest, ties to even): the nearest multiple of
`2 ^ (e - 52)`, where `2 ^ e ≤ |x| < 2 ^ (e + 1)`. The limits of the exponent of a
`double` are left out; the sum `walkingCosts + 1` and its product with an `int` do not
reach the subnormal numbers, and a product beyond the largest `double` is outside the
range of `int` like the infinity that the machine returns for it. -/
def roundToDouble [FloorRing K] (x : K) : K :=
  if x = 0 then 0
  else (roundHalfEven (x / (2 : K) ^ (Int.log 2 |x| - 52)) : K) * (2 : K) ^ (Int.log 2 |x| - 52)

/-- The conversion of a `double` to an `int`: the fraction is dropped. For a value
outside the range of `int` the conversion is undefined in C++; the model returns the
value `INT_MIN` that the conversion instruction of x86-64 returns. -/
def doubleToInt [FloorRing K] (x : K) : Int :=
  if fitsInt (if 0 ≤ x then ⌊x⌋ else ⌈x⌉) then (if 0 ≤ x then ⌊x⌋ else ⌈x⌉) else -2 ^ 31

/-- The distances after `initialize(target)`. The value stored for the head of an edge
is `(settings.walkingCosts + 1) * reverseGraph.get(TravelTime, edge)` as the machine
computes it: the sum is rounded to a `double`, the travel time is converted to a
`double` without rounding, the product is rounded to a `double`, and the assignment to
the `int` entry drops its fraction. -/
def initializeDistances [FloorRing K] (ctx : LockstepContext K E L) (target : Nat)
    (distances : List Int) : List Int :=
  let d := relaxTargetEdges ctx
    (fun edge =>
      doubleToInt (roundToDouble (roundToDouble (ctx.settings.walkingCosts + 1)
        * (edge.travelTime : K))))
    target distances
  if ctx.data.isStop target then d.set target 0 else d

/-- `ComputeLockstepPATs::initialize`. -/
def ComputeLockstepPATs.initialize [FloorRing K] (ctx : LockstepContext K E L)
    (st : ComputeLockstepPATs K E L) (target : Nat) : ComputeLockstepPATs K E L :=
  let st1 : ComputeLockstepPATs K E L := { st with targetVertex := some target }
  st1.setDistances ctx (initializeDistances ctx target (st1.currentPATData ctx).transferDistanceToTarget)

end LockstepRun
section LockstepScan

variable {K E L : Type} [LinearOrderedField K]

/-- The connection `data.connections[i]`. -/
def connectionAt (ctx : LockstepContext K E L) (i : Nat) : CSA.Connection :=
  ctx.data.connections.getD i
    { departureStopId := 0, arrivalStopId := 0, departureTime := 0, arrivalTime := 0, tripId := 0 }

/-- The stop label `stopLabels[stop]`. -/
def ComputeLockstepPATs.stopLabel (ctx : LockstepContext K E L) (st : ComputeLockstepPATs K E L)
    (stop : Nat) : L :=
  st.stopLabels.getD stop ctx.ops.emptyLabel

/-- The connection label `patData[patDataIndex].connectionLabels[i]`. -/
def ComputeLockstepPATs.connectionLabel (ctx : LockstepContext K E L)
    (st : ComputeLockstepPATs K E L) (i : Nat) : ConnectionLabel K :=
  (st.currentPATData ctx).connectionLabels.getD i (ConnectionLabel.fresh ctx.unreachable)

/-- A write to `patData[patDataIndex].connectionLabels[i]`. -/
def ComputeLockstepPATs.setConnectionLabel (ctx : LockstepContext K E L)
    (st : ComputeLockstepPATs K E L) (i : Nat) (label : ConnectionLabel K) :
    ComputeLockstepPATs K E L :=
  let current := st.currentPATData ctx
  { st with
    patData := st.patData.set st.patDataIndex
      { current with connectionLabels := current.connectionLabels.set i label } }

/-- The local `hopOnLoadCost` of the scan of connection `i`. -/
def hopOnLoadCost (ctx : LockstepContext K E L) (i : Nat) : K :=
  computeLoadFactor ctx.exp ctx.settings ctx.loadData i * ctx.settings.congestionEnterCosts

/-- The local `travelLoadCost` of the scan of connection `i`. -/
def travelLoadCost (ctx : LockstepContext K E L) (i : Nat) : K :=
  computeLoadFactor ctx.exp ctx.settings ctx.loadData i
    * (((connectionAt ctx i).arrivalTime - (connectionAt ctx i).departureTime : Int) : K)
    * ctx.settings.congestionTravelCosts

/-- The local `hopOffLoadCost` of the scan of connection `i`. -/
def hopOffLoadCost (ctx : LockstepContext K E L) (i : Nat) : K :=
  computeLoadFactor ctx.exp ctx.settings ctx.loadData i * ctx.settings.congestionExitCosts

/-- The local `fullLoadCost` of the scan of connection `i`. -/
def fullLoadCost (ctx : LockstepContext K E L) (i : Nat) : K :=
  hopOnLoadCost ctx i + travelLoadCost ctx i + hopOffLoadCost ctx i

/-- The local `skipEntry` of the scan of connection `i`. -/
def skipEntry (ctx : LockstepContext K E L) (st : ComputeLockstepPATs K E L) (i : Nat) : E :=
  ctx.ops.getSkipEntry (st.stopLabel ctx (connectionAt ctx i).departureStopId)

/-- The connection label after the five assignments to `loadFactor`, `tripPAT`,
`transferPAT`, `failureTransferPAT` and `skipPAT` in the scan of connection `i`. -/
def scannedLabel (ctx : LockstepContext K E L) (st : ComputeLockstepPATs K E L) (i : Nat) :
    ConnectionLabel K :=
  let connection := connectionAt ctx i
  { st.connectionLabel ctx i with
    loadFactor := computeLoadFactor ctx.exp ctx.settings ctx.loadData i
    tripPAT := st.tripPAT.getD connection.tripId 0
    transferPAT :=
      ctx.ops.evaluateWithDelay (st.stopLabel ctx connection.arrivalStopId) connection.arrivalTime
        ctx.settings.maxDelay ctx.settings.waitingCosts + ctx.settings.transferCosts
    failureTransferPAT :=
      ctx.ops.evaluateWithDelay (st.stopLabel ctx connection.departureStopId) connection.departureTime
        ctx.settings.maxDelay ctx.settings.waitingCosts + ctx.settings.transferCosts
    skipPAT := ctx.ops.evaluate (skipEntry ctx st i) connection.departureTime ctx.settings.waitingCosts }

/-- The local `travelPAT` of the scan of connection `i`. -/
def travelPAT (ctx : LockstepContext K E L) (st : ComputeLockstepPATs K E L) (i : Nat) : K :=
  (scannedLabel ctx st i).tripPAT + hopOnLoadCost ctx i + travelLoadCost ctx i

/-- `ComputeLockstepPATs::targetPAT(connection, loadTerm)`. -/
def ComputeLockstepPATs.targetPAT (ctx : LockstepContext K E L) (st : ComputeLockstepPATs K E L)
    (connection : CSA.Connection) (loadTerm : K) : K :=
  let distance := (st.currentPATData ctx).transferDistanceToTarget.getD connection.arrivalStopId 0
  if distance < ctx.infty then (connection.arrivalTime : K) + loadTerm + (distance : K)
  else ctx.unreachable

/-- The local `walkingPAT` of the scan of connection `i`. -/
def walkingPAT (ctx : LockstepContext K E L) (st : ComputeLockstepPATs K E L) (i : Nat) : K :=
  st.targetPAT ctx (connectionAt ctx i) (fullLoadCost ctx i)

/-- The local `transferPAT` of the scan of connection `i`. -/
def transferPAT (ctx : LockstepContext K E L) (st : ComputeLockstepPATs K E L) (i : Nat) : K :=
  (scannedLabel ctx st i).transferPAT + fullLoadCost ctx i

/-- The local `pat` of the scan of connection `i`: the perceived arrival time when
boarding succeeds. -/
def boardingPAT (ctx : LockstepContext K E L) (st : ComputeLockstepPATs K E L) (i : Nat) : K :=
  stdMin (stdMin (travelPAT ctx st i) (walkingPAT ctx st i)) (transferPAT ctx st i)

/-- The local `failurePAT` of the scan of connection `i`. -/
def failurePAT (ctx : LockstepContext K E L) (st : ComputeLockstepPATs K E L) (i : Nat) : K :=
  let connection := connectionAt ctx i
  let failureTargetPAT :=
    (st.currentPATData ctx).failureTargetPAT ctx.unreachable ctx.infty connection
  let nextEntry :=
    ctx.ops.getFailureEntry (st.stopLabel ctx connection.departureStopId) connection.departureTime
  let nextPAT := ctx.ops.evaluate nextEntry connection.departureTime ctx.settings.waitingCosts
  let strandingPAT :=
    boardingPAT ctx st i + (ctx.settings.waitingCosts + 1) * ctx.settings.strandingWaitingTime
  stdMin (stdMin failureTargetPAT nextPAT) strandingPAT

/-- The local `expectedPAT` of the scan of connection `i`. -/
def expectedPAT (ctx : LockstepContext K E L) (st : ComputeLockstepPATs K E L) (i : Nat) : K :=
  let boardingProbability := (ctx.loadData i).boardingProbability
  boardingProbability * boardingPAT ctx st i
    + (1 - boardingProbability) * (failurePAT ctx st i + ctx.settings.failureCosts)

/-- One pass of the loop over `reverseGraph.edgesFrom(connection.departureStopId)` in
the scan of connection `i`. -/
def addTransferAlongEdge (ctx : LockstepContext K E L) (i : Nat) (pat : K)
    (stopLabels : List L) (edge : CSA.TransferEdge) : List L :=
  let connection := connectionAt ctx i
  let bufferTime := ctx.data.minTransferTime connection.departureStopId
  if ¬ ctx.data.isStop edge.toVertex then stopLabels
  else
    stopLabels.set edge.toVertex
      (ctx.ops.addTransferEntry (stopLabels.getD edge.toVertex ctx.ops.emptyLabel)
        (ctx.ops.transferEntry connection.departureTime i pat edge.travelTime
          (if ctx.useTransferBufferTimes then bufferTime else 0)
          ctx.settings.walkingCosts ctx.settings.waitingCosts))

/-- The stop labels after the last part of the scan of connection `i`, which adds the
waiting entry, the transfer entry of the departure stop and the transfer entries
along the edges. -/
def addProfileEntries (ctx : LockstepContext K E L) (i : Nat) (pat : K) (stopLabels : List L) :
    List L :=
  let connection := connectionAt ctx i
  let withWaiting := stopLabels.set connection.departureStopId
    (ctx.ops.addWaitingEntry (stopLabels.getD connection.departureStopId ctx.ops.emptyLabel)
      (ctx.ops.waitingEntry connection.departureTime i pat ctx.settings.waitingCosts))
  let bufferTime := ctx.data.minTransferTime connection.departureStopId
  let withTransfer := withWaiting.set connection.departureStopId
    (ctx.ops.addTransferEntry (withWaiting.getD connection.departureStopId ctx.ops.emptyLabel)
      (ctx.ops.transferEntry connection.departureTime i pat 0 bufferTime
        ctx.settings.walkingCosts ctx.settings.waitingCosts))
  (ctx.reverseGraph.edgesFrom connection.departureStopId).foldl (addTransferAlongEdge ctx i pat)
    withTransfer

/-- The body of the loop of `ComputeLockstepPATs::run` for connection `i`. The two
assertions of the body change nothing and are left out. -/
def scanConnection (ctx : LockstepContext K E L) (st : ComputeLockstepPATs K E L) (i : Nat) :
    ComputeLockstepPATs K E L :=
  let connection := connectionAt ctx i
  let label := scannedLabel ctx st i
  let pat := boardingPAT ctx st i
  let st1 : ComputeLockstepPATs K E L :=
    { st.setConnectionLabel ctx i label with
      tripPAT := st.tripPAT.set connection.tripId
        (if pat ≥ ctx.unreachable then ctx.unreachable else pat - hopOnLoadCost ctx i) }
  if pat ≥ ctx.unreachable then st1
  else
    let expected := expectedPAT ctx st i
    let st2 := st1.setConnectionLabel ctx i { label with hopOnPAT := expected }
    if expected ≥ label.skipPAT then st2
    else { st2 with stopLabels := addProfileEntries ctx i expected st2.stopLabels }

/-- The part of `ComputeLockstepPATs::run` after the loop: the profile container is
cleared and receives the waiting profile of every stop. -/
def collectProfiles (ctx : LockstepContext K E L) (st : ComputeLockstepPATs K E L) :
    ComputeLockstepPATs K E L :=
  let current := st.currentPATData ctx
  { st with
    patData := st.patData.set st.patDataIndex
      { current with
        profiles := (List.range ctx.data.numberOfStops).foldl
          (fun c stop => c.addProfile (ctx.ops.getWaitingProfile (st.stopLabel ctx stop)))
          (PATProfileContainer.empty E) } }

/-- `ComputeLockstepPATs::run(target, index)`. The loop takes `i` from
`numberOfConnections - 1` down to 0. -/
def ComputeLockstepPATs.run [FloorRing K] (ctx : LockstepContext K E L)
    (st : ComputeLockstepPATs K E L) (target : Nat) (index : Nat) : ComputeLockstepPATs K E L :=
  let st1 : ComputeLockstepPATs K E L := { st with patDataIndex := index }
  let st2 := ComputeLockstepPATs.initialize ctx (st1.clear ctx) target
  collectProfiles ctx ((descendingIndices ctx.data.numberOfConnections).foldl (scanConnection ctx) st2)

end LockstepScan
section LockstepWellFormed

variable {K E L : Type} [LinearOrderedField K]

/-- The timetable refers to existing stops and trips only, and every vertex that is a
stop has a stop id. -/
def LockstepContext.wellFormed (ctx : LockstepContext K E L) : Prop :=
  (∀ c, c ∈ ctx.data.connections →
    c.departureStopId < ctx.data.numberOfStops ∧ c.arrivalStopId < ctx.data.numberOfStops ∧
    c.tripId < ctx.data.numberOfTrips) ∧
  (∀ v, ctx.data.isStop v = true → v < ctx.data.numberOfStops)

/-- The sizes that the constructors of `ComputeLockstepPATs` and `PATData` give to the
vectors, and a `patDataIndex` inside `patData`. -/
def ComputeLockstepPATs.wellFormed (ctx : LockstepContext K E L) (st : ComputeLockstepPATs K E L) :
    Prop :=
  st.patDataIndex < st.patData.length ∧
  (st.currentPATData ctx).connectionLabels.length = ctx.data.numberOfConnections ∧
  (st.currentPATData ctx).transferDistanceToTarget.length = ctx.data.numberOfStops ∧
  st.tripPAT.length = ctx.data.numberOfTrips ∧
  st.stopLabels.length = ctx.data.numberOfStops

end LockstepWellFormed

section LockstepFrame

variable {K E L : Type} [LinearOrderedField K]

/-- The vector `patData[j].transferDistanceToTarget`. -/
def ComputeLockstepPATs.distances (ctx : LockstepContext K E L) (st : ComputeLockstepPATs K E L)
    (j : Nat) : List Int :=
  (st.patData.getD j (PATData.fresh E ctx.unreachable ctx.infty 0 0)).transferDistanceToTarget

/-- The distances of `patData[patDataIndex]` after `clear()`: `cleanUp` runs for the
target vertex of the previous call, when there is one. -/
def clearedDistances (ctx : LockstepContext K E L) (targetVertex : Option Nat)
    (distances : List Int) : List Int :=
  match targetVertex with
  | none => distances
  | some target =>
    if ctx.reverseGraph.isVertex target then cleanUpDistances ctx target distances else distances

end LockstepFrame

section DemandOrder

/-- The comparator that `Assignment::run` passes to `sort`:
`a.earliestDepartureTime < b.earliestDepartureTime`. -/
def departsEarlier (a b : DemandEntry) : Bool :=
  decide (a.earliestDepartureTime < b.earliestDepartureTime)

/-- The loop over the destinations in one pass of `Assignment::run`, as far as
`demandByDestination` is concerned: when `iteration == 1` the list of each destination
is sorted in place, and the list is then handed to `worker.run`. `sort` stands for the
helper of that name. -/
def demandOfPass (sort : (DemandEntry → DemandEntry → Bool) → List DemandEntry → List DemandEntry)
    (iteration : Nat) (demandByDestination : List (List DemandEntry)) : List (List DemandEntry) :=
  demandByDestination.map
    (fun entries => if iteration = 1 then sort departsEarlier entries else entries)

/-- The lists of `demandByDestination` as `worker.run` receives them in pass `k` of
the loop of `Assignment::run`; for `k = 0` the lists that the constructor of
`SplitDemand` has built. The counter `iteration` is a `size_t` that starts at 1 and
is incremented after every pass. -/
def demandInPass (sort : (DemandEntry → DemandEntry → Bool) → List DemandEntry → List DemandEntry)
    (demandByDestination : List (List DemandEntry)) : Nat → List (List DemandEntry)
  | 0 => demandByDestination
  | k + 1 => demandOfPass sort ((k + 1) % sizeLimit) (demandInPass sort demandByDestination k)

end DemandOrder

section ProfileScan

variable {E : Type}

/-- `PATProfileContainer::begin`. -/
def PATProfileContainer.begin (c : PATProfileContainer E) (stop : Nat) : Nat :=
  c.firstEntry.getD stop 0

/-- `PATProfileContainer::end` (the word `end` is reserved). -/
def PATProfileContainer.stopEnd (c : PATProfileContainer E) (stop : Nat) : Nat :=
  c.firstEntry.getD (stop + 1) 0

/-- `PATProfileContainer::resetScanIndex`; `end(stop) - 1` is a `size_t`. -/
def PATProfileContainer.resetScanIndex (c : PATProfileContainer E) (stop : Nat) :
    PATProfileContainer E :=
  { c with scanIndex := c.scanIndex.set stop ((c.stopEnd stop + sizeLimit - 1) % sizeLimit) }

/-- The ways in which a call of `PATProfileContainer::findEntry` ends: it returns an
entry, one of its two assertions stops the program, or it reads `entries[index]` for
an `index` that is not below `entries.size()`. -/
inductive FindEntryOutcome (E : Type) where
  | returned (entry : E)
  | notMonotonous
  | noProfileEntry
  | outOfRange (index : Nat)
deriving DecidableEq, Repr

/-- The state of a call of `findEntry`: how it has ended, if it has, the value of
`scanIndex[stop]`, and the indices of `entries` that were read, in the order of the
reads. -/
structure ProfileScan (E : Type) where
  stopped : Option (FindEntryOutcome E)
  index : Nat
  reads : List Nat
deriving DecidableEq, Repr

/-- The first loop of `findEntry`,
`while (scanIndex[stop] + 1 < end(stop) && entries[scanIndex[stop] + 1].departureTime >= time) scanIndex[stop]++`,
for at most `fuel` evaluations of its condition. -/
def scanForward (departureTime : E → Int) (entries : List E) (stopEnd : Nat) (time : Int) :
    Nat → Nat → List Nat → ProfileScan E
  | 0, index, reads => { stopped := none, index := index, reads := reads }
  | fuel + 1, index, reads =>
    if (index + 1) % sizeLimit < stopEnd then
      match entries[(index + 1) % sizeLimit]? with
      | none =>
        { stopped := some (FindEntryOutcome.outOfRange ((index + 1) % sizeLimit)), index := index,
          reads := reads ++ [(index + 1) % sizeLimit] }
      | some entry =>
        if departureTime entry ≥ time then
          scanForward departureTime entries stopEnd time fuel ((index + 1) % sizeLimit)
            (reads ++ [(index + 1) % sizeLimit])
        else { stopped := none, index := index, reads := reads ++ [(index + 1) % sizeLimit] }
    else { stopped := none, index := index, reads := reads }

/-- The assertion between the two loops of `findEntry`:
`scanIndex[stop] + 1 >= end(stop) || entries[scanIndex[stop] + 1].departureTime < time`. -/
def checkMonotonous (departureTime : E → Int) (entries : List E) (stopEnd : Nat) (time : Int)
    (index : Nat) (reads : List Nat) : ProfileScan E :=
  if (index + 1) % sizeLimit < stopEnd then
    match entries[(index + 1) % sizeLimit]? with
    | none =>
      { stopped := some (FindEntryOutcome.outOfRange ((index + 1) % sizeLimit)), index := index,
        reads := reads ++ [(index + 1) % sizeLimit] }
    | some entry =>
      if departureTime entry < time then
        { stopped := none, index := index, reads := reads ++ [(index + 1) % sizeLimit] }
      else
        { stopped := some FindEntryOutcome.notMonotonous, index := index,
          reads := reads ++ [(index + 1) % sizeLimit] }
  else { stopped := none, index := index, reads := reads }

/-- The second loop of `findEntry` and the `return` after it:
`while (entries[scanIndex[stop]].departureTime < time) { scanIndex[stop]--; Assert(scanIndex[stop] >= begin(stop), ...); }`.
The decrement of index 0 wraps to `2 ^ 64 - 1`; a vector has fewer elements than
that, so the read of the next pass is behind the end of `entries`. -/
def scanBackward (departureTime : E → Int) (entries : List E) (begin : Nat) (time : Int) :
    Nat → List Nat → ProfileScan E
  | 0, reads =>
    match entries[0]? with
    | none => { stopped := some (FindEntryOutcome.outOfRange 0), index := 0, reads := reads ++ [0] }
    | some entry =>
      if departureTime entry < time then
        if sizeLimit - 1 < begin then
          { stopped := some FindEntryOutcome.noProfileEntry, index := sizeLimit - 1,
            reads := reads ++ [0] }
        else
          { stopped := some (FindEntryOutcome.outOfRange (sizeLimit - 1)), index := sizeLimit - 1,
            reads := reads ++ [0, sizeLimit - 1] }
      else { stopped := some (FindEntryOutcome.returned entry), index := 0, reads := reads ++ [0] }
  | index + 1, reads =>
    match entries[index + 1]? with
    | none =>
      { stopped := some (FindEntryOutcome.outOfRange (index + 1)), index := index + 1,
        reads := reads ++ [index + 1] }
    | some entry =>
      if departureTime entry < time then
        if index < begin then
          { stopped := some FindEntryOutcome.noProfileEntry, index := index,
            reads := reads ++ [index + 1] }
        else scanBackward departureTime entries begin time index (reads ++ [index + 1])
      else
        { stopped := some (FindEntryOutcome.returned entry), index := index + 1,
          reads := reads ++ [index + 1] }

/-- The three parts of `findEntry` in sequence, on the value of `scanIndex[stop]`. The
first loop moves the index at most `end(stop)` times, so `end(stop) + 1` evaluations
of its condition are enough. -/
def findEntryScan (departureTime : E → Int) (entries : List E) (begin stopEnd : Nat) (time : Int)
    (index : Nat) : ProfileScan E :=
  let forward := scanForward departureTime entries stopEnd time (stopEnd + 1) index []
  match forward.stopped with
  | some outcome => { stopped := some outcome, index := forward.index, reads := forward.reads }
  | none =>
    let checked := checkMonotonous departureTime entries stopEnd time forward.index forward.reads
    match checked.stopped with
    | some outcome => { stopped := some outcome, index := checked.index, reads := checked.reads }
    | none => scanBackward departureTime entries begin time checked.index checked.reads

/-- `PATProfileContainer::findEntry(stop, time)`: the scan with the container that it
leaves behind. `departureTime` reads the member of that name of a `ProfileEntry`. -/
def PATProfileContainer.findEntry (departureTime : E → Int) (c : PATProfileContainer E)
    (stop : Nat) (time : Int) : ProfileScan E × PATProfileContainer E :=
  let scan := findEntryScan departureTime c.entries (c.begin stop) (c.stopEnd stop) time
    (c.scanIndex.getD stop 0)
  (scan, { c with scanIndex := c.scanIndex.set stop scan.index })

/-- A sequence of calls `findEntry(stop, time)` for the times of the list, in order:
the scans of the calls and the container after the last call. The sequence ends with
the first call that does not return an entry. -/
def findEntries (departureTime : E → Int) (stop : Nat) :
    PATProfileContainer E → List Int → List (ProfileScan E)
  | _, [] => []
  | c, time :: rest =>
    match (c.findEntry departureTime stop time).1.stopped with
    | some (FindEntryOutcome.returned _) =>
      (c.findEntry departureTime stop time).1
        :: findEntries departureTime stop (c.findEntry departureTime stop time).2 rest
    | _ => [(c.findEntry departureTime stop time).1]

end ProfileScan

section ProfileScanTrace

variable {E : Type}

/-- Whether a call of `findEntry` has returned an entry. -/
def ProfileScan.hasReturned (scan : ProfileScan E) : Bool :=
  match scan.stopped with
  | some (FindEntryOutcome.returned _) => true
  | _ => false

/-- The values of `scanIndex[stop]` after those calls of a sequence that have returned
an entry, in the order of the calls. -/
def returnedIndices (scans : List (ProfileScan E)) : List Nat :=
  (scans.filter ProfileScan.hasReturned).map ProfileScan.index

end ProfileScanTrace

section ReverseScan

/-- The loop `for (ConnectionId i = ...; i < data.numberOfConnections(); i--)` of
`ComputeLockstepPATs::run` from the value `i` on, for at most `fuel` evaluations of
its condition; `none` when the fuel does not suffice. `ConnectionId` is declared in
`Helpers/Types.h`; `idLimit` is the number of values of its unsigned integer type, so
that the decrement of 0 gives `idLimit - 1`. -/
def reverseLoop {S : Type} (idLimit n : Nat) (body : S → Nat → S) : Nat → Nat → S → Option S
  | 0, _, _ => none
  | fuel + 1, i, s =>
    if i < n then reverseLoop idLimit n body fuel ((i + idLimit - 1) % idLimit) (body s i)
    else some s

/-- The loop of `ComputeLockstepPATs::run` with its start value
`ConnectionId(data.numberOfConnections() - 1)`: the difference is a `size_t`, which the
constructor of `ConnectionId` truncates. -/
def reverseScan {S : Type} (idLimit n : Nat) (body : S → Nat → S) (fuel : Nat) (s : S) :
    Option S :=
  reverseLoop idLimit n body fuel (((n + sizeLimit - 1) % sizeLimit) % idLimit) s

end ReverseScan

section ReverseScanOrder

/-- The values that the loop variable of `for (i = n - 1; i < n; i--)` takes before
it reaches `i`: `n - 1` down to `i + 1`. -/
def indicesAbove (n i : Nat) : List Nat :=
  ((List.range (n - (i + 1))).map (fun k => i + 1 + k)).reverse

end ReverseScanOrder

section WaitingProfiles

variable {K E L : Type}

end WaitingProfiles

section GraphUnion

variable {A : Type}

/-- What `Graph::Union` calls on one of its two graphs. The graph classes are the
template parameters `GRAPH_A` and `GRAPH_B`; `getEdge` stands for
`get(attributeName, edge)` of one edge attribute. Vertices and edges are their ids. -/
structure Graph.View (A : Type) where
  numVertices : Nat
  edgeLimit : Nat
  findEdge : Nat → Nat → Nat
  hasEdge : Nat → Nat → Bool
  getEdge : Nat → A

/-- The members of `Graph::Union`: the graphs behind the pointers `graphA` and
`graphB`, and `offset`. -/
structure Graph.Union (A : Type) where
  graphA : Graph.View A
  graphB : Graph.View A
  offset : Nat

/-- The constant `noEdge`, the last value of the type `Edge`. `Edge` is declared in
`Helpers/Types.h`; `edgeValues` is the number of values of its unsigned integer
type. -/
def Graph.noEdge (edgeValues : Nat) : Nat := edgeValues - 1

/-- `Graph::Union::setGraphs(graphA, graphB)`. `sameType` is
`std::is_same_v<GraphA, GraphB>`; `Edge(graphA.edgeLimit())` converts a `size_t`. In
the branch that swaps the pointers, the assignment to `offset` names the parameter
`graphA`. The two assertions on the order of the edges change nothing and are left
out. -/
def Graph.Union.setGraphs (edgeValues : Nat) (sameType : Bool) (graphA graphB : Graph.View A) :
    Graph.Union A :=
  if sameType && decide (graphA.numVertices > graphB.numVertices) then
    { graphA := graphB, graphB := graphA, offset := graphA.edgeLimit % edgeValues }
  else
    { graphA := graphA, graphB := graphB, offset := graphA.edgeLimit % edgeValues }

/-- `Graph::Union::findEdge(from, to)`; the sum of two values of type `Edge` wraps. -/
def Graph.Union.findEdge (edgeValues : Nat) (u : Graph.Union A) (tail head : Nat) : Nat :=
  if u.graphA.findEdge tail head = Graph.noEdge edgeValues then
    (u.graphB.findEdge tail head + u.offset) % edgeValues
  else u.graphA.findEdge tail head

/-- `Graph::Union::hasEdge(from, to)`. -/
def Graph.Union.hasEdge (u : Graph.Union A) (tail head : Nat) : Bool :=
  u.graphA.hasEdge tail head || u.graphB.hasEdge tail head

/-- `Graph::Union::get(attributeName, edge)`; the difference `edge - offset` of two
values of type `Edge` wraps. -/
def Graph.Union.get (edgeValues : Nat) (u : Graph.Union A) (edge : Nat) : A :=
  if edge < u.offset then u.graphA.getEdge edge
  else u.graphB.getEdge ((edge + edgeValues - u.offset) % edgeValues)

end GraphUnion

section AnchorLabels

/-- `NewForwardPruningULTRARAPTOR::RoundLabel`. -/
structure RAPTOR.RoundLabel where
  arrivalTime : Int
  walkingDistance : Int
deriving DecidableEq, Repr

/-- The three values that `computeAnchorLabels` hands to the constructor of
`WalkingParetoLabel` (declared in `ArrivalLabel.h`). -/
structure RAPTOR.WalkingParetoLabel where
  arrivalTime : Int
  walkingDistance : Int
  numberOfTrips : Nat
deriving DecidableEq, Repr

/-- The members of `NewForwardPruningULTRARAPTOR` that `computeAnchorLabels` reads and
writes. -/
structure RAPTOR.NewForwardPruningULTRARAPTOR where
  rounds : List (List RAPTOR.RoundLabel)
  targetStop : Nat
  anchorLabels : List RAPTOR.WalkingParetoLabel

/-- The label `rounds[i][targetStop]`; `never` and `INFTY` are constants declared
outside the sources and fill the place of a label that does not exist. -/
def RAPTOR.targetLabel (never infty : Int) (s : RAPTOR.NewForwardPruningULTRARAPTOR) (i : Nat) :
    RAPTOR.RoundLabel :=
  (s.rounds.getD i []).getD s.targetStop { arrivalTime := never, walkingDistance := infty }

/-- The arrival time `anchorLabels.empty() ? never : anchorLabels.back().arrivalTime`. -/
def RAPTOR.backArrivalTime (never : Int) (anchorLabels : List RAPTOR.WalkingParetoLabel) : Int :=
  match anchorLabels.getLast? with
  | none => never
  | some back => back.arrivalTime

/-- The body of the loop of `computeAnchorLabels` for round `i`. -/
def RAPTOR.anchorStep (never infty : Int) (s : RAPTOR.NewForwardPruningULTRARAPTOR)
    (anchorLabels : List RAPTOR.WalkingParetoLabel) (i : Nat) : List RAPTOR.WalkingParetoLabel :=
  if (RAPTOR.targetLabel never infty s i).arrivalTime ≥ RAPTOR.backArrivalTime never anchorLabels
  then anchorLabels
  else
    anchorLabels ++
      [{ arrivalTime := (RAPTOR.targetLabel never infty s i).arrivalTime
         walkingDistance := (RAPTOR.targetLabel never infty s i).walkingDistance
         numberOfTrips := i / 2 }]

/-- The values of `i` in `for (size_t i = 1; i < rounds.size(); i += 2)`. -/
def RAPTOR.oddRounds (size : Nat) : List Nat :=
  (List.range (size / 2)).map (fun k => 2 * k + 1)

/-- `NewForwardPruningULTRARAPTOR::computeAnchorLabels`: the loop over the odd rounds
and `Vector::reverse`. -/
def RAPTOR.NewForwardPruningULTRARAPTOR.computeAnchorLabels (never infty : Int)
    (s : RAPTOR.NewForwardPruningULTRARAPTOR) : RAPTOR.NewForwardPruningULTRARAPTOR :=
  { s with
    anchorLabels :=
      ((RAPTOR.oddRounds s.rounds.length).foldl (RAPTOR.anchorStep never infty s)
        s.anchorLabels).reverse }

end AnchorLabels

section Examples

variable (K : Type) [LinearOrderedField K]

/-- Settings used to evaluate the definitions on concrete inputs. -/
def exampleSettings : Settings K :=
  { passengerMultiplier := 4
    convergenceLimit := 1 / 2
    maxDelay := 0
    waitingCosts := 0
    walkingCosts := 0
    transferCosts := 0
    failureCosts := 0
    strandingWaitingTime := 0
    congestionEnterCosts := 1
    congestionTravelCosts := 1
    congestionExitCosts := 1
    loadFactorCutoff := 1
    loadFactorSwitchPoint := 2
    loadFactorCoefficient1 := 3
    loadFactorCoefficient2 := 5 }

/-- Load units of a connection used to evaluate the definitions: the total size of
the groups listed for the connection. -/
def exampleConnectionLoad (d : AssignmentData) (c : Nat) : K :=
  (((d.groupsPerConnection.getD c []).map
      (fun g => (d.groups.getD g { demandIndex := 0, groupSize := 0 }).groupSize)).sum : Nat)

/-- One connection of capacity 1 carrying one group of `units` load units, with
current load `load`. -/
def exampleAssignment (units : Nat) (load : K) : Assignment K :=
  { numberOfConnections := 1
    connectionCapacity := [1]
    settings := exampleSettings K
    assignmentData :=
      { groups := [{ demandIndex := 0, groupSize := units }]
        groupsPerConnection := [[0]]
        unassignedGroups := []
        directWalkingGroups := [] }
    connectionLoad := [load] }

/-- Workers for the examples: every pass puts one group of `units` load units on
connection 0. -/
def constantWorkers (units : Nat) (_iteration : Nat) (_connectionLoad : List K) : AssignmentData :=
  { groups := [{ demandIndex := 0, groupSize := units }]
    groupsPerConnection := [[0]]
    unassignedGroups := []
    directWalkingGroups := [] }

/-- Workers for the examples, all-or-nothing: the 8 load units of the demand use
connection 0 while its smoothed load is below 1 and avoid it otherwise. -/
def alternatingWorkers (_iteration : Nat) (connectionLoad : List K) : AssignmentData :=
  { groups := [{ demandIndex := 0, groupSize := if connectionLoad.getD 0 0 < 1 then 8 else 0 }]
    groupsPerConnection := [[0]]
    unassignedGroups := []
    directWalkingGroups := [] }

/-- Demand for the examples: one passenger with demand index 0 and two with demand
index 2, both to vertex 9. -/
def exampleDemand : List DemandEntry :=
  [{ demandIndex := 0, originVertex := 5, destinationVertex := 9, earliestDepartureTime := 100,
     numberOfPassengers := 1 },
   { demandIndex := 2, originVertex := 6, destinationVertex := 9, earliestDepartureTime := 200,
     numberOfPassengers := 2 }]

/-- Passenger ids for `exampleDemand` with passenger multiplier 2. -/
def exampleIdVertexDemand : List IdVertexDemandEntry :=
  [{ originVertex := 5, destinationVertex := 9, departureTime := 100, ids := [0, 1] },
   { originVertex := 6, destinationVertex := 9, departureTime := 200, ids := [2, 3, 4] },
   { originVertex := 6, destinationVertex := 9, departureTime := 200, ids := [5] }]

/-- Demand with a repeated demand index: two entries with demand index 0 and one
passenger each. -/
def exampleRepeatedDemand : List DemandEntry :=
  [{ demandIndex := 0, originVertex := 5, destinationVertex := 9, earliestDepartureTime := 100,
     numberOfPassengers := 1 },
   { demandIndex := 0, originVertex := 5, destinationVertex := 9, earliestDepartureTime := 100,
     numberOfPassengers := 1 }]

/-- Passenger ids for `exampleRepeatedDemand` with passenger multiplier 1. -/
def exampleRepeatedIdVertexDemand : List IdVertexDemandEntry :=
  [{ originVertex := 5, destinationVertex := 9, departureTime := 100, ids := [0] },
   { originVertex := 5, destinationVertex := 9, departureTime := 100, ids := [1] }]

/-- Global passenger ids for the examples. -/
def exampleGlobalPassengerId (destinationVertex id : Nat) : Nat := 1000 * destinationVertex + id

/-- An object with passenger multiplier 2 whose groups split `exampleDemand`: sizes
1 and 1 for demand index 0, sizes 3 and 1 for demand index 2. -/
def exampleGroupedAssignment : Assignment K :=
  { numberOfConnections := 2
    connectionCapacity := [1, 1]
    settings := { exampleSettings K with passengerMultiplier := 2 }
    assignmentData :=
      { groups := [{ demandIndex := 0, groupSize := 1 }, { demandIndex := 2, groupSize := 3 },
                   { demandIndex := 0, groupSize := 1 }, { demandIndex := 2, groupSize := 1 }]
        groupsPerConnection := [[0, 1], [3]]
        unassignedGroups := [2]
        directWalkingGroups := [] }
    connectionLoad := [0, 0] }

/-- An object with passenger multiplier 1 and one group of size 1 with demand index
0. -/
def exampleRepeatedAssignment : Assignment K :=
  { numberOfConnections := 1
    connectionCapacity := [1]
    settings := { exampleSettings K with passengerMultiplier := 1 }
    assignmentData :=
      { groups := [{ demandIndex := 0, groupSize := 1 }]
        groupsPerConnection := [[0]]
        unassignedGroups := []
        directWalkingGroups := [] }
    connectionLoad := [0] }

/-- A profile entry of the example stop labels: a departure time and a perceived
arrival time. -/
structure ExampleEntry where
  departureTime : Int
  pat : K

/-- An implementation of the stop label operations used to evaluate the definitions:
a label is the list of its waiting entries and the list of its transfer entries,
newest first; an entry is evaluated as `pat + (departureTime − time)·(1 + waitingCosts)`,
and a label without a fitting entry answers with an entry that evaluates to
`unreachable`. -/
def exampleOps (unreachable : K) :
    StopLabelOps K (ExampleEntry K) (List (ExampleEntry K) × List (ExampleEntry K)) :=
  { emptyLabel := ([], [])
    waitingEntry := fun departureTime _ pat _ => { departureTime := departureTime, pat := pat }
    transferEntry := fun departureTime _ pat transferTime bufferTime walkingCosts _ =>
      { departureTime := departureTime - transferTime - bufferTime
        pat := pat + (1 + walkingCosts) * (transferTime : K) }
    departureTime := fun e => e.departureTime
    evaluate := fun e time waitingCosts =>
      if e.pat ≥ unreachable then unreachable
      else e.pat + ((e.departureTime - time : Int) : K) * (1 + waitingCosts)
    getSkipEntry := fun l => l.1.headD { departureTime := 0, pat := unreachable }
    getFailureEntry := fun l time =>
      (l.1.filter (fun e => decide (time < e.departureTime))).headD
        { departureTime := 0, pat := unreachable }
    evaluateWithDelay := fun l time _ waitingCosts =>
      match l.2.filter (fun e => decide (time ≤ e.departureTime)) with
      | [] => unreachable
      | e :: _ =>
        if e.pat ≥ unreachable then unreachable
        else e.pat + ((e.departureTime - time : Int) : K) * (1 + waitingCosts)
    addWaitingEntry := fun l e => (e :: l.1, l.2)
    addTransferEntry := fun l e => (l.1, e :: l.2)
    getWaitingProfile := fun l => l.1 }

/-- A network for the examples: stops 0, 1, 2 and the vertex 3 that is no stop, one
trip with the connection 0 → 1 departing 100 and arriving 110, and reverse-graph edges
0 → 2 (travel time 3), 0 → 3 (travel time 1), 1 → 2 (travel time 7). The relative
load 3/2 lies in the quadratic branch of the load factor, so `exp` is not called. -/
def exampleContext (walkingCosts transferCosts : K) :
    LockstepContext K (ExampleEntry K) (List (ExampleEntry K) × List (ExampleEntry K)) :=
  { data :=
      { numberOfStops := 3
        numberOfTrips := 1
        connections :=
          [{ departureStopId := 0, arrivalStopId := 1, departureTime := 100, arrivalTime := 110,
             tripId := 0 }]
        isStop := fun v => decide (v < 3)
        minTransferTime := fun _ => 5 }
    reverseGraph :=
      { numVertices := 4
        outEdges := [[{ toVertex := 2, travelTime := 3 }, { toVertex := 3, travelTime := 1 }],
                     [{ toVertex := 2, travelTime := 7 }], [], []] }
    settings := { exampleSettings K with walkingCosts := walkingCosts, transferCosts := transferCosts }
    loadData := fun _ => { relativeLoad := 3 / 2, boardingProbability := 1 / 2 }
    useTransferBufferTimes := false
    infty := 1000000
    unreachable := 1000000
    exp := fun x => 1 + x
    ops := exampleOps K 1000000 }

/-- A freshly constructed `ComputeLockstepPATs` object on `exampleContext` with
`patData` of `size` entries. -/
def exampleLockstep (size : Nat) :
    ComputeLockstepPATs K (ExampleEntry K) (List (ExampleEntry K) × List (ExampleEntry K)) :=
  { patData := List.replicate size (PATData.fresh (ExampleEntry K) 1000000 1000000 3 1)
    patDataIndex := sizeLimit - 1
    tripPAT := List.replicate 1 1000000
    stopLabels := List.replicate 3 ([], [])
    targetVertex := none }

/-- The object on `exampleContext` when `run(1, 0)` enters its loop: distance 0 for
the target 1, distance 7 for stop 2, trip and stop labels cleared. -/
def exampleScanState :
    ComputeLockstepPATs K (ExampleEntry K) (List (ExampleEntry K) × List (ExampleEntry K)) :=
  { patData :=
      [{ profiles := PATProfileContainer.empty (ExampleEntry K)
         transferDistanceToTarget := [1000000, 0, 7]
         connectionLabels := [ConnectionLabel.fresh 1000000] }]
    patDataIndex := 0
    tripPAT := [1000000]
    stopLabels := [([], []), ([], []), ([], [])]
    targetVertex := some 1 }

/-- The object of `exampleLockstep` after the assignment `patDataIndex = index`. -/
def exampleLockstepAt (size index : Nat) :
    ComputeLockstepPATs K (ExampleEntry K) (List (ExampleEntry K) × List (ExampleEntry K)) :=
  { exampleLockstep K size with patDataIndex := index }

/-- An instance of `sort` for the examples: insertion sort, which places `a` before
`b` when `less b a` is false. -/
def exampleSort (less : DemandEntry → DemandEntry → Bool) (l : List DemandEntry) :
    List DemandEntry :=
  l.insertionSort (fun a b => less b a = false)

/-- Demand of two destinations for the examples; the three entries of the first
destination have the departure times 300, 100, 200. -/
def exampleDemandByDestination : List (List DemandEntry) :=
  [[{ demandIndex := 0, originVertex := 5, destinationVertex := 9, earliestDepartureTime := 300,
      numberOfPassengers := 1 },
    { demandIndex := 1, originVertex := 6, destinationVertex := 9, earliestDepartureTime := 100,
      numberOfPassengers := 2 },
    { demandIndex := 2, originVertex := 7, destinationVertex := 9, earliestDepartureTime := 200,
      numberOfPassengers := 1 }],
   [{ demandIndex := 3, originVertex := 5, destinationVertex := 8, earliestDepartureTime := 50,
      numberOfPassengers := 1 }]]

/-- A profile container for the examples, with entries that are their departure
times: stop 0 has the entries 300, 200, 100, stop 1 has no entry and stop 2 has the
entries 250, 150. All scan indices are reset. -/
def exampleContainer : PATProfileContainer Int :=
  { firstEntry := [0, 3, 3, 5]
    entries := [300, 200, 100, 250, 150]
    scanIndex := [2, 2, 4] }

/-- The fresh object of `exampleLockstep` with one `PATData`, in which the label of
connection 0 holds `hopOnPAT = 119`, the value that `run(1, 0)` computes. -/
def exampleStaleLockstep :
    ComputeLockstepPATs K (ExampleEntry K) (List (ExampleEntry K) × List (ExampleEntry K)) :=
  { exampleLockstep K 1 with
    patData :=
      [{ profiles := PATProfileContainer.empty (ExampleEntry K)
         transferDistanceToTarget := [1000000, 1000000, 1000000]
         connectionLabels := [{ ConnectionLabel.fresh 1000000 with hopOnPAT := 119 }] }] }

/-- A second implementation of the stop label operations used to evaluate the scan:
the operations of `exampleOps`, with a skip entry that departs at `never` when the
waiting profile has no entry and with transfer entries that keep the departure time of
their connection. -/
def exampleProfileOps (unreachable : K) (never : Int) :
    StopLabelOps K (ExampleEntry K) (List (ExampleEntry K) × List (ExampleEntry K)) :=
  { exampleOps K unreachable with
    transferEntry := fun departureTime _ pat transferTime _ walkingCosts _ =>
      { departureTime := departureTime
        pat := pat + (1 + walkingCosts) * (transferTime : K) }
    getSkipEntry := fun l => l.1.headD { departureTime := never, pat := unreachable } }

/-- The network of `exampleContext` with two trips: the connection 2 → 0 departs at 98
and arrives at 99, the connection 0 → 1 departs at 100 and arrives at 110. The
connections are sorted by departure time. -/
def exampleTimetable :
    LockstepContext K (ExampleEntry K) (List (ExampleEntry K) × List (ExampleEntry K)) :=
  { exampleContext K 0 0 with
    data :=
      { numberOfStops := 3
        numberOfTrips := 2
        connections :=
          [{ departureStopId := 2, arrivalStopId := 0, departureTime := 98, arrivalTime := 99,
             tripId := 0 },
           { departureStopId := 0, arrivalStopId := 1, departureTime := 100, arrivalTime := 110,
             tripId := 1 }]
        isStop := fun v => decide (v < 3)
        minTransferTime := fun _ => 5 }
    ops := exampleProfileOps K 1000000 1000000 }

/-- A freshly constructed `ComputeLockstepPATs` object on `exampleTimetable` with one
`PATData`. -/
def exampleTimetableLockstep :
    ComputeLockstepPATs K (ExampleEntry K) (List (ExampleEntry K) × List (ExampleEntry K)) :=
  { patData := [PATData.fresh (ExampleEntry K) 1000000 1000000 3 2]
    patDataIndex := sizeLimit - 1
    tripPAT := List.replicate 2 1000000
    stopLabels := List.replicate 3 ([], [])
    targetVertex := none }

/-- A graph for the examples with the vertices 0, 1, 2 and the edges 0 → 1 and 1 → 2
with the ids 0 and 1; edge `e` has the attribute value `10 + e`. Edge ids have 32
bits. -/
def exampleGraphLarge : Graph.View Nat :=
  { numVertices := 3
    edgeLimit := 2
    findEdge := fun tail head =>
      if tail = 0 ∧ head = 1 then 0 else if tail = 1 ∧ head = 2 then 1 else 2 ^ 32 - 1
    hasEdge := fun tail head => decide ((tail = 0 ∧ head = 1) ∨ (tail = 1 ∧ head = 2))
    getEdge := fun e => 10 + e }

/-- A graph for the examples with the vertices 0, 1 and the edge 0 → 1 with the id 0;
edge `e` has the attribute value `20 + e`. -/
def exampleGraphSmall : Graph.View Nat :=
  { numVertices := 2
    edgeLimit := 1
    findEdge := fun tail head => if tail = 0 ∧ head = 1 then 0 else 2 ^ 32 - 1
    hasEdge := fun tail head => decide (tail = 0 ∧ head = 1)
    getEdge := fun e => 20 + e }

/-- A graph for the examples with the vertices 0, 1 and no edge. -/
def exampleGraphEmpty : Graph.View Nat :=
  { numVertices := 2
    edgeLimit := 0
    findEdge := fun _ _ => 2 ^ 32 - 1
    hasEdge := fun _ _ => false
    getEdge := fun e => 30 + e }

/-- Rounds for the examples, with one label per round, for the target stop 0: the
target is not reached in the rounds 0 to 2, at 500 in the rounds 3 and 4, at 450 in
the rounds 5 to 7. `never` is 1000000. -/
def exampleRounds : RAPTOR.NewForwardPruningULTRARAPTOR :=
  { rounds :=
      [[{ arrivalTime := 1000000, walkingDistance := 1000000 }],
       [{ arrivalTime := 1000000, walkingDistance := 1000000 }],
       [{ arrivalTime := 1000000, walkingDistance := 1000000 }],
       [{ arrivalTime := 500, walkingDistance := 7 }],
       [{ arrivalTime := 500, walkingDistance := 7 }],
       [{ arrivalTime := 450, walkingDistance := 9 }],
       [{ arrivalTime := 450, walkingDistance := 9 }],
       [{ arrivalTime := 450, walkingDistance := 9 }]]
    targetStop := 0
    anchorLabels := [] }

end Examples

/-! ## Theorems -/

section CoordinatorProofs

variable {K : Type} [LinearOrderedField K]

/-- Reading a vector after one write. -/
theorem getD_set_zero (l : List K) (i j : Nat) (v : K) :
    (l.set i v).getD j 0 = if i = j ∧ i < l.length then v else l.getD j 0 := by
  simp only [List.getD_eq_getElem?_getD, List.getElem?_set]
  by_cases hij : i = j
  · subst hij
    by_cases hl : i < l.length
    · simp [hl]
    · simp [hl, List.getElem?_eq_none (Nat.le_of_not_lt hl)]
  · simp [hij]

/-- Reading the zero-initialised vector. -/
theorem getD_replicate_zero (m c : Nat) : (List.replicate m (0 : K)).getD c 0 = 0 := by
  simp only [List.getD_eq_getElem?_getD, List.getElem?_replicate]
  split <;> rfl

/-- The fields of the scan state that one pass of the first loop changes. -/
theorem measureConnection_fields (g : AssignmentData → Nat → K) (a : Assignment K)
    (s : LoadScan K) (c : Nat) :
    (measureConnection g a s c).newConnectionLoad
        = s.newConnectionLoad.set c (getPassengerCountForConnection g a c) ∧
    (measureConnection g a s c).unfinishedConnections
        = if loadDiff a ((s.newConnectionLoad.set c (getPassengerCountForConnection g a c)).getD c 0) c
              ≥ a.settings.convergenceLimit
          then s.unfinishedConnections + 1 else s.unfinishedConnections := by
  unfold measureConnection
  dsimp only
  split <;> exact ⟨rfl, rfl⟩

/-- Invariant of the first loop of `updateConnectionLoad` after `n` connections. -/
theorem scan_upto (g : AssignmentData → Nat → K) (a : Assignment K) (init : LoadScan K)
    (hinit : init.newConnectionLoad = List.replicate a.connectionLoad.length 0)
    (hzero : init.unfinishedConnections = 0) (n : Nat) (hn : n ≤ a.connectionLoad.length) :
    ((List.range n).foldl (measureConnection g a) init).newConnectionLoad.length
        = a.connectionLoad.length ∧
    (∀ c, ((List.range n).foldl (measureConnection g a) init).newConnectionLoad.getD c 0
        = if c < n then getPassengerCountForConnection g a c else 0) ∧
    (((List.range n).foldl (measureConnection g a) init).unfinishedConnections = 0
        ↔ ∀ c, c < n → ¬ unfinished g a c) := by
  induction n with
  | zero =>
    refine ⟨by simp [hinit], fun c => ?_, by simp [hzero]⟩
    simp only [List.range_zero, List.foldl_nil, hinit, getD_replicate_zero]
    simp
  | succ n ih =>
    obtain ⟨hlen, hget, hunf⟩ := ih (Nat.le_of_succ_le hn)
    rw [List.range_succ, List.foldl_append, List.foldl_cons, List.foldl_nil]
    obtain ⟨hnew, hcount⟩ := measureConnection_fields g a ((List.range n).foldl (measureConnection g a) init) n
    have hlt : n < ((List.range n).foldl (measureConnection g a) init).newConnectionLoad.length := by
      rw [hlen]; exact hn
    refine ⟨by rw [hnew, List.length_set, hlen], fun c => ?_, ?_⟩
    · rw [hnew, getD_set_zero, hget]
      by_cases hc : n = c
      · subst hc
        simp [hlt]
      · have : ¬ (n = c ∧ n < ((List.range n).foldl (measureConnection g a) init).newConnectionLoad.length) :=
          fun h => hc h.1
        rw [if_neg this]
        by_cases hcn : c < n
        · simp [hcn, Nat.lt_succ_of_lt hcn]
        · have : ¬ c < n + 1 := by omega
          simp [hcn, this]
    · have hval : (((List.range n).foldl (measureConnection g a) init).newConnectionLoad.set n
          (getPassengerCountForConnection g a n)).getD n 0 = getPassengerCountForConnection g a n := by
        rw [getD_set_zero, if_pos ⟨rfl, hlt⟩]
      rw [hcount, hval]
      constructor
      · intro h c hc
        by_cases hd : loadDiff a (getPassengerCountForConnection g a n) n ≥ a.settings.convergenceLimit
        · rw [if_pos hd] at h
          exact absurd h (Nat.succ_ne_zero _)
        · rw [if_neg hd] at h
          rcases Nat.lt_succ_iff_lt_or_eq.mp hc with hlt' | heq
          · exact (hunf.mp h) c hlt'
          · subst heq
            exact hd
      · intro h
        have hd : ¬ loadDiff a (getPassengerCountForConnection g a n) n ≥ a.settings.convergenceLimit :=
          h n (Nat.lt_succ_self n)
        rw [if_neg hd]
        exact hunf.mpr (fun c hc => h c (Nat.lt_succ_of_lt hc))

/-- What the first loop of `updateConnectionLoad` leaves behind. -/
theorem measureConnections_spec (g : AssignmentData → Nat → K) (a : Assignment K)
    (hlen : a.connectionLoad.length = a.numberOfConnections) :
    (∀ c, (measureConnections g a).newConnectionLoad.getD c 0
        = if c < a.numberOfConnections then getPassengerCountForConnection g a c else 0) ∧
    ((measureConnections g a).unfinishedConnections = 0
        ↔ ∀ c, c < a.numberOfConnections → ¬ unfinished g a c) := by
  have h := scan_upto g a
    { newConnectionLoad := List.replicate a.connectionLoad.length 0
      unfinishedConnections := 0
      overloadedConnections := 0
      maxOverload := 0
      maxDiff := 0 } rfl rfl a.numberOfConnections (le_of_eq hlen.symm)
  exact ⟨h.2.1, h.2.2⟩

/-- Invariant of the second loop of `updateConnectionLoad` after `n` connections. -/
theorem smooth_upto (k : Nat) (new l : List K) (n : Nat) (hn : n ≤ l.length) :
    ((List.range n).foldl (smoothConnection k new) l).length = l.length ∧
    ∀ c, ((List.range n).foldl (smoothConnection k new) l).getD c 0
        = if c < n then ((iterationMinusOne k : K) * l.getD c 0 + new.getD c 0) / (k : K)
          else l.getD c 0 := by
  induction n with
  | zero => simp
  | succ n ih =>
    obtain ⟨hlen, hget⟩ := ih (Nat.le_of_succ_le hn)
    rw [List.range_succ, List.foldl_append, List.foldl_cons, List.foldl_nil]
    have hn1 := hget n
    generalize (List.range n).foldl (smoothConnection k new) l = cur at hlen hget hn1 ⊢
    unfold smoothConnection
    refine ⟨by rw [List.length_set, hlen], fun c => ?_⟩
    rw [getD_set_zero, hlen, hn1]
    by_cases hc : n = c
    · subst hc
      have : n < l.length := hn
      simp [this]
    · have : ¬ (n = c ∧ n < l.length) := fun h => hc h.1
      rw [if_neg this, hget c]
      by_cases hcn : c < n
      · simp [hcn, Nat.lt_succ_of_lt hcn]
      · have : ¬ c < n + 1 := by omega
        simp [hcn, this]

/-- The `size_t` value `iteration - 1` for an iteration number in `[1, 2^64)`. -/
theorem iterationMinusOne_eq (k : Nat) (h1 : 1 ≤ k) (h2 : k < sizeLimit) :
    iterationMinusOne k = k - 1 := by
  unfold iterationMinusOne
  have : k + sizeLimit - 1 = (k - 1) + sizeLimit := by omega
  rw [this, Nat.add_mod_right, Nat.mod_eq_of_lt (by omega)]

/-- The example object is in the input domain of the coordinator. -/
theorem exampleAssignment_wellFormed (F : Type) [LinearOrderedField F] (units : Nat) (load : F) :
    (exampleAssignment F units load).wellFormed := by
  refine ⟨rfl, rfl, fun c hc => ?_, by simp [exampleAssignment, exampleSettings]⟩
  have : c = 0 := by
    have : c < 1 := hc
    omega
  subst this
  simp [exampleAssignment]

/-- C1: `updateConnectionLoad(k)` with `1 ≤ k`: when at least one connection is
unfinished it returns true, and afterwards every connection `c` has
`connectionLoad[c] = ((k - 1) * L_old[c] + L_new[c]) / k`, with `L_old` the load
before the call and `L_new[c] = getPassengerCountForConnection(c)`. -/
theorem updateConnectionLoad_smooths (g : AssignmentData → Nat → K) (a : Assignment K)
    (k : Nat) (hwf : a.wellFormed) (hk1 : 1 ≤ k) (hk2 : k < sizeLimit)
    (hunf : ∃ c, c < a.numberOfConnections ∧ unfinished g a c) :
    (updateConnectionLoad g a k).1 = true ∧
    (updateConnectionLoad g a k).2.connectionLoad.length = a.numberOfConnections ∧
    ∀ c, c < a.numberOfConnections →
      (updateConnectionLoad g a k).2.connectionLoad.getD c 0
        = (((k : K) - 1) * a.connectionLoad.getD c 0 + getPassengerCountForConnection g a c)
            / (k : K) := by
  obtain ⟨hnew, hzero⟩ := measureConnections_spec g a hwf.1
  have hne : ¬ (measureConnections g a).unfinishedConnections = 0 := by
    intro h
    obtain ⟨c, hc, hu⟩ := hunf
    exact (hzero.mp h) c hc hu
  obtain ⟨hlen, hget⟩ := smooth_upto k (measureConnections g a).newConnectionLoad a.connectionLoad
    a.numberOfConnections (le_of_eq hwf.1.symm)
  unfold updateConnectionLoad
  simp only [hne, if_false]
  refine ⟨trivial, by rw [hlen, hwf.1], fun c hc => ?_⟩
  rw [hget c, if_pos hc, hnew c, if_pos hc, iterationMinusOne_eq k hk1 hk2, Nat.cast_sub hk1,
    Nat.cast_one]

/-- C1 at one connection of capacity 1, load 1, new load 2/4, iteration 2: the
call returns true and the load becomes (1·1 + 1/2)/2 = 3/4. -/
theorem updateConnectionLoad_smooths_witness :
    (updateConnectionLoad (exampleConnectionLoad ℚ) (exampleAssignment ℚ 2 1) 2).1 = true ∧
    (updateConnectionLoad (exampleConnectionLoad ℚ) (exampleAssignment ℚ 2 1) 2).2.connectionLoad.getD 0 0
      = 3 / 4 := by
  have h := updateConnectionLoad_smooths (exampleConnectionLoad ℚ) (exampleAssignment ℚ 2 1) 2
    (exampleAssignment_wellFormed ℚ 2 1) (by decide) (by decide)
    ⟨0, by decide, by
      simp only [unfinished, loadDiff, getPassengerCountForConnection, exampleConnectionLoad,
        exampleAssignment, exampleSettings]
      norm_num
      rw [abs_of_pos (by norm_num : (0 : ℚ) < 1 / 2)]⟩
  refine ⟨h.1, ?_⟩
  rw [h.2.2 0 (by decide)]
  simp only [getPassengerCountForConnection, exampleConnectionLoad, exampleAssignment,
    exampleSettings]
  norm_num

/-- C2: `updateConnectionLoad` returns false exactly when no connection `c` has
`|L_new[c] - L_prev[c]| / cap[c] >= convergenceLimit` (a quotient equal to the limit
counts as unfinished), and when it returns false `connectionLoad` is unchanged. -/
theorem updateConnectionLoad_false_iff (g : AssignmentData → Nat → K) (a : Assignment K)
    (k : Nat) (hwf : a.wellFormed) :
    ((updateConnectionLoad g a k).1 = false ↔
      ∀ c, c < a.numberOfConnections →
        ¬ (|getPassengerCountForConnection g a c - a.connectionLoad.getD c 0|
              / a.connectionCapacity.getD c 0 ≥ a.settings.convergenceLimit)) ∧
    ((updateConnectionLoad g a k).1 = false →
      (updateConnectionLoad g a k).2.connectionLoad = a.connectionLoad) := by
  obtain ⟨_, hzero⟩ := measureConnections_spec g a hwf.1
  unfold updateConnectionLoad
  by_cases h : (measureConnections g a).unfinishedConnections = 0
  · simp only [h, if_true, true_iff, forall_true_left, and_true]
    exact hzero.mp h
  · simp only [h, if_false, Bool.true_eq_false, false_iff, false_implies, and_true]
    exact fun hall => h (hzero.mpr hall)

/-- C2 on the boundary: with capacity 1, load 0 and new load 2/4 the quotient equals
the limit 1/2 and the call returns true; with new load 1/4 it returns false and the
load stays 0. -/
theorem updateConnectionLoad_false_iff_witness :
    (updateConnectionLoad (exampleConnectionLoad ℚ) (exampleAssignment ℚ 2 0) 1).1 = true ∧
    (updateConnectionLoad (exampleConnectionLoad ℚ) (exampleAssignment ℚ 1 0) 1).1 = false ∧
    (updateConnectionLoad (exampleConnectionLoad ℚ) (exampleAssignment ℚ 1 0) 1).2.connectionLoad = [0] := by
  have h2 := updateConnectionLoad_false_iff (exampleConnectionLoad ℚ) (exampleAssignment ℚ 2 0) 1
    (exampleAssignment_wellFormed ℚ 2 0)
  have h1 := updateConnectionLoad_false_iff (exampleConnectionLoad ℚ) (exampleAssignment ℚ 1 0) 1
    (exampleAssignment_wellFormed ℚ 1 0)
  have hfalse : (updateConnectionLoad (exampleConnectionLoad ℚ) (exampleAssignment ℚ 1 0) 1).1 = false := by
    refine h1.1.mpr (fun c hc => ?_)
    have : c = 0 := by
      have : c < 1 := hc
      omega
    subst this
    simp only [getPassengerCountForConnection, exampleConnectionLoad, exampleAssignment,
      exampleSettings]
    norm_num
    rw [abs_of_pos (by norm_num : (0 : ℚ) < 1 / 4)]
    norm_num
  refine ⟨?_, hfalse, h1.2 hfalse⟩
  have hnot : ¬ (updateConnectionLoad (exampleConnectionLoad ℚ) (exampleAssignment ℚ 2 0) 1).1 = false := by
    intro hf
    refine h2.1.mp hf 0 (by decide) ?_
    simp only [getPassengerCountForConnection, exampleConnectionLoad, exampleAssignment,
      exampleSettings]
    norm_num
    rw [abs_of_pos (by norm_num : (0 : ℚ) < 1 / 2)]
  simpa using hnot

/-- `updateConnectionLoad` changes no member other than `connectionLoad`. -/
theorem updateConnectionLoad_frame (g : AssignmentData → Nat → K) (a : Assignment K) (k : Nat) :
    (updateConnectionLoad g a k).2.numberOfConnections = a.numberOfConnections ∧
    (updateConnectionLoad g a k).2.connectionCapacity = a.connectionCapacity ∧
    (updateConnectionLoad g a k).2.settings = a.settings ∧
    (updateConnectionLoad g a k).2.assignmentData = a.assignmentData := by
  unfold updateConnectionLoad
  dsimp only
  split <;> exact ⟨rfl, rfl, rfl, rfl⟩

/-- The two outcomes of `updateConnectionLoad`. -/
theorem updateConnectionLoad_cases (g : AssignmentData → Nat → K) (a : Assignment K) (k : Nat)
    (hlen : a.connectionLoad.length = a.numberOfConnections) :
    (updateConnectionLoad g a k).2.connectionLoad.length = a.numberOfConnections ∧
    ((updateConnectionLoad g a k).1 = false →
      (updateConnectionLoad g a k).2.connectionLoad = a.connectionLoad ∧
      ∀ c, c < a.numberOfConnections → ¬ unfinished g a c) ∧
    ((updateConnectionLoad g a k).1 = true →
      (∃ c, c < a.numberOfConnections ∧ unfinished g a c) ∧
      ∀ c, c < a.numberOfConnections →
        (updateConnectionLoad g a k).2.connectionLoad.getD c 0
          = ((iterationMinusOne k : K) * a.connectionLoad.getD c 0
              + getPassengerCountForConnection g a c) / (k : K)) := by
  obtain ⟨hnew, hzero⟩ := measureConnections_spec g a hlen
  obtain ⟨hlen2, hget⟩ := smooth_upto k (measureConnections g a).newConnectionLoad a.connectionLoad
    a.numberOfConnections (le_of_eq hlen.symm)
  unfold updateConnectionLoad
  by_cases h : (measureConnections g a).unfinishedConnections = 0
  · simp only [h, if_true, forall_true_left, true_and, Bool.false_eq_true, false_implies, and_true]
    exact ⟨hlen, hzero.mp h⟩
  · simp only [h, if_false, Bool.true_eq_false, false_implies, forall_true_left, true_and]
    refine ⟨by rw [hlen2, hlen], ?_, fun c hc => ?_⟩
    · by_contra hex
      exact h (hzero.mpr (fun c hc hu => hex ⟨c, hc, hu⟩))
    · rw [hget c, if_pos hc, hnew c, if_pos hc]

/-- The second loop of `updateConnectionLoad` keeps the length of the vector. -/
theorem smooth_length (k : Nat) (new : List K) (idx : List Nat) (l : List K) :
    (idx.foldl (smoothConnection k new) l).length = l.length := by
  induction idx generalizing l with
  | nil => rfl
  | cons i idx ih =>
    rw [List.foldl_cons, ih]
    simp [smoothConnection]

/-- `updateConnectionLoad` keeps the length of `connectionLoad`. -/
theorem updateConnectionLoad_length (g : AssignmentData → Nat → K) (a : Assignment K) (k : Nat) :
    (updateConnectionLoad g a k).2.connectionLoad.length = a.connectionLoad.length := by
  unfold updateConnectionLoad
  dsimp only
  split
  · rfl
  · exact smooth_length k _ _ _

/-- Unfolding the first of `k + 1` passes. -/
theorem loopStateFrom_succ_first (g : AssignmentData → Nat → K)
    (w : Nat → List K → AssignmentData) (st0 : RunState K) (k : Nat) :
    loopStateFrom g w st0 (k + 1)
      = if (runIteration g w st0).1 then loopStateFrom g w (runIteration g w st0).2 k else none := by
  induction k with
  | zero =>
    simp only [loopStateFrom]
  | succ k ih =>
    rw [loopStateFrom, ih]
    by_cases h : (runIteration g w st0).1 = true
    · simp only [h, if_true]
      rw [loopStateFrom]
    · have hfalse : (runIteration g w st0).1 = false := by simpa using h
      simp [hfalse]

/-- The fuelled loop returns the state in which a pass first reports convergence. -/
theorem runLoop_eq_some_iff (g : AssignmentData → Nat → K)
    (w : Nat → List K → AssignmentData) (fuel : Nat) (st0 r : RunState K) :
    runLoop g w fuel st0 = some r ↔
      ∃ k, k < fuel ∧ ∃ st, loopStateFrom g w st0 k = some st ∧
        (runIteration g w st).1 = false ∧ (runIteration g w st).2 = r := by
  induction fuel generalizing st0 with
  | zero => simp [runLoop]
  | succ fuel ih =>
    rw [runLoop]
    by_cases h : (runIteration g w st0).1 = true
    · simp only [h, if_true]
      rw [ih]
      constructor
      · rintro ⟨k, hk, st, hst, hf, hr⟩
        refine ⟨k + 1, Nat.succ_lt_succ hk, st, ?_, hf, hr⟩
        rw [loopStateFrom_succ_first, if_pos h, hst]
      · rintro ⟨k, hk, st, hst, hf, hr⟩
        cases k with
        | zero =>
          simp only [loopStateFrom, Option.some.injEq] at hst
          subst hst
          rw [h] at hf
          exact absurd hf (by decide)
        | succ k =>
          rw [loopStateFrom_succ_first, if_pos h] at hst
          exact ⟨k, Nat.lt_of_succ_lt_succ hk, st, hst, hf, hr⟩
    · have hfalse : (runIteration g w st0).1 = false := by simpa using h
      simp only [hfalse, Bool.false_eq_true, if_false, Option.some.injEq]
      constructor
      · intro hr
        exact ⟨0, Nat.succ_pos _, st0, rfl, hfalse, hr⟩
      · rintro ⟨k, _, st, hst, _, hr⟩
        cases k with
        | zero =>
          simp only [loopStateFrom, Option.some.injEq] at hst
          subst hst
          exact hr
        | succ k =>
          rw [loopStateFrom_succ_first, if_neg h] at hst
          exact absurd hst (by simp)

/-- Shape of the loop state after `k` continuing passes of `Assignment::run`. -/
theorem loopState_shape (g : AssignmentData → Nat → K) (w : Nat → List K → AssignmentData)
    (a : Assignment K) (k : Nat) (st : RunState K) (hst : loopState g w a k = some st) :
    st.iteration = (k + 1) % sizeLimit ∧
    st.assignment.numberOfConnections = a.numberOfConnections ∧
    st.assignment.connectionLoad.length = a.connectionLoad.length ∧
    st.assignment.connectionCapacity = a.connectionCapacity ∧
    st.assignment.settings = a.settings := by
  induction k generalizing st with
  | zero =>
    simp only [loopState, loopStateFrom, Option.some.injEq] at hst
    subst hst
    refine ⟨rfl, rfl, by simp [runStart], rfl, rfl⟩
  | succ k ih =>
    simp only [loopState, loopStateFrom] at hst
    cases hprev : loopStateFrom g w (runStart a) k with
    | none => simp [hprev] at hst
    | some prev =>
      obtain ⟨hit, hn, hl, hc, hs⟩ := ih prev hprev
      simp only [hprev] at hst
      by_cases hb : (runIteration g w prev).1 = true
      · simp only [hb, if_true, Option.some.injEq] at hst
        subst hst
        obtain ⟨f1, f2, f3, _⟩ := updateConnectionLoad_frame g (assignmentOfPass w prev)
          prev.iteration
        refine ⟨?_, ?_, ?_, ?_, ?_⟩
        · show (prev.iteration + 1) % sizeLimit = (k + 1 + 1) % sizeLimit
          rw [hit, Nat.add_mod, Nat.mod_mod, ← Nat.add_mod]
        · exact f1.trans hn
        · exact (updateConnectionLoad_length g _ prev.iteration).trans hl
        · exact f2.trans hc
        · exact f3.trans hs
      · simp only [hb, if_false] at hst
        exact absurd hst (by simp)

/-- A continuing pass of the loop of `Assignment::run`, seen from the state before
it: the pass is number `k + 1` and smooths every load with the loads it computed. -/
theorem loopState_succ (g : AssignmentData → Nat → K) (w : Nat → List K → AssignmentData)
    (a : Assignment K) (hlen : a.connectionLoad.length = a.numberOfConnections)
    (k : Nat) (hk : k + 1 < sizeLimit) (st : RunState K)
    (hst : loopState g w a (k + 1) = some st) :
    ∃ prev, loopState g w a k = some prev ∧ (runIteration g w prev).1 = true ∧
      (runIteration g w prev).2 = st ∧
      ∀ c, c < a.numberOfConnections →
        st.assignment.connectionLoad.getD c 0
          = ((k : K) * prev.assignment.connectionLoad.getD c 0 + passNewLoad g w a k c)
              / ((k : K) + 1) := by
  simp only [loopState, loopStateFrom] at hst
  cases hprev : loopStateFrom g w (runStart a) k with
  | none => simp [hprev] at hst
  | some prev =>
    simp only [hprev] at hst
    by_cases hb : (runIteration g w prev).1 = true
    · simp only [hb, if_true, Option.some.injEq] at hst
      refine ⟨prev, hprev, hb, hst, fun c hc => ?_⟩
      obtain ⟨hit, hn, hl, _, _⟩ := loopState_shape g w a k prev hprev
      have hitk : prev.iteration = k + 1 := by rw [hit, Nat.mod_eq_of_lt hk]
      have hcases := updateConnectionLoad_cases g (assignmentOfPass w prev) prev.iteration
        (show prev.assignment.connectionLoad.length = prev.assignment.numberOfConnections by
          rw [hl, hlen]; exact hn.symm)
      have hget := (hcases.2.2 hb).2 c
        (show c < prev.assignment.numberOfConnections by rw [hn]; exact hc)
      have hnew : passNewLoad g w a k c = newLoadOfPass g w prev c := by
        simp only [passNewLoad, loopState, hprev]
      rw [← hst, hnew]
      show (updateConnectionLoad g _ prev.iteration).2.connectionLoad.getD c 0 = _
      rw [hget, hitk, iterationMinusOne_eq (k + 1) (Nat.succ_pos k) hk]
      simp only [Nat.add_sub_cancel, Nat.cast_add, Nat.cast_one, newLoadOfPass]
      rfl
    · simp only [hb, if_false] at hst
      exact absurd hst (by simp)

/-- After `k` continuing passes, `k` times the load is the sum of the new loads. -/
theorem loopState_sum (g : AssignmentData → Nat → K) (w : Nat → List K → AssignmentData)
    (a : Assignment K) (hlen : a.connectionLoad.length = a.numberOfConnections)
    (k : Nat) (hk : k < sizeLimit) (st : RunState K) (hst : loopState g w a k = some st)
    (c : Nat) (hc : c < a.numberOfConnections) :
    (k : K) * st.assignment.connectionLoad.getD c 0
      = ∑ i ∈ Finset.range k, passNewLoad g w a i c := by
  induction k generalizing st with
  | zero => simp
  | succ k ih =>
    obtain ⟨prev, hprev, _, _, hget⟩ := loopState_succ g w a hlen k hk st hst
    rw [hget c hc, Finset.sum_range_succ, ← ih (Nat.lt_of_succ_lt hk) prev hprev]
    have hpos : ((k : K) + 1) ≠ 0 := by positivity
    push_cast
    field_simp

/-- C3: running average. `Assignment::run` starts from `connectionLoad = 0`, and when
passes 1..k of its loop each report an unfinished connection (the loop state after
`k` passes exists), the load of every connection `c` after pass `k` is the
arithmetic mean of the new loads of passes 1..k; after pass 1 it is the new load of
pass 1. -/
theorem run_running_average (g : AssignmentData → Nat → K) (w : Nat → List K → AssignmentData)
    (a : Assignment K) (hwf : a.wellFormed) (k : Nat) (hk1 : 1 ≤ k) (hk2 : k < sizeLimit)
    (st : RunState K) (hst : loopState g w a k = some st) :
    (∀ c, (runStart a).assignment.connectionLoad.getD c 0 = 0) ∧
    (∀ c, c < a.numberOfConnections →
      st.assignment.connectionLoad.getD c 0
        = (∑ i ∈ Finset.range k, passNewLoad g w a i c) / (k : K)) ∧
    (k = 1 → ∀ c, c < a.numberOfConnections →
      st.assignment.connectionLoad.getD c 0 = passNewLoad g w a 0 c) := by
  have hmean : ∀ c, c < a.numberOfConnections →
      st.assignment.connectionLoad.getD c 0
        = (∑ i ∈ Finset.range k, passNewLoad g w a i c) / (k : K) := by
    intro c hc
    have hpos : (k : K) ≠ 0 := by
      have : (0 : K) < (k : K) := by exact_mod_cast hk1
      exact ne_of_gt this
    rw [← loopState_sum g w a hwf.1 k hk2 st hst c hc, mul_div_cancel_left₀ _ hpos]
  refine ⟨fun c => ?_, hmean, fun h1 c hc => ?_⟩
  · simp only [runStart]
    exact getD_replicate_zero _ c
  · rw [hmean c hc, h1]
    simp

end CoordinatorProofs

section RunExamples

/-- With the all-or-nothing example workers every pass reports an unfinished
connection: the new load is 2 while the load is below 1 and 0 otherwise. -/
theorem alternatingWorkers_continue (st : RunState ℚ)
    (hn : st.assignment.numberOfConnections = 1)
    (hl : st.assignment.connectionLoad.length = 1)
    (hc : st.assignment.connectionCapacity = [1])
    (hs : st.assignment.settings = exampleSettings ℚ) :
    (runIteration (exampleConnectionLoad ℚ) (alternatingWorkers ℚ) st).1 = true := by
  have hcases := updateConnectionLoad_cases (exampleConnectionLoad ℚ)
    (assignmentOfPass (alternatingWorkers ℚ) st) st.iteration
    (show st.assignment.connectionLoad.length = st.assignment.numberOfConnections by rw [hl, hn])
  by_contra hb
  have hfalse : (updateConnectionLoad (exampleConnectionLoad ℚ)
      (assignmentOfPass (alternatingWorkers ℚ) st) st.iteration).1 = false := by
    simpa [runIteration] using hb
  refine (hcases.2.1 hfalse).2 0 (show 0 < st.assignment.numberOfConnections by rw [hn]; decide) ?_
  simp only [unfinished, loadDiff, getPassengerCountForConnection, assignmentOfPass,
    alternatingWorkers, exampleConnectionLoad, hc, hs, exampleSettings]
  generalize st.assignment.connectionLoad.getD 0 0 = x
  by_cases hx : x < 1
  · simp only [hx, if_true]
    norm_num
    rw [abs_of_pos (by linarith)]
    linarith
  · simp only [hx, if_false]
    norm_num
    rw [abs_of_nonneg (by linarith)]
    linarith

/-- With the all-or-nothing example workers the loop of `run` is still running after
any number of passes. -/
theorem alternatingWorkers_loopState (k : Nat) :
    ∃ st, loopState (exampleConnectionLoad ℚ) (alternatingWorkers ℚ) (exampleAssignment ℚ 0 0) k
      = some st := by
  induction k with
  | zero => exact ⟨_, rfl⟩
  | succ k ih =>
    obtain ⟨st, hst⟩ := ih
    obtain ⟨_, hn, hl, hc, hs⟩ := loopState_shape _ _ _ k st hst
    have hb := alternatingWorkers_continue st hn hl hc hs
    refine ⟨(runIteration (exampleConnectionLoad ℚ) (alternatingWorkers ℚ) st).2, ?_⟩
    simp only [loopState, loopStateFrom] at hst ⊢
    simp only [hst, hb, if_true]

end RunExamples

section RunClaims

variable {K : Type} [LinearOrderedField K]

/-- C3 on one connection with the all-or-nothing example workers: two passes
continue, with new loads 2 and 0, and the load after pass 2 is their mean 1. -/
theorem run_running_average_witness :
    ∃ st, loopState (exampleConnectionLoad ℚ) (alternatingWorkers ℚ) (exampleAssignment ℚ 0 0) 2
        = some st ∧
      st.assignment.connectionLoad.getD 0 0
        = (∑ i ∈ Finset.range 2,
            passNewLoad (exampleConnectionLoad ℚ) (alternatingWorkers ℚ) (exampleAssignment ℚ 0 0) i 0)
          / ((2 : Nat) : ℚ) := by
  obtain ⟨st, hst⟩ := alternatingWorkers_loopState 2
  exact ⟨st, hst, (run_running_average (exampleConnectionLoad ℚ) (alternatingWorkers ℚ)
    (exampleAssignment ℚ 0 0) (exampleAssignment_wellFormed ℚ 0 0) 2 (by decide) (by decide)
    st hst).2.1 0 (by decide)⟩

/-- A pass of the loop of `run` reports convergence exactly when it has no
unfinished connection. -/
theorem runIteration_false_iff (g : AssignmentData → Nat → K) (w : Nat → List K → AssignmentData)
    (st : RunState K) (hlen : st.assignment.connectionLoad.length = st.assignment.numberOfConnections) :
    (runIteration g w st).1 = false ↔
      ∀ c, c < st.assignment.numberOfConnections → ¬ unfinished g (assignmentOfPass w st) c := by
  have hcases := updateConnectionLoad_cases g (assignmentOfPass w st) st.iteration hlen
  constructor
  · intro h
    exact (hcases.2.1 h).2
  · intro h
    by_contra hb
    have htrue : (updateConnectionLoad g (assignmentOfPass w st) st.iteration).1 = true := by
      simpa [runIteration] using hb
    obtain ⟨c, hc, hu⟩ := (hcases.2.2 htrue).1
    exact h c hc hu

/-- C4 fails on the pass on which the loop stops: one connection of capacity 1,
limit 1/2, one load unit with multiplier 4. Pass 1 computes the new load 1/4, reports
convergence, and leaves the load at 0, while `((1 - 1) * 0 + 1/4) / 1 = 1/4`. -/
theorem smoothing_invariant_fails_on_last_pass :
    (runIteration (exampleConnectionLoad ℚ) (constantWorkers ℚ 1)
        (runStart (exampleAssignment ℚ 0 0))).1 = false ∧
    (runIteration (exampleConnectionLoad ℚ) (constantWorkers ℚ 1)
        (runStart (exampleAssignment ℚ 0 0))).2.assignment.connectionLoad.getD 0 0
      ≠ (((1 : ℚ) - 1) * (runStart (exampleAssignment ℚ 0 0)).assignment.connectionLoad.getD 0 0
          + newLoadOfPass (exampleConnectionLoad ℚ) (constantWorkers ℚ 1)
              (runStart (exampleAssignment ℚ 0 0)) 0) / 1 := by
  have hfalse : (runIteration (exampleConnectionLoad ℚ) (constantWorkers ℚ 1)
      (runStart (exampleAssignment ℚ 0 0))).1 = false := by
    refine (runIteration_false_iff _ _ _ rfl).mpr (fun c hc => ?_)
    have : c = 0 := by
      have : c < 1 := hc
      omega
    subst this
    simp only [unfinished, loadDiff, getPassengerCountForConnection, assignmentOfPass,
      constantWorkers, exampleConnectionLoad, runStart, exampleAssignment, exampleSettings]
    norm_num
    rw [abs_of_pos (by norm_num : (0 : ℚ) < 1 / 4)]
    norm_num
  refine ⟨hfalse, ?_⟩
  have hload := ((updateConnectionLoad_cases (exampleConnectionLoad ℚ)
    (assignmentOfPass (constantWorkers ℚ 1) (runStart (exampleAssignment ℚ 0 0))) 1 rfl).2.1 hfalse).1
  show (updateConnectionLoad (exampleConnectionLoad ℚ)
    (assignmentOfPass (constantWorkers ℚ 1) (runStart (exampleAssignment ℚ 0 0))) 1).2.connectionLoad.getD 0 0 ≠ _
  rw [hload]
  simp only [newLoadOfPass, getPassengerCountForConnection, assignmentOfPass,
    constantWorkers, exampleConnectionLoad, runStart, exampleAssignment, exampleSettings]
  norm_num

/-- C4 as amended: in pass `k` of the loop of `Assignment::run`, when
`updateConnectionLoad(k)` returns true every connection `c` ends with
`L[c] = ((k - 1) * L_prev[c] + L_new[c]) / k`; when it returns false (the pass on
which the loop stops) `connectionLoad` is left as it was before the pass. -/
theorem run_pass_invariant (g : AssignmentData → Nat → K) (w : Nat → List K → AssignmentData)
    (a : Assignment K) (hwf : a.wellFormed) (k : Nat) (hk1 : 1 ≤ k) (hk2 : k < sizeLimit)
    (st : RunState K) (hst : loopState g w a (k - 1) = some st) :
    st.iteration = k ∧
    ((runIteration g w st).1 = true → ∀ c, c < a.numberOfConnections →
      (runIteration g w st).2.assignment.connectionLoad.getD c 0
        = (((k : K) - 1) * st.assignment.connectionLoad.getD c 0 + newLoadOfPass g w st c)
            / (k : K)) ∧
    ((runIteration g w st).1 = false →
      (runIteration g w st).2.assignment.connectionLoad = st.assignment.connectionLoad) := by
  obtain ⟨hit, hn, hl, _, _⟩ := loopState_shape g w a (k - 1) st hst
  have hitk : st.iteration = k := by
    rw [hit, Nat.sub_add_cancel hk1, Nat.mod_eq_of_lt hk2]
  have hcases := updateConnectionLoad_cases g (assignmentOfPass w st) st.iteration
    (show st.assignment.connectionLoad.length = st.assignment.numberOfConnections by
      rw [hl, hwf.1]; exact hn.symm)
  refine ⟨hitk, fun hb c hc => ?_, fun hb => ?_⟩
  · have hget := (hcases.2.2 hb).2 c
      (show c < st.assignment.numberOfConnections by rw [hn]; exact hc)
    show (updateConnectionLoad g _ st.iteration).2.connectionLoad.getD c 0 = _
    rw [hget, hitk, iterationMinusOne_eq k hk1 hk2, Nat.cast_sub hk1, Nat.cast_one]
    rfl
  · exact (hcases.2.1 hb).1

/-- C4 as amended, on one connection with 2 load units per pass (new load 1/2,
capacity 1, limit 1/2): pass 1 continues and the load becomes (0·0 + 1/2)/1 = 1/2. -/
theorem run_pass_invariant_witness :
    (runIteration (exampleConnectionLoad ℚ) (constantWorkers ℚ 2)
        (runStart (exampleAssignment ℚ 0 0))).1 = true ∧
    (runIteration (exampleConnectionLoad ℚ) (constantWorkers ℚ 2)
        (runStart (exampleAssignment ℚ 0 0))).2.assignment.connectionLoad.getD 0 0 = 1 / 2 := by
  have h := run_pass_invariant (exampleConnectionLoad ℚ) (constantWorkers ℚ 2)
    (exampleAssignment ℚ 0 0) (exampleAssignment_wellFormed ℚ 0 0) 1 (by decide) (by decide)
    (runStart (exampleAssignment ℚ 0 0)) rfl
  have htrue : (runIteration (exampleConnectionLoad ℚ) (constantWorkers ℚ 2)
      (runStart (exampleAssignment ℚ 0 0))).1 = true := by
    by_contra hb
    have hfalse : (runIteration (exampleConnectionLoad ℚ) (constantWorkers ℚ 2)
        (runStart (exampleAssignment ℚ 0 0))).1 = false := by simpa using hb
    refine (runIteration_false_iff _ _ _ rfl).mp hfalse 0 (by decide) ?_
    simp only [unfinished, loadDiff, getPassengerCountForConnection, assignmentOfPass,
      constantWorkers, exampleConnectionLoad, runStart, exampleAssignment, exampleSettings]
    norm_num
    rw [abs_of_pos (by norm_num : (0 : ℚ) < 1 / 2)]
  refine ⟨htrue, ?_⟩
  rw [h.2.1 htrue 0 (by decide)]
  simp only [newLoadOfPass, getPassengerCountForConnection, assignmentOfPass,
    constantWorkers, exampleConnectionLoad, runStart, exampleAssignment, exampleSettings]
  norm_num

end RunClaims

section RunTermination

variable {K : Type} [LinearOrderedField K]

/-- A call of `updateConnectionLoad` that returns false leaves the object as it was. -/
theorem updateConnectionLoad_false_eq (g : AssignmentData → Nat → K) (a : Assignment K) (k : Nat)
    (h : (updateConnectionLoad g a k).1 = false) : (updateConnectionLoad g a k).2 = a := by
  unfold updateConnectionLoad at h ⊢
  by_cases h0 : (measureConnections g a).unfinishedConnections = 0
  · simp only [h0, if_true]
  · simp only [h0, if_false] at h
    exact absurd h (by decide)

/-- C9 fails: `Assignment::run` reads no maximum number of iterations. On one
connection of capacity 1 with the all-or-nothing example workers every pass reports
an unfinished connection, and for no bound `maxIterations` below `2 ^ 64` has the
loop returned after `maxIterations` passes. -/
theorem run_has_no_iteration_cap :
    ¬ ∃ maxIterations : Nat, maxIterations < sizeLimit ∧
      (run (exampleConnectionLoad ℚ) (alternatingWorkers ℚ) maxIterations
        (exampleAssignment ℚ 0 0)).isSome = true := by
  rintro ⟨fuel, _, hsome⟩
  obtain ⟨r, hr⟩ := Option.isSome_iff_exists.mp hsome
  obtain ⟨k, _, st, hst, hfalse, _⟩ := (runLoop_eq_some_iff _ _ fuel _ r).mp hr
  obtain ⟨_, hn, hl, hc, hs⟩ := loopState_shape _ _ (exampleAssignment ℚ 0 0) k st hst
  rw [alternatingWorkers_continue st hn hl hc hs] at hfalse
  exact absurd hfalse (by decide)

/-- C9 as amended: the loop of `Assignment::run` has no iteration cap. Bounded to
`fuel < 2 ^ 64` passes it returns exactly when one of the first `fuel` passes is
reached with all earlier passes continuing and has no unfinished connection, and it
returns the state of that pass with `connectionLoad` as the pass found it; when each
of the first `fuel` passes has an unfinished connection it has not returned after
`fuel` passes. -/
theorem run_stops_iff_converged (g : AssignmentData → Nat → K) (w : Nat → List K → AssignmentData)
    (a : Assignment K) (hwf : a.wellFormed) :
    (∀ fuel r, fuel < sizeLimit → (run g w fuel a = some r ↔
      ∃ k, k < fuel ∧ ∃ st, loopState g w a k = some st ∧
        (∀ c, c < a.numberOfConnections → ¬ unfinished g (assignmentOfPass w st) c) ∧
        r = { assignment := assignmentOfPass w st, iteration := (st.iteration + 1) % sizeLimit })) ∧
    (∀ fuel, fuel < sizeLimit → (∀ k, k ≤ fuel → ∃ st, loopState g w a k = some st) →
      run g w fuel a = none) := by
  have hshape : ∀ k st, loopState g w a k = some st →
      st.assignment.connectionLoad.length = st.assignment.numberOfConnections ∧
      st.assignment.numberOfConnections = a.numberOfConnections := by
    intro k st hst
    obtain ⟨_, hn, hl, _, _⟩ := loopState_shape g w a k st hst
    exact ⟨by rw [hl, hwf.1]; exact hn.symm, hn⟩
  have hiff : ∀ fuel r, run g w fuel a = some r ↔
      ∃ k, k < fuel ∧ ∃ st, loopState g w a k = some st ∧
        (∀ c, c < a.numberOfConnections → ¬ unfinished g (assignmentOfPass w st) c) ∧
        r = { assignment := assignmentOfPass w st, iteration := (st.iteration + 1) % sizeLimit } := by
    intro fuel r
    unfold run
    rw [runLoop_eq_some_iff]
    constructor
    · rintro ⟨k, hk, st, hst, hfalse, hr⟩
      obtain ⟨hlen, hn⟩ := hshape k st hst
      refine ⟨k, hk, st, hst, ?_, ?_⟩
      · rw [← hn]
        exact (runIteration_false_iff g w st hlen).mp hfalse
      · rw [← hr]
        show RunState.mk _ _ = _
        rw [updateConnectionLoad_false_eq g (assignmentOfPass w st) st.iteration hfalse]
    · rintro ⟨k, hk, st, hst, hnone, hr⟩
      obtain ⟨hlen, hn⟩ := hshape k st hst
      have hfalse : (runIteration g w st).1 = false :=
        (runIteration_false_iff g w st hlen).mpr (by rw [hn]; exact hnone)
      refine ⟨k, hk, st, hst, hfalse, ?_⟩
      rw [hr]
      show RunState.mk _ _ = _
      rw [updateConnectionLoad_false_eq g (assignmentOfPass w st) st.iteration hfalse]
  refine ⟨fun fuel r _ => hiff fuel r, fun fuel _ hall => ?_⟩
  cases hrun : run g w fuel a with
  | none => rfl
  | some r =>
    obtain ⟨k, hk, st, hst, hnone, _⟩ := (hiff fuel r).mp hrun
    obtain ⟨st', hst'⟩ := hall (k + 1) hk
    obtain ⟨hlen, hn⟩ := hshape k st hst
    have hfalse : (runIteration g w st).1 = false :=
      (runIteration_false_iff g w st hlen).mpr (by rw [hn]; exact hnone)
    simp only [loopState, loopStateFrom] at hst hst'
    simp [hst, hfalse] at hst'

end RunTermination

section RunTerminationExample

/-- C9 as amended, on one connection with one load unit per pass (new load 1/4,
capacity 1, limit 1/2): pass 1 has no unfinished connection and `run` returns after
it, with `iteration` = 2 and the load still 0. -/
theorem run_stops_iff_converged_witness :
    run (exampleConnectionLoad ℚ) (constantWorkers ℚ 1) 1 (exampleAssignment ℚ 0 0)
      = some { assignment := assignmentOfPass (constantWorkers ℚ 1) (runStart (exampleAssignment ℚ 0 0))
               iteration := 2 } := by
  refine ((run_stops_iff_converged (exampleConnectionLoad ℚ) (constantWorkers ℚ 1)
    (exampleAssignment ℚ 0 0) (exampleAssignment_wellFormed ℚ 0 0)).1 1 _ (by decide)).mpr
    ⟨0, by decide, runStart (exampleAssignment ℚ 0 0), rfl, fun c hc => ?_, rfl⟩
  have : c = 0 := by
    have : c < 1 := hc
    omega
  subst this
  simp only [unfinished, loadDiff, getPassengerCountForConnection, assignmentOfPass,
    constantWorkers, exampleConnectionLoad, runStart, exampleAssignment, exampleSettings]
  norm_num
  rw [abs_of_pos (by norm_num : (0 : ℚ) < 1 / 4)]
  norm_num

end RunTerminationExample

section PassengerCounts

variable {K : Type} [LinearOrderedField K]

/-- Invariant of the loop of `getPassengerCountsPerConnection` after `n` connections. -/
theorem counts_upto (f : Nat → K) (l : List K) (n : Nat) (hn : n ≤ l.length) :
    ((List.range n).foldl (fun passengerCounts i => passengerCounts.set i (f i)) l).length
        = l.length ∧
    ∀ c, ((List.range n).foldl (fun passengerCounts i => passengerCounts.set i (f i)) l).getD c 0
        = if c < n then f c else l.getD c 0 := by
  induction n with
  | zero => simp
  | succ n ih =>
    obtain ⟨hlen, hget⟩ := ih (Nat.le_of_succ_le hn)
    rw [List.range_succ, List.foldl_append, List.foldl_cons, List.foldl_nil]
    refine ⟨by rw [List.length_set, hlen], fun c => ?_⟩
    rw [getD_set_zero, hlen]
    by_cases hc : n = c
    · subst hc
      have : n < l.length := hn
      simp [this]
    · have : ¬ (n = c ∧ n < l.length) := fun h => hc h.1
      rw [if_neg this, hget c]
      by_cases hcn : c < n
      · simp [hcn, Nat.lt_succ_of_lt hcn]
      · have : ¬ c < n + 1 := by omega
        simp [hcn, this]

/-- C8: `getPassengerCountsPerConnection` returns one entry per connection, entry
`c` is `assignmentData.getConnectionLoad(c) / passengerMultiplier`, and it is the
value that `updateConnectionLoad` stores in `newConnectionLoad[c]`. -/
theorem getPassengerCountsPerConnection_entries (g : AssignmentData → Nat → K) (a : Assignment K) :
    (getPassengerCountsPerConnection g a).length = a.numberOfConnections ∧
    (∀ c, c < a.numberOfConnections →
      (getPassengerCountsPerConnection g a).getD c 0
        = g a.assignmentData c / (a.settings.passengerMultiplier : K)) ∧
    (a.connectionLoad.length = a.numberOfConnections → ∀ c, c < a.numberOfConnections →
      (getPassengerCountsPerConnection g a).getD c 0
        = (measureConnections g a).newConnectionLoad.getD c 0) := by
  obtain ⟨hlen, hget⟩ := counts_upto (getPassengerCountForConnection g a)
    (List.replicate a.numberOfConnections 0) a.numberOfConnections (by simp)
  unfold getPassengerCountsPerConnection
  refine ⟨by rw [hlen, List.length_replicate], fun c hc => ?_, fun hl c hc => ?_⟩
  · rw [hget c, if_pos hc]
    rfl
  · rw [hget c, if_pos hc, (measureConnections_spec g a hl).1 c, if_pos hc]

/-- C8 on one connection carrying 2 load units with multiplier 4: the vector has one
entry, 2/4, which is the new load of `updateConnectionLoad`. -/
theorem getPassengerCountsPerConnection_entries_witness :
    (getPassengerCountsPerConnection (exampleConnectionLoad ℚ) (exampleAssignment ℚ 2 0)).length = 1 ∧
    (getPassengerCountsPerConnection (exampleConnectionLoad ℚ) (exampleAssignment ℚ 2 0)).getD 0 0
      = 1 / 2 ∧
    (measureConnections (exampleConnectionLoad ℚ) (exampleAssignment ℚ 2 0)).newConnectionLoad.getD 0 0
      = 1 / 2 := by
  have h := getPassengerCountsPerConnection_entries (exampleConnectionLoad ℚ) (exampleAssignment ℚ 2 0)
  have hval : (getPassengerCountsPerConnection (exampleConnectionLoad ℚ)
      (exampleAssignment ℚ 2 0)).getD 0 0 = 1 / 2 := by
    rw [h.2.1 0 (by decide)]
    simp only [exampleConnectionLoad, exampleAssignment, exampleSettings]
    norm_num
  exact ⟨h.1, hval, by rw [← h.2.2 rfl 0 (by decide), hval]⟩

end PassengerCounts

section LoadFactorProofs

variable {K : Type} [LinearOrderedField K]

/-- C7: `ConnectionLabel::bestPAT()` is `min(hopOnPAT, skipPAT)`, hence at most
`skipPAT` and at most `hopOnPAT`. -/
theorem bestPAT_eq_min (label : ConnectionLabel K) :
    label.bestPAT = min label.hopOnPAT label.skipPAT ∧
    label.bestPAT ≤ label.skipPAT ∧ label.bestPAT ≤ label.hopOnPAT := by
  have h : label.bestPAT = min label.hopOnPAT label.skipPAT := by
    unfold ConnectionLabel.bestPAT stdMin
    by_cases hlt : label.skipPAT < label.hopOnPAT
    · rw [if_pos hlt, min_eq_right (le_of_lt hlt)]
    · rw [if_neg hlt, min_eq_left (not_lt.mp hlt)]
  exact ⟨h, h ▸ min_le_right _ _, h ▸ min_le_left _ _⟩

/-- C5: for settings with `loadFactorCutoff ≤ loadFactorSwitchPoint`,
`computeLoadFactor` is the piecewise reference function of the relative load:
0 up to the cutoff, `a·(rho − cutoff)²` up to the switch point, and
`b·exp(rho − switch) + a·(switch − cutoff)² − b` above it. -/
theorem computeLoadFactor_piecewise (exp : K → K) (settings : Settings K)
    (loadData : Nat → ConnectionLoadData K) (connection : Nat)
    (h : settings.loadFactorCutoff ≤ settings.loadFactorSwitchPoint) :
    loadFactorReference exp settings (loadData connection).relativeLoad
      (computeLoadFactor exp settings loadData connection) := by
  unfold loadFactorReference computeLoadFactor
  refine ⟨fun h1 => ?_, fun h2 => ?_, fun h3 => ?_⟩
  · simp only [h1, if_true]
  · simp only [not_le.mpr h2.1, h2.2, if_true, if_false, quadraticLoadFactor]
    ring
  · have hsw : ¬ (loadData connection).relativeLoad ≤ settings.loadFactorSwitchPoint := not_le.mpr h3
    have hcut : ¬ (loadData connection).relativeLoad ≤ settings.loadFactorCutoff :=
      not_le.mpr (lt_of_le_of_lt h h3)
    simp only [hsw, hcut, if_false, exponentialLoadFactor, loadFactorCorrection, quadraticLoadFactor]
    ring

/-- C5 with cutoff 1, switch point 2, a = 3, b = 5 and the real exponential: the
load factor is 0 at relative load 1/2, 3/4 at 3/2 and 5·e − 2 at 3. -/
theorem computeLoadFactor_piecewise_witness :
    computeLoadFactor Real.exp (exampleSettings ℝ)
        (fun _ => { relativeLoad := 1 / 2, boardingProbability := 1 }) 0 = 0 ∧
    computeLoadFactor Real.exp (exampleSettings ℝ)
        (fun _ => { relativeLoad := 3 / 2, boardingProbability := 1 }) 0 = 3 / 4 ∧
    computeLoadFactor Real.exp (exampleSettings ℝ)
        (fun _ => { relativeLoad := 3, boardingProbability := 1 }) 0 = 5 * Real.exp 1 - 2 := by
  have hdom : (exampleSettings ℝ).loadFactorCutoff ≤ (exampleSettings ℝ).loadFactorSwitchPoint := by
    simp only [exampleSettings]
    norm_num
  refine ⟨?_, ?_, ?_⟩
  · refine (computeLoadFactor_piecewise Real.exp (exampleSettings ℝ)
      (fun _ => { relativeLoad := 1 / 2, boardingProbability := 1 }) 0 hdom).1 ?_
    simp only [exampleSettings]
    norm_num
  · rw [(computeLoadFactor_piecewise Real.exp (exampleSettings ℝ)
      (fun _ => { relativeLoad := 3 / 2, boardingProbability := 1 }) 0 hdom).2.1
      (by simp only [exampleSettings]; norm_num)]
    simp only [exampleSettings]
    norm_num
  · rw [(computeLoadFactor_piecewise Real.exp (exampleSettings ℝ)
      (fun _ => { relativeLoad := 3, boardingProbability := 1 }) 0 hdom).2.2
      (by simp only [exampleSettings]; norm_num)]
    simp only [exampleSettings]
    norm_num
    ring

/-- C6: for settings with `loadFactorCutoff ≤ loadFactorSwitchPoint` the load factor
is continuous at the switch point: the exponential and the quadratic branch and
`computeLoadFactor` agree there, `computeLoadFactor` tends to that value as the
relative load tends to the switch point from above, and `loadFactorCorrection` is
the only constant for which the exponential branch meets the quadratic one. -/
theorem loadFactor_continuous_at_switch (settings : Settings ℝ) (p : ℝ) (c : Nat)
    (h : settings.loadFactorCutoff ≤ settings.loadFactorSwitchPoint) :
    exponentialLoadFactor Real.exp settings settings.loadFactorSwitchPoint
      = quadraticLoadFactor settings settings.loadFactorSwitchPoint ∧
    quadraticLoadFactor settings settings.loadFactorSwitchPoint
      = computeLoadFactor Real.exp settings
          (fun _ => { relativeLoad := settings.loadFactorSwitchPoint, boardingProbability := p }) c ∧
    Filter.Tendsto
      (fun rho => computeLoadFactor Real.exp settings
        (fun _ => { relativeLoad := rho, boardingProbability := p }) c)
      (nhdsWithin settings.loadFactorSwitchPoint (Set.Ioi settings.loadFactorSwitchPoint))
      (nhds (computeLoadFactor Real.exp settings
        (fun _ => { relativeLoad := settings.loadFactorSwitchPoint, boardingProbability := p }) c)) ∧
    (∀ k : ℝ, settings.loadFactorCoefficient2 * Real.exp 0 + k
        = quadraticLoadFactor settings settings.loadFactorSwitchPoint
      ↔ k = loadFactorCorrection settings) := by
  have hexp : exponentialLoadFactor Real.exp settings settings.loadFactorSwitchPoint
      = quadraticLoadFactor settings settings.loadFactorSwitchPoint := by
    simp only [exponentialLoadFactor, loadFactorCorrection, sub_self, Real.exp_zero]
    ring
  have hcomp : quadraticLoadFactor settings settings.loadFactorSwitchPoint
      = computeLoadFactor Real.exp settings
          (fun _ => { relativeLoad := settings.loadFactorSwitchPoint, boardingProbability := p }) c := by
    unfold computeLoadFactor
    by_cases heq : settings.loadFactorSwitchPoint ≤ settings.loadFactorCutoff
    · have hsc : settings.loadFactorSwitchPoint - settings.loadFactorCutoff = 0 :=
        sub_eq_zero.mpr (le_antisymm heq h)
      simp only [heq, if_true, quadraticLoadFactor, hsc, mul_zero]
    · simp only [heq, if_false, le_refl, if_true]
  refine ⟨hexp, hcomp, ?_, fun k => ?_⟩
  · rw [← hcomp, ← hexp]
    have hcont : Continuous (fun rho => exponentialLoadFactor Real.exp settings rho) := by
      unfold exponentialLoadFactor
      fun_prop
    have htend : Filter.Tendsto (fun rho => exponentialLoadFactor Real.exp settings rho)
        (nhdsWithin settings.loadFactorSwitchPoint (Set.Ioi settings.loadFactorSwitchPoint))
        (nhds (exponentialLoadFactor Real.exp settings settings.loadFactorSwitchPoint)) :=
      (hcont.tendsto _).mono_left nhdsWithin_le_nhds
    refine htend.congr' ?_
    filter_upwards [self_mem_nhdsWithin] with rho hrho
    have hsw : ¬ rho ≤ settings.loadFactorSwitchPoint := not_le.mpr hrho
    have hcut : ¬ rho ≤ settings.loadFactorCutoff := not_le.mpr (lt_of_le_of_lt h hrho)
    simp only [computeLoadFactor, hsw, hcut, if_false]
  · simp only [loadFactorCorrection, Real.exp_zero, mul_one]
    constructor
    · intro hk
      linarith
    · intro hk
      rw [hk]
      ring

/-- C6 with cutoff 1, switch point 2, a = 3, b = 5: at the switch point both
branches and `computeLoadFactor` have the value 3. -/
theorem loadFactor_continuous_at_switch_witness :
    exponentialLoadFactor Real.exp (exampleSettings ℝ) 2 = 3 ∧
    computeLoadFactor Real.exp (exampleSettings ℝ)
      (fun _ => { relativeLoad := 2, boardingProbability := 1 }) 0 = 3 := by
  have hdom : (exampleSettings ℝ).loadFactorCutoff ≤ (exampleSettings ℝ).loadFactorSwitchPoint := by
    simp only [exampleSettings]
    norm_num
  have h := loadFactor_continuous_at_switch (exampleSettings ℝ) 1 0 hdom
  have hq : quadraticLoadFactor (exampleSettings ℝ) (exampleSettings ℝ).loadFactorSwitchPoint = 3 := by
    simp only [quadraticLoadFactor, exampleSettings]
    norm_num
  exact ⟨h.1.trans hq, h.2.1.symm.trans hq⟩

end LoadFactorProofs

section PassengerDataProofs

/-- Reading a vector of passenger lists after one write. -/
theorem getD_set_nil (l : List (List Nat)) (i j : Nat) (v : List Nat) :
    (l.set i v).getD j [] = if i = j ∧ i < l.length then v else l.getD j [] := by
  simp only [List.getD_eq_getElem?_getD, List.getElem?_set]
  by_cases hij : i = j
  · subst hij
    by_cases hl : i < l.length
    · simp [hl]
    · simp [hl, List.getElem?_eq_none (Nat.le_of_not_lt hl)]
  · simp [hij]

/-- The loop over `j` moves the last `groupSize` passengers, last one first. -/
theorem movePassengers_append (s : Nat) (front back groupList : List Nat) (hs : back.length = s) :
    movePassengers s (front ++ back) groupList = (front, groupList ++ back.reverse) := by
  induction s generalizing back groupList with
  | zero =>
    have : back = [] := List.length_eq_zero.mp hs
    subst this
    simp [movePassengers]
  | succ s ih =>
    rcases List.eq_nil_or_concat back with hnil | ⟨init, p, hconcat⟩
    · subst hnil
      simp at hs
    · rw [List.concat_eq_append] at hconcat
      subst hconcat
      have hlen : init.length = s := by simpa using hs
      have happ : front ++ (init ++ [p]) = (front ++ init) ++ [p] := by simp
      rw [movePassengers, happ, List.getLast?_concat, List.dropLast_concat]
      simp only
      rw [ih init (groupList ++ [p]) hlen]
      simp

/-- Writing a prefix of one list back and keeping its suffix permutes the passengers. -/
theorem flatten_set_perm (l : List (List Nat)) (d : Nat) (front back : List Nat)
    (hd : d < l.length) (hsplit : l.getD d [] = front ++ back) :
    List.Perm ((l.set d front).flatten ++ back) l.flatten := by
  induction l generalizing d with
  | nil => simp at hd
  | cons x l ih =>
    cases d with
    | zero =>
      have hx : x = front ++ back := by simpa using hsplit
      subst hx
      simp only [List.set_cons_zero, List.flatten_cons, List.append_assoc]
      exact List.Perm.append_left front List.perm_append_comm
    | succ d =>
      have hd' : d < l.length := by simpa using hd
      have hsplit' : l.getD d [] = front ++ back := by simpa using hsplit
      simp only [List.set_cons_succ, List.flatten_cons, List.append_assoc]
      exact List.Perm.append_left x (ih d hd' hsplit')

/-- The total group size after one more group. -/
theorem groupTotal_take_succ (groups : List GroupData) (m : Nat) (hm : m < groups.length) (d : Nat) :
    groupTotal (groups.take (m + 1)) d
      = groupTotal (groups.take m) d
        + if (groups.getD m { demandIndex := 0, groupSize := 0 }).demandIndex = d
          then (groups.getD m { demandIndex := 0, groupSize := 0 }).groupSize else 0 := by
  have hget : groups[m]? = some (groups.getD m { demandIndex := 0, groupSize := 0 }) := by
    simp [List.getD_eq_getElem?_getD, List.getElem?_eq_getElem hm]
  unfold groupTotal
  rw [List.take_succ, hget]
  generalize groups.getD m { demandIndex := 0, groupSize := 0 } = g
  simp only [Option.toList, List.filter_append, List.map_append, List.sum_append]
  by_cases h : g.demandIndex = d
  · simp [List.filter_cons, h]
  · simp [List.filter_cons, h]

end PassengerDataProofs

section GroupAssignment

/-- One pass of the loop over the groups, for a group whose passengers are there. -/
theorem assignGroup_ok (groups : List GroupData) (lists byGroup : List (List Nat)) (m : Nat)
    (front back : List Nat)
    (hempty : byGroup.getD m [] = [])
    (hd : (groups.getD m { demandIndex := 0, groupSize := 0 }).demandIndex < lists.length)
    (hsplit : lists.getD (groups.getD m { demandIndex := 0, groupSize := 0 }).demandIndex []
      = front ++ back)
    (hback : back.length = (groups.getD m { demandIndex := 0, groupSize := 0 }).groupSize) :
    assignGroup groups (lists, byGroup) m
      = .ok (lists.set (groups.getD m { demandIndex := 0, groupSize := 0 }).demandIndex front,
             byGroup.set m back.reverse) := by
  unfold assignGroup
  simp only
  rw [if_neg (Nat.not_le.mpr hd), hsplit, hempty]
  have hle : (groups.getD m { demandIndex := 0, groupSize := 0 }).groupSize ≤ (front ++ back).length := by
    rw [List.length_append, hback]
    exact Nat.le_add_left _ _
  rw [if_neg (not_not.mpr hle), movePassengers_append _ front back [] hback]
  simp

/-- The loop over the groups `m - 1, ..., 0`, started with the passengers of exactly
these groups: no assertion fails, the demand lists end empty, every group gets
`groupSize` passengers of its demand index, and the passengers are only permuted. -/
theorem assignGroups_spec (groups : List GroupData) (m : Nat) (hm : m ≤ groups.length)
    (lists byGroup : List (List Nat))
    (hlen : byGroup.length = groups.length)
    (hempty : ∀ i, i < m → byGroup.getD i [] = [])
    (htotal : ∀ d, (lists.getD d []).length = groupTotal (groups.take m) d)
    (hindex : ∀ i, i < m →
      (groups.getD i { demandIndex := 0, groupSize := 0 }).demandIndex < lists.length) :
    ∃ lists1 byGroup1,
      assignGroups groups (descendingIndices m) (lists, byGroup) = .ok (lists1, byGroup1) ∧
      (∀ d, lists1.getD d [] = []) ∧
      byGroup1.length = groups.length ∧
      (∀ i, m ≤ i → byGroup1.getD i [] = byGroup.getD i []) ∧
      (∀ i, i < m →
        (byGroup1.getD i []).length = (groups.getD i { demandIndex := 0, groupSize := 0 }).groupSize ∧
        ∀ p, p ∈ byGroup1.getD i [] →
          p ∈ lists.getD (groups.getD i { demandIndex := 0, groupSize := 0 }).demandIndex []) ∧
      List.Perm (byGroup1.take m).flatten lists.flatten := by
  induction m generalizing lists byGroup with
  | zero =>
    refine ⟨lists, byGroup, rfl, fun d => ?_, hlen, fun i _ => rfl, fun i hi => absurd hi (Nat.not_lt_zero i), ?_⟩
    · have h0 := htotal d
      simp only [List.take_zero, groupTotal, List.filter_nil, List.map_nil, List.sum_nil] at h0
      exact List.length_eq_zero.mp h0
    · have hall : ∀ l ∈ lists, l = [] := by
        intro l hl
        obtain ⟨d, hd, hget⟩ := List.getElem_of_mem hl
        have h0 := htotal d
        simp only [List.take_zero, groupTotal, List.filter_nil, List.map_nil, List.sum_nil,
          List.getD_eq_getElem?_getD, List.getElem?_eq_getElem hd, Option.getD_some, hget] at h0
        exact List.length_eq_zero.mp h0
      rw [List.take_zero, List.flatten_nil, List.flatten_eq_nil_iff.mpr hall]
  | succ m ih =>
    have hmlt : m < groups.length := hm
    generalize hg : groups.getD m { demandIndex := 0, groupSize := 0 } = g at *
    have hd : g.demandIndex < lists.length := by
      have := hindex m (Nat.lt_succ_self m)
      rwa [hg] at this
    have hlenD : (lists.getD g.demandIndex []).length
        = groupTotal (groups.take m) g.demandIndex + g.groupSize := by
      rw [htotal g.demandIndex, groupTotal_take_succ groups m hmlt, hg, if_pos rfl]
    have hsplit : lists.getD g.demandIndex []
        = (lists.getD g.demandIndex []).take (groupTotal (groups.take m) g.demandIndex)
          ++ (lists.getD g.demandIndex []).drop (groupTotal (groups.take m) g.demandIndex) :=
      (List.take_append_drop _ _).symm
    have hback : ((lists.getD g.demandIndex []).drop
        (groupTotal (groups.take m) g.demandIndex)).length = g.groupSize := by
      rw [List.length_drop, hlenD, Nat.add_sub_cancel_left]
    have hfront : ((lists.getD g.demandIndex []).take
        (groupTotal (groups.take m) g.demandIndex)).length = groupTotal (groups.take m) g.demandIndex := by
      rw [List.length_take, hlenD]
      exact Nat.min_eq_left (Nat.le_add_right _ _)
    have hstep := assignGroup_ok groups lists byGroup m _ _ (hempty m (Nat.lt_succ_self m))
      (by rw [hg]; exact hd) (by rw [hg]; exact hsplit) (by rw [hg]; exact hback)
    rw [hg] at hstep
    generalize hfr : (lists.getD g.demandIndex []).take (groupTotal (groups.take m) g.demandIndex)
      = front at hstep hsplit hfront
    generalize hbk : (lists.getD g.demandIndex []).drop (groupTotal (groups.take m) g.demandIndex)
      = back at hstep hsplit hback
    obtain ⟨lists1, byGroup1, hrun, hnil, hlen1, hkeep, hgroups, hperm⟩ :=
      ih (Nat.le_of_succ_le hm) (lists.set g.demandIndex front) (byGroup.set m back.reverse)
        (by rw [List.length_set, hlen])
        (fun i hi => by
          rw [getD_set_nil, if_neg (fun h => Nat.ne_of_gt hi h.1)]
          exact hempty i (Nat.lt_succ_of_lt hi))
        (fun d => by
          rw [getD_set_nil]
          by_cases hdd : g.demandIndex = d
          · rw [if_pos ⟨hdd, hd⟩, hfront, hdd]
          · rw [if_neg (fun h => hdd h.1), htotal d, groupTotal_take_succ groups m hmlt, hg,
              if_neg hdd, Nat.add_zero])
        (fun i hi => by
          rw [List.length_set]
          exact hindex i (Nat.lt_succ_of_lt hi))
    have hm1 : byGroup1.getD m [] = back.reverse := by
      rw [hkeep m (Nat.le_refl m), getD_set_nil, if_pos ⟨rfl, by rw [hlen]; exact hmlt⟩]
    refine ⟨lists1, byGroup1, ?_, hnil, hlen1, fun i hi => ?_, fun i hi => ?_, ?_⟩
    · have hdesc : descendingIndices (m + 1) = m :: descendingIndices m := by
        simp [descendingIndices, List.range_succ]
      rw [hdesc, assignGroups, hstep]
      exact hrun
    · rw [hkeep i (Nat.le_of_succ_le hi), getD_set_nil,
        if_neg (fun h => Nat.ne_of_lt (Nat.lt_of_succ_le hi) h.1)]
    · rcases Nat.lt_succ_iff_lt_or_eq.mp hi with hlt | heq
      · obtain ⟨hsize, hmem⟩ := hgroups i hlt
        refine ⟨hsize, fun p hp => ?_⟩
        have hin := hmem p hp
        rw [getD_set_nil] at hin
        by_cases hdd : g.demandIndex = (groups.getD i { demandIndex := 0, groupSize := 0 }).demandIndex
        · rw [if_pos ⟨hdd, hd⟩] at hin
          rw [← hdd, hsplit]
          exact List.mem_append_left _ hin
        · rw [if_neg (fun h => hdd h.1)] at hin
          exact hin
      · subst heq
        rw [hm1, hg]
        refine ⟨by rw [List.length_reverse, hback], fun p hp => ?_⟩
        rw [hsplit]
        exact List.mem_append_right _ (List.mem_reverse.mp hp)
    · have hget : byGroup1[m]? = some back.reverse := by
        have hlt : m < byGroup1.length := by rw [hlen1]; exact hmlt
        rw [List.getElem?_eq_getElem hlt]
        have := hm1
        rw [List.getD_eq_getElem?_getD, List.getElem?_eq_getElem hlt, Option.getD_some] at this
        rw [this]
      rw [List.take_succ, hget]
      simp only [Option.toList, List.flatten_append, List.flatten_cons, List.flatten_nil,
        List.append_nil]
      refine List.Perm.trans ?_ (flatten_set_perm lists g.demandIndex front back hd hsplit)
      exact List.Perm.append hperm (List.reverse_perm back)

end GroupAssignment

section DemandCollection

/-- The while loop of one demand entry adds as many passengers as it counts down. -/
theorem collectPassengers_length (gid : Nat → Nat → Nat) (e : DemandEntry)
    (rest : List IdVertexDemandEntry) (passengerCount : Int) (passengers : List Nat)
    (rest1 : List IdVertexDemandEntry) (passengerCount1 : Int) (passengers1 : List Nat)
    (h : collectPassengers gid e rest passengerCount passengers
      = .ok (rest1, passengerCount1, passengers1)) :
    (passengers1.length : Int) = passengers.length + (passengerCount - passengerCount1) := by
  induction rest generalizing passengerCount passengers with
  | nil =>
    unfold collectPassengers at h
    split at h
    · cases h
    · simp only [Except.ok.injEq, Prod.mk.injEq] at h
      obtain ⟨_, h2, h3⟩ := h
      subst h2 h3
      simp
  | cons x rest ih =>
    unfold collectPassengers at h
    split at h
    · split at h
      · cases h
      · split at h
        · cases h
        · split at h
          · cases h
          · split at h
            · cases h
            · have := ih _ _ h
              rw [this]
              simp only [List.length_append, List.length_map, Nat.cast_add]
              ring
    · simp only [Except.ok.injEq, Prod.mk.injEq] at h
      obtain ⟨_, h2, h3⟩ := h
      subst h2 h3
      simp

/-- The while loop of one demand entry stops with an assertion of its own or with a
passenger count outside the range of `int`, not with an assertion of the loop over the
groups. -/
theorem collectPassengers_error (gid : Nat → Nat → Nat) (e : DemandEntry)
    (rest : List IdVertexDemandEntry) (passengerCount : Int) (passengers : List Nat)
    (f : PassengerDataFailure)
    (h : collectPassengers gid e rest passengerCount passengers = .error f) :
    f ≠ .notEnoughPassengersForGroup ∧ f ≠ .passengersNotAssignedToGroup := by
  induction rest generalizing passengerCount passengers with
  | nil =>
    unfold collectPassengers at h
    split at h
    · cases h
      exact ⟨by decide, by decide⟩
    · cases h
  | cons x rest ih =>
    unfold collectPassengers at h
    split at h
    · split at h
      · cases h
        exact ⟨by decide, by decide⟩
      · split at h
        · cases h
          exact ⟨by decide, by decide⟩
        · split at h
          · cases h
            exact ⟨by decide, by decide⟩
          · split at h
            · cases h
              exact ⟨by decide, by decide⟩
            · exact ih _ _ h
    · cases h

/-- Growing the vector of passenger lists adds empty lists only. -/
theorem resizeLists_grow (lists : List (List Nat)) (n : Nat) (hn : lists.length ≤ n) :
    (resizeLists lists n).length = n ∧ ∀ d, (resizeLists lists n).getD d [] = lists.getD d [] := by
  unfold resizeLists
  rw [List.take_of_length_le hn]
  refine ⟨by simp; omega, fun d => ?_⟩
  simp only [List.getD_eq_getElem?_getD]
  by_cases hd : d < lists.length
  · rw [List.getElem?_append_left hd]
  · have hle : lists.length ≤ d := Nat.le_of_not_lt hd
    rw [List.getElem?_append_right hle, List.getElem?_eq_none hle, List.getElem?_replicate]
    split <;> rfl

/-- One pass of the loop over the demand entries. -/
theorem collectDemandEntry_spec (gid : Nat → Nat → Nat) (mult : Int)
    (state state1 : List (List Nat) × List IdVertexDemandEntry) (e : DemandEntry)
    (h : collectDemandEntry gid mult state e = .ok state1) :
    state1.1.length = e.demandIndex + 1 ∧ state.1.length ≤ state1.1.length ∧
    ∀ d, ((state1.1.getD d []).length : Int)
      = (state.1.getD d []).length + if e.demandIndex = d then e.numberOfPassengers * mult else 0 := by
  unfold collectDemandEntry at h
  split at h
  · cases h
  · rename_i hsorted
    have hle : state.1.length ≤ e.demandIndex + 1 := by
      simpa using hsorted
    obtain ⟨hlen, hget⟩ := resizeLists_grow state.1 (e.demandIndex + 1) hle
    split at h
    · cases h
    · simp only at h
      split at h
      · cases h
      · rename_i rest passengerCount passengers hcollect
        split at h
        · cases h
        · rename_i hzero
          have hpc : passengerCount = 0 := by simpa using hzero
          simp only [Except.ok.injEq] at h
          subst h
          have hl := collectPassengers_length gid e _ _ _ _ _ _ hcollect
          rw [hpc, sub_zero, hget] at hl
          refine ⟨by simp [hlen], by simp [hlen, hle], fun d => ?_⟩
          simp only
          rw [getD_set_nil, hlen]
          by_cases hd : e.demandIndex = d
          · rw [if_pos ⟨hd, Nat.lt_succ_self _⟩, if_pos hd, hl, hd]
          · rw [if_neg (fun h => hd h.1), if_neg hd, hget, add_zero]

/-- One pass of the loop over the demand entries stops with an assertion of that loop
or with a passenger count outside the range of `int`. -/
theorem collectDemandEntry_error (gid : Nat → Nat → Nat) (mult : Int)
    (state : List (List Nat) × List IdVertexDemandEntry) (e : DemandEntry)
    (f : PassengerDataFailure) (h : collectDemandEntry gid mult state e = .error f) :
    f ≠ .notEnoughPassengersForGroup ∧ f ≠ .passengersNotAssignedToGroup := by
  unfold collectDemandEntry at h
  split at h
  · cases h
    exact ⟨by decide, by decide⟩
  · split at h
    · cases h
      exact ⟨by decide, by decide⟩
    · simp only at h
      split at h
      · rename_i f1 hcollect
        cases h
        exact collectPassengers_error gid e _ _ _ f hcollect
      · split at h
        · cases h
          exact ⟨by decide, by decide⟩
        · cases h

/-- The loop over the demand entries, when no assertion fails: the lists only grow,
every demand index is inside the vector, and each list has grown by the passengers
of the entries with its demand index. -/
theorem collectDemand_spec (gid : Nat → Nat → Nat) (mult : Int) (demand : List DemandEntry)
    (state state1 : List (List Nat) × List IdVertexDemandEntry)
    (h : collectDemand gid mult demand state = .ok state1) :
    state.1.length ≤ state1.1.length ∧
    (∀ e, e ∈ demand → e.demandIndex < state1.1.length) ∧
    ∀ d, ((state1.1.getD d []).length : Int)
      = (state.1.getD d []).length + demandTotal mult demand d := by
  induction demand generalizing state with
  | nil =>
    simp only [collectDemand, Except.ok.injEq] at h
    subst h
    exact ⟨Nat.le_refl _, fun e he => absurd he (List.not_mem_nil e), fun d => by simp [demandTotal]⟩
  | cons e demand ih =>
    unfold collectDemand at h
    split at h
    · cases h
    · rename_i mid hmid
      obtain ⟨hlenE, hleE, hgetE⟩ := collectDemandEntry_spec gid mult state mid e hmid
      obtain ⟨hle, hidx, hget⟩ := ih mid h
      refine ⟨Nat.le_trans hleE hle, fun x hx => ?_, fun d => ?_⟩
      · rcases List.mem_cons.mp hx with rfl | hx
        · omega
        · exact hidx x hx
      · rw [hget d, hgetE d]
        unfold demandTotal
        by_cases hd : e.demandIndex = d
        · simp only [hd, if_true, List.filter_cons, decide_True, List.map_cons, List.sum_cons]
          ring
        · simp only [hd, if_false, List.filter_cons, decide_False, Bool.false_eq_true]
          ring

/-- The loop over the demand entries stops with an assertion of that loop or with a
passenger count outside the range of `int`, not with an assertion of the loop over the
groups. -/
theorem collectDemand_error (gid : Nat → Nat → Nat) (mult : Int) (demand : List DemandEntry)
    (state : List (List Nat) × List IdVertexDemandEntry) (f : PassengerDataFailure)
    (h : collectDemand gid mult demand state = .error f) :
    f ≠ .notEnoughPassengersForGroup ∧ f ≠ .passengersNotAssignedToGroup := by
  induction demand generalizing state with
  | nil =>
    unfold collectDemand at h
    cases h
  | cons e demand ih =>
    unfold collectDemand at h
    split at h
    · rename_i f1 hentry
      cases h
      exact collectDemandEntry_error gid mult state e f hentry
    · rename_i mid hmid
      exact ih mid h

end DemandCollection

section PassengerDataClaim

variable {K : Type}

/-- Among entries with pairwise distinct demand indices, the entries with the demand
index of `e` are `e` alone. -/
theorem filter_demandIndex_eq (demand : List DemandEntry)
    (hindex : (demand.map (fun e => e.demandIndex)).Nodup) (e : DemandEntry) (he : e ∈ demand) :
    demand.filter (fun x => x.demandIndex = e.demandIndex) = [e] := by
  induction demand with
  | nil => exact absurd he (List.not_mem_nil e)
  | cons x l ih =>
    rw [List.map_cons, List.nodup_cons] at hindex
    obtain ⟨hx, hl⟩ := hindex
    rcases List.mem_cons.mp he with rfl | hel
    · have hnone : l.filter (fun x => x.demandIndex = e.demandIndex) = [] := by
        rw [List.filter_eq_nil_iff]
        intro y hy hyd
        exact hx (List.mem_map.mpr ⟨y, hy, by simpa using hyd⟩)
      simp [List.filter_cons, hnone]
    · have hne : ¬ x.demandIndex = e.demandIndex := by
        intro hxe
        exact hx (List.mem_map.mpr ⟨e, hel, hxe.symm⟩)
      simp [List.filter_cons, hne, ih hl hel]

/-- For demand entries with pairwise distinct demand indices, the condition on single
demand entries is the condition on demand indices: when every demand entry is matched
by the groups of its demand index and every group belongs to a demand entry, the group
total and the demand total agree for every demand index. -/
theorem groupTotal_eq_demandTotal (mult : Int) (demand : List DemandEntry) (groups : List GroupData)
    (hindex : (demand.map (fun e => e.demandIndex)).Nodup)
    (hsum : ∀ e, e ∈ demand → (groupTotal groups e.demandIndex : Int) = e.numberOfPassengers * mult)
    (hgroups : ∀ g, g ∈ groups → ∃ e, e ∈ demand ∧ e.demandIndex = g.demandIndex) (d : Nat) :
    (groupTotal groups d : Int) = demandTotal mult demand d := by
  by_cases hex : ∃ e, e ∈ demand ∧ e.demandIndex = d
  · obtain ⟨e, he, hd⟩ := hex
    subst hd
    rw [hsum e he]
    unfold demandTotal
    rw [filter_demandIndex_eq demand hindex e he]
    simp
  · have hg : groups.filter (fun g => g.demandIndex = d) = [] := by
      rw [List.filter_eq_nil_iff]
      intro g hg hgd
      obtain ⟨e, he, hed⟩ := hgroups g hg
      exact hex ⟨e, he, hed.trans (by simpa using hgd)⟩
    have hdm : demand.filter (fun e => e.demandIndex = d) = [] := by
      rw [List.filter_eq_nil_iff]
      intro e he hed
      exact hex ⟨e, he, by simpa using hed⟩
    simp [groupTotal, demandTotal, hg, hdm]

/-- The loop over the groups and the last loop of `getPassengerData`, after a loop
over the demand entries that has passed its assertions: with matching totals for every
demand index, no assertion fails, group `i` gets `groupSize` passengers of its demand
index, and the lists of the groups are a rearrangement of the collected passengers. -/
theorem getPassengerData_of_collected (gid : Nat → Nat → Nat)
    (idVertexDemand : List IdVertexDemandEntry) (a : Assignment K) (demand : List DemandEntry)
    (lists : List (List Nat)) (unread : List IdVertexDemandEntry)
    (hcollect : collectDemand gid a.settings.passengerMultiplier demand ([], idVertexDemand)
      = .ok (lists, unread))
    (htotal : ∀ d, (groupTotal a.assignmentData.groups d : Int)
      = demandTotal a.settings.passengerMultiplier demand d)
    (hgroups : ∀ g, g ∈ a.assignmentData.groups → ∃ e, e ∈ demand ∧ e.demandIndex = g.demandIndex) :
    ∃ r, getPassengerData gid idVertexDemand a demand = .ok r ∧
      r.globalPassengerListByGroupId.length = a.assignmentData.groups.length ∧
      (∀ i, i < a.assignmentData.groups.length →
        (r.globalPassengerListByGroupId.getD i []).length
          = (a.assignmentData.groups.getD i { demandIndex := 0, groupSize := 0 }).groupSize ∧
        ∀ p, p ∈ r.globalPassengerListByGroupId.getD i [] →
          p ∈ lists.getD (a.assignmentData.groups.getD i { demandIndex := 0, groupSize := 0 }).demandIndex []) ∧
      List.Perm r.globalPassengerListByGroupId.flatten lists.flatten := by
  obtain ⟨_, hidx, hlen⟩ := collectDemand_spec gid _ demand _ _ hcollect
  have htotal1 : ∀ d, (lists.getD d []).length = groupTotal (a.assignmentData.groups.take
      a.assignmentData.groups.length) d := by
    intro d
    have h1 := hlen d
    simp only [List.getD_nil, List.length_nil, Nat.cast_zero, zero_add] at h1
    rw [List.take_length]
    have : ((lists.getD d []).length : Int) = (groupTotal a.assignmentData.groups d : Int) := by
      rw [h1, htotal d]
    exact_mod_cast this
  have hbound : ∀ i, i < a.assignmentData.groups.length →
      (a.assignmentData.groups.getD i { demandIndex := 0, groupSize := 0 }).demandIndex < lists.length := by
    intro i hi
    have hmem : a.assignmentData.groups.getD i { demandIndex := 0, groupSize := 0 }
        ∈ a.assignmentData.groups := by
      rw [List.getD_eq_getElem _ _ hi]
      exact List.getElem_mem hi
    obtain ⟨e, he, hed⟩ := hgroups _ hmem
    rw [← hed]
    exact hidx e he
  obtain ⟨lists1, byGroup1, hrun, hnil, hlen1, _, hgroup, hperm⟩ :=
    assignGroups_spec a.assignmentData.groups a.assignmentData.groups.length (Nat.le_refl _)
      lists (List.replicate a.assignmentData.groups.length []) (by simp)
      (fun i _ => by
        simp only [List.getD_eq_getElem?_getD, List.getElem?_replicate]
        split <;> rfl)
      htotal1 hbound
  have hall : lists1.all (fun l => l.isEmpty) = true := by
    rw [List.all_eq_true]
    intro l hl
    obtain ⟨d, hd, hget⟩ := List.getElem_of_mem hl
    have := hnil d
    rw [List.getD_eq_getElem _ _ hd, hget] at this
    rw [this]
    rfl
  have htake : byGroup1.take a.assignmentData.groups.length = byGroup1 := by
    rw [← hlen1, List.take_length]
  rw [htake] at hperm
  refine ⟨{ globalPassengerListByGroupId := byGroup1
            passengersInConnection :=
              a.assignmentData.groupsPerConnection.map (passengersOfGroups byGroup1)
            unassignedPassengers := passengersOfGroups byGroup1 a.assignmentData.unassignedGroups
            walkingPassengers := passengersOfGroups byGroup1 a.assignmentData.directWalkingGroups },
    ?_, hlen1, fun i hi => hgroup i hi, hperm⟩
  unfold getPassengerData
  rw [hcollect]
  simp only
  rw [hrun]
  simp only [hall, not_true_eq_false, if_false]

/-- Lists that together hold pairwise distinct elements: each list holds pairwise
distinct elements and every element lies in the list of exactly one position. -/
theorem flatten_nodup_unique (byGroup : List (List Nat)) (n : Nat) (hlen : byGroup.length = n)
    (hnodup : byGroup.flatten.Nodup) :
    (∀ i, i < n → (byGroup.getD i []).Nodup) ∧
    ∀ p, p ∈ byGroup.flatten →
      ∃ i, i < n ∧ p ∈ byGroup.getD i [] ∧ ∀ j, j < n → p ∈ byGroup.getD j [] → j = i := by
  obtain ⟨heach, hpair⟩ := List.nodup_flatten.mp hnodup
  refine ⟨fun i hi => ?_, fun p hp => ?_⟩
  · have hi1 : i < byGroup.length := by rw [hlen]; exact hi
    rw [List.getD_eq_getElem _ _ hi1]
    exact heach _ (List.getElem_mem hi1)
  · obtain ⟨l, hl, hpl⟩ := List.mem_flatten.mp hp
    obtain ⟨i, hi, hget⟩ := List.getElem_of_mem hl
    have hi' : i < n := by rw [← hlen]; exact hi
    have hgetD : byGroup.getD i [] = l := by rw [List.getD_eq_getElem _ _ hi, hget]
    refine ⟨i, hi', by rw [hgetD]; exact hpl, fun j hj hpj => ?_⟩
    by_contra hne
    have hj1 : j < byGroup.length := by rw [hlen]; exact hj
    rw [List.getD_eq_getElem _ _ hj1] at hpj
    have hpi : p ∈ byGroup[i] := by rw [hget]; exact hpl
    rcases Nat.lt_or_gt_of_ne hne with hlt | hgt
    · exact (List.pairwise_iff_getElem.mp hpair j i hj1 hi hlt) hpj hpi
    · exact (List.pairwise_iff_getElem.mp hpair i j hi hj1 hgt) hpi hpj

/-- C10 fails for a repeated demand index: two demand entries with demand index 0 and
one passenger each, passenger multiplier 1 and one group of size 1 with demand index 0.
For either demand entry the sum of `groupSize` over the groups with its demand index is
1, which is `numberOfPassengers * passengerMultiplier`; the loop over the demand
entries passes the assertion on the order of the demand indices and collects the two
passengers 9000 and 9001 in the list of demand index 0, the group takes one of them, and
the assertion `Passengers have not been assigned to group!` fails. -/
theorem getPassengerData_fails_for_repeated_demandIndex :
    (∀ e, e ∈ exampleRepeatedDemand →
      (groupTotal (exampleRepeatedAssignment ℚ).assignmentData.groups e.demandIndex : Int)
        = e.numberOfPassengers * (exampleRepeatedAssignment ℚ).settings.passengerMultiplier) ∧
    collectDemand exampleGlobalPassengerId (exampleRepeatedAssignment ℚ).settings.passengerMultiplier
        exampleRepeatedDemand ([], exampleRepeatedIdVertexDemand) = .ok ([[9000, 9001]], []) ∧
    getPassengerData exampleGlobalPassengerId exampleRepeatedIdVertexDemand
        (exampleRepeatedAssignment ℚ) exampleRepeatedDemand
      = .error .passengersNotAssignedToGroup := by
  refine ⟨by decide, rfl, rfl⟩

/-- A passenger count outside the range of `int`: with 65536 passengers and passenger
multiplier 32768 the product is `2 ^ 31`, and `getPassengerData` stops in the loop over
the demand entries. -/
theorem getPassengerData_stops_at_passengerCount_overflow :
    getPassengerData exampleGlobalPassengerId exampleRepeatedIdVertexDemand
        { exampleRepeatedAssignment ℚ with
          settings := { exampleSettings ℚ with passengerMultiplier := 32768 } }
        [{ demandIndex := 0, originVertex := 5, destinationVertex := 9,
           earliestDepartureTime := 100, numberOfPassengers := 65536 }]
      = .error .passengerCountOverflow := by
  rfl

/-- C10 as amended: when for every demand index the sum of `groupSize` over the groups
with that demand index equals the sum of `numberOfPassengers * passengerMultiplier`
over the demand entries with that demand index (for demand entries with pairwise
distinct demand indices this is the condition on the single demand entry), and every
group has the demand index of a demand entry, then `getPassengerData` stops in the
loop over the demand entries exactly when that loop stops, and never with the
assertion `Not enough passengers for group` or `Passengers have not been assigned to
group!`. When the loop over the demand entries completes, `getPassengerData` fails no
assertion, group `i` gets exactly `groupSize` passenger ids from the list of its own
demand index, and the lists of the groups together are a rearrangement of the
collected passenger ids, so that each collected id goes to one group. When the
collected ids are pairwise distinct, so are the ids of each group, and every id lies
in exactly one group. -/
theorem getPassengerData_assigns_groups (gid : Nat → Nat → Nat)
    (idVertexDemand : List IdVertexDemandEntry) (a : Assignment K) (demand : List DemandEntry)
    (htotal : ∀ d, (groupTotal a.assignmentData.groups d : Int)
      = demandTotal a.settings.passengerMultiplier demand d)
    (hgroups : ∀ g, g ∈ a.assignmentData.groups → ∃ e, e ∈ demand ∧ e.demandIndex = g.demandIndex) :
    getPassengerData gid idVertexDemand a demand ≠ .error .notEnoughPassengersForGroup ∧
    getPassengerData gid idVertexDemand a demand ≠ .error .passengersNotAssignedToGroup ∧
    (∀ f, collectDemand gid a.settings.passengerMultiplier demand ([], idVertexDemand) = .error f →
      getPassengerData gid idVertexDemand a demand = .error f) ∧
    (∀ lists unread,
      collectDemand gid a.settings.passengerMultiplier demand ([], idVertexDemand)
        = .ok (lists, unread) →
      ∃ r, getPassengerData gid idVertexDemand a demand = .ok r ∧
        r.globalPassengerListByGroupId.length = a.assignmentData.groups.length ∧
        (∀ i, i < a.assignmentData.groups.length →
          (r.globalPassengerListByGroupId.getD i []).length
            = (a.assignmentData.groups.getD i { demandIndex := 0, groupSize := 0 }).groupSize ∧
          ∀ p, p ∈ r.globalPassengerListByGroupId.getD i [] →
            p ∈ lists.getD
              (a.assignmentData.groups.getD i { demandIndex := 0, groupSize := 0 }).demandIndex []) ∧
        List.Perm r.globalPassengerListByGroupId.flatten lists.flatten ∧
        (lists.flatten.Nodup →
          (∀ i, i < a.assignmentData.groups.length →
            (r.globalPassengerListByGroupId.getD i []).Nodup) ∧
          ∀ p, p ∈ lists.flatten →
            ∃ i, i < a.assignmentData.groups.length ∧
              p ∈ r.globalPassengerListByGroupId.getD i [] ∧
              ∀ j, j < a.assignmentData.groups.length →
                p ∈ r.globalPassengerListByGroupId.getD j [] → j = i)) := by
  have herror : ∀ f,
      collectDemand gid a.settings.passengerMultiplier demand ([], idVertexDemand) = .error f →
      getPassengerData gid idVertexDemand a demand = .error f := by
    intro f hf
    unfold getPassengerData
    rw [hf]
  have hok : ∀ lists unread,
      collectDemand gid a.settings.passengerMultiplier demand ([], idVertexDemand)
        = .ok (lists, unread) →
      ∃ r, getPassengerData gid idVertexDemand a demand = .ok r ∧
        r.globalPassengerListByGroupId.length = a.assignmentData.groups.length ∧
        (∀ i, i < a.assignmentData.groups.length →
          (r.globalPassengerListByGroupId.getD i []).length
            = (a.assignmentData.groups.getD i { demandIndex := 0, groupSize := 0 }).groupSize ∧
          ∀ p, p ∈ r.globalPassengerListByGroupId.getD i [] →
            p ∈ lists.getD
              (a.assignmentData.groups.getD i { demandIndex := 0, groupSize := 0 }).demandIndex []) ∧
        List.Perm r.globalPassengerListByGroupId.flatten lists.flatten :=
    fun lists unread hcollect =>
      getPassengerData_of_collected gid idVertexDemand a demand lists unread hcollect htotal hgroups
  have hnot : ∀ f, f = PassengerDataFailure.notEnoughPassengersForGroup ∨
      f = PassengerDataFailure.passengersNotAssignedToGroup →
      getPassengerData gid idVertexDemand a demand ≠ .error f := by
    intro f hf hres
    cases hcollect : collectDemand gid a.settings.passengerMultiplier demand ([], idVertexDemand) with
    | error f1 =>
      rw [herror f1 hcollect] at hres
      cases hres
      obtain ⟨h1, h2⟩ := collectDemand_error gid _ demand _ f hcollect
      rcases hf with h | h
      · exact h1 h
      · exact h2 h
    | ok state =>
      obtain ⟨r, hr, _⟩ := hok state.1 state.2 hcollect
      rw [hr] at hres
      cases hres
  refine ⟨hnot _ (Or.inl rfl), hnot _ (Or.inr rfl), herror, fun lists unread hcollect => ?_⟩
  obtain ⟨r, hr, hlen, hgroup, hperm⟩ := hok lists unread hcollect
  refine ⟨r, hr, hlen, hgroup, hperm, fun hdistinct => ?_⟩
  obtain ⟨heach, hunique⟩ := flatten_nodup_unique r.globalPassengerListByGroupId
    a.assignmentData.groups.length hlen (hperm.nodup_iff.mpr hdistinct)
  exact ⟨heach, fun p hp => hunique p (hperm.mem_iff.mpr hp)⟩

/-- C10 as amended on `exampleDemand` with passenger multiplier 2 and groups of sizes
1, 3, 1, 1: the totals agree for every demand index, every group has the demand index
of a demand entry, no assertion fails, the groups receive the passengers
9000 | 9004, 9003, 9002 | 9001 | 9005, and every collected passenger lies in exactly
one group. -/
theorem getPassengerData_assigns_groups_witness :
    (∀ d, (groupTotal (exampleGroupedAssignment ℚ).assignmentData.groups d : Int)
      = demandTotal (exampleGroupedAssignment ℚ).settings.passengerMultiplier exampleDemand d) ∧
    (∀ g, g ∈ (exampleGroupedAssignment ℚ).assignmentData.groups →
      ∃ e, e ∈ exampleDemand ∧ e.demandIndex = g.demandIndex) ∧
    (∃ r, getPassengerData exampleGlobalPassengerId exampleIdVertexDemand
        (exampleGroupedAssignment ℚ) exampleDemand = .ok r ∧
      r.globalPassengerListByGroupId = [[9000], [9004, 9003, 9002], [9001], [9005]] ∧
      ∀ p, p ∈ [[9000, 9001], [], [9002, 9003, 9004, 9005]].flatten →
        ∃ i, i < (exampleGroupedAssignment ℚ).assignmentData.groups.length ∧
          p ∈ r.globalPassengerListByGroupId.getD i [] ∧
          ∀ j, j < (exampleGroupedAssignment ℚ).assignmentData.groups.length →
            p ∈ r.globalPassengerListByGroupId.getD j [] → j = i) := by
  have htotal : ∀ d,
      (groupTotal (exampleGroupedAssignment ℚ).assignmentData.groups d : Int)
        = demandTotal (exampleGroupedAssignment ℚ).settings.passengerMultiplier exampleDemand d :=
    groupTotal_eq_demandTotal _ exampleDemand _ (by decide) (by decide) (by decide)
  have hgroups : ∀ g, g ∈ (exampleGroupedAssignment ℚ).assignmentData.groups →
      ∃ e, e ∈ exampleDemand ∧ e.demandIndex = g.demandIndex := by decide
  obtain ⟨r, hr, _, _, _, hunique⟩ :=
    (getPassengerData_assigns_groups exampleGlobalPassengerId exampleIdVertexDemand
      (exampleGroupedAssignment ℚ) exampleDemand htotal hgroups).2.2.2
      [[9000, 9001], [], [9002, 9003, 9004, 9005]] [] rfl
  refine ⟨htotal, hgroups, r, hr, ?_, (hunique (by decide)).2⟩
  have hval : getPassengerData exampleGlobalPassengerId exampleIdVertexDemand
      (exampleGroupedAssignment ℚ) exampleDemand
      = .ok { globalPassengerListByGroupId := [[9000], [9004, 9003, 9002], [9001], [9005]]
              passengersInConnection := [[9000, 9004, 9003, 9002], [9005]]
              unassignedPassengers := [9001]
              walkingPassengers := [] } := by
    rfl
  rw [hval] at hr
  cases hr
  rfl

end PassengerDataClaim

section LockstepScanProofs

variable {K E L : Type} [LinearOrderedField K]

/-- Reading a vector after one write, for any default value. -/
theorem getD_set_default {α : Type} (l : List α) (i j : Nat) (v d : α) :
    (l.set i v).getD j d = if i = j ∧ i < l.length then v else l.getD j d := by
  simp only [List.getD_eq_getElem?_getD, List.getElem?_set]
  by_cases hij : i = j
  · subst hij
    by_cases hl : i < l.length
    · simp [hl]
    · simp [hl, List.getElem?_eq_none (Nat.le_of_not_lt hl)]
  · simp [hij]

/-- `std::min` is the minimum of the order. -/
theorem stdMin_eq_min (a b : K) : stdMin a b = min a b := by
  unfold stdMin
  by_cases h : b < a
  · rw [if_pos h, min_eq_right (le_of_lt h)]
  · rw [if_neg h, min_eq_left (not_lt.mp h)]

/-- A write to the current connection labels is read back. -/
theorem connectionLabel_setConnectionLabel (ctx : LockstepContext K E L)
    (st : ComputeLockstepPATs K E L) (i : Nat) (label : ConnectionLabel K)
    (hidx : st.patDataIndex < st.patData.length)
    (hi : i < (st.currentPATData ctx).connectionLabels.length) :
    (st.setConnectionLabel ctx i label).connectionLabel ctx i = label := by
  unfold ComputeLockstepPATs.setConnectionLabel ComputeLockstepPATs.connectionLabel
    ComputeLockstepPATs.currentPATData
  simp only
  rw [getD_set_default, if_pos ⟨rfl, hidx⟩]
  simp only
  rw [getD_set_default, if_pos ⟨rfl, hi⟩]

/-- A write to the current connection labels keeps the sizes and the other members. -/
theorem setConnectionLabel_frame (ctx : LockstepContext K E L)
    (st : ComputeLockstepPATs K E L) (i : Nat) (label : ConnectionLabel K) :
    (st.setConnectionLabel ctx i label).patDataIndex = st.patDataIndex ∧
    (st.setConnectionLabel ctx i label).patData.length = st.patData.length ∧
    (st.setConnectionLabel ctx i label).tripPAT = st.tripPAT ∧
    (st.setConnectionLabel ctx i label).stopLabels = st.stopLabels ∧
    (st.setConnectionLabel ctx i label).targetVertex = st.targetVertex ∧
    ((st.setConnectionLabel ctx i label).currentPATData ctx).connectionLabels.length
      = (st.currentPATData ctx).connectionLabels.length ∧
    ((st.setConnectionLabel ctx i label).currentPATData ctx).transferDistanceToTarget
      = (st.currentPATData ctx).transferDistanceToTarget := by
  refine ⟨rfl, by simp [ComputeLockstepPATs.setConnectionLabel], rfl, rfl, rfl, ?_, ?_⟩
  · unfold ComputeLockstepPATs.setConnectionLabel ComputeLockstepPATs.currentPATData
    simp only
    rw [getD_set_default]
    split
    · simp
    · rfl
  · unfold ComputeLockstepPATs.setConnectionLabel ComputeLockstepPATs.currentPATData
    simp only
    rw [getD_set_default]
    split
    · rfl
    · rfl

/-- The trip label that the scan of connection `i` leaves behind. -/
theorem scanConnection_tripPAT (ctx : LockstepContext K E L) (st : ComputeLockstepPATs K E L)
    (i : Nat) :
    (scanConnection ctx st i).tripPAT
      = st.tripPAT.set (connectionAt ctx i).tripId
          (if boardingPAT ctx st i ≥ ctx.unreachable then ctx.unreachable
           else boardingPAT ctx st i - hopOnLoadCost ctx i) := by
  unfold scanConnection
  by_cases hpat : boardingPAT ctx st i ≥ ctx.unreachable
  · simp only [hpat, if_true]
  · simp only [hpat, if_false]
    split <;> rfl

/-- The stop labels that the scan of connection `i` leaves behind. -/
theorem scanConnection_stopLabels (ctx : LockstepContext K E L) (st : ComputeLockstepPATs K E L)
    (i : Nat) :
    (scanConnection ctx st i).stopLabels
      = if boardingPAT ctx st i < ctx.unreachable ∧
            expectedPAT ctx st i < (scannedLabel ctx st i).skipPAT
        then addProfileEntries ctx i (expectedPAT ctx st i) st.stopLabels
        else st.stopLabels := by
  unfold scanConnection
  by_cases hpat : boardingPAT ctx st i ≥ ctx.unreachable
  · have hn : ¬ (boardingPAT ctx st i < ctx.unreachable ∧
        expectedPAT ctx st i < (scannedLabel ctx st i).skipPAT) :=
      fun h => absurd h.1 (not_lt.mpr hpat)
    simp only [hpat, hn, if_true, if_false]
    rfl
  · by_cases hexp : expectedPAT ctx st i ≥ (scannedLabel ctx st i).skipPAT
    · have hn : ¬ (boardingPAT ctx st i < ctx.unreachable ∧
          expectedPAT ctx st i < (scannedLabel ctx st i).skipPAT) :=
        fun h => absurd h.2 (not_lt.mpr hexp)
      simp only [hpat, hexp, hn, if_true, if_false]
      rfl
    · have hy : boardingPAT ctx st i < ctx.unreachable ∧
          expectedPAT ctx st i < (scannedLabel ctx st i).skipPAT :=
        ⟨not_le.mp hpat, not_le.mp hexp⟩
      simp only [hpat, hexp, hy, if_true, if_false, and_self]
      rfl

/-- The connection label that the scan of connection `i` leaves behind. -/
theorem scanConnection_label (ctx : LockstepContext K E L) (st : ComputeLockstepPATs K E L)
    (i : Nat) (hidx : st.patDataIndex < st.patData.length)
    (hi : i < (st.currentPATData ctx).connectionLabels.length) :
    (scanConnection ctx st i).connectionLabel ctx i
      = if boardingPAT ctx st i ≥ ctx.unreachable then scannedLabel ctx st i
        else { scannedLabel ctx st i with hopOnPAT := expectedPAT ctx st i } := by
  have h1 := connectionLabel_setConnectionLabel ctx st i (scannedLabel ctx st i) hidx hi
  obtain ⟨f1, f2, _, _, _, f6, _⟩ := setConnectionLabel_frame ctx st i (scannedLabel ctx st i)
  have h2 := connectionLabel_setConnectionLabel ctx (st.setConnectionLabel ctx i (scannedLabel ctx st i))
    i { scannedLabel ctx st i with hopOnPAT := expectedPAT ctx st i }
    (by rw [f1, f2]; exact hidx) (by rw [f6]; exact hi)
  unfold scanConnection
  by_cases hpat : boardingPAT ctx st i ≥ ctx.unreachable
  · simp only [hpat, if_true]
    exact h1
  · simp only [hpat, if_false]
    split
    · exact h2
    · exact h2

end LockstepScanProofs

section LockstepTimetable

/-- In a well-formed timetable connection `i` refers to existing stops and an
existing trip. -/
theorem connectionAt_valid {K E L : Type} (ctx : LockstepContext K E L) (hctx : ctx.wellFormed)
    (i : Nat)
    (hi : i < ctx.data.numberOfConnections) :
    (connectionAt ctx i).departureStopId < ctx.data.numberOfStops ∧
    (connectionAt ctx i).arrivalStopId < ctx.data.numberOfStops ∧
    (connectionAt ctx i).tripId < ctx.data.numberOfTrips := by
  have hi' : i < ctx.data.connections.length := hi
  have hmem : connectionAt ctx i ∈ ctx.data.connections := by
    unfold connectionAt
    rw [List.getD_eq_getElem _ _ hi']
    exact List.getElem_mem hi'
  exact hctx.1 _ hmem

end LockstepTimetable

section LockstepScanClaims

variable {K E L : Type} [LinearOrderedField K]

/-- The example network and the example scan state are well formed. -/
theorem exampleScanState_wellFormed (F : Type) [LinearOrderedField F] (w t : F) :
    (exampleContext F w t).wellFormed ∧
    (exampleScanState F).wellFormed (exampleContext F w t) := by
  refine ⟨⟨fun c hc => ?_, fun v hv => ?_⟩, ?_⟩
  · simp only [exampleContext, List.mem_singleton] at hc
    subst hc
    simp [exampleContext]
  · simpa [exampleContext] using hv
  · refine ⟨by simp [exampleScanState], rfl, rfl, rfl, rfl⟩

/-- C15: the scan of connection `i` with trip `r` computes
`pat_on = min(tripPAT[r] + enter + travel, walkingPAT, label.transferPAT + enter + travel + exit)`
with `enter`, `travel`, `exit` the load factor times the congestion costs; afterwards
`tripPAT[r]` is `pat_on - enter` when `pat_on` is below `Unreachable`, and otherwise
it is `Unreachable`, no stop label has changed and `hopOnPAT` is not written. -/
theorem scanConnection_boardingPAT (ctx : LockstepContext K E L) (st : ComputeLockstepPATs K E L)
    (i : Nat) (hctx : ctx.wellFormed) (hst : st.wellFormed ctx)
    (hi : i < ctx.data.numberOfConnections) (phi enter travel exit : K)
    (hphi : phi = ((scanConnection ctx st i).connectionLabel ctx i).loadFactor)
    (henter : enter = phi * ctx.settings.congestionEnterCosts)
    (htravel : travel
      = phi * (((connectionAt ctx i).arrivalTime - (connectionAt ctx i).departureTime : Int) : K)
          * ctx.settings.congestionTravelCosts)
    (hexit : exit = phi * ctx.settings.congestionExitCosts) :
    phi = computeLoadFactor ctx.exp ctx.settings ctx.loadData i ∧
    boardingPAT ctx st i
      = min (min (st.tripPAT.getD (connectionAt ctx i).tripId 0 + enter + travel)
              (walkingPAT ctx st i))
          (((scanConnection ctx st i).connectionLabel ctx i).transferPAT + enter + travel + exit) ∧
    walkingPAT ctx st i = st.targetPAT ctx (connectionAt ctx i) (enter + travel + exit) ∧
    (boardingPAT ctx st i < ctx.unreachable →
      (scanConnection ctx st i).tripPAT.getD (connectionAt ctx i).tripId 0
        = boardingPAT ctx st i - enter) ∧
    (¬ boardingPAT ctx st i < ctx.unreachable →
      (scanConnection ctx st i).tripPAT.getD (connectionAt ctx i).tripId 0 = ctx.unreachable ∧
      (scanConnection ctx st i).stopLabels = st.stopLabels ∧
      ((scanConnection ctx st i).connectionLabel ctx i).hopOnPAT
        = (st.connectionLabel ctx i).hopOnPAT) := by
  obtain ⟨hidx, hlabels, _, htrips, _⟩ := hst
  have hlabel := scanConnection_label ctx st i hidx (by rw [hlabels]; exact hi)
  have htrip : (connectionAt ctx i).tripId < st.tripPAT.length := by
    rw [htrips]
    exact (connectionAt_valid ctx hctx i hi).2.2
  have hphi' : phi = computeLoadFactor ctx.exp ctx.settings ctx.loadData i := by
    rw [hphi, hlabel]
    split <;> rfl
  have htransfer : ((scanConnection ctx st i).connectionLabel ctx i).transferPAT
      = (scannedLabel ctx st i).transferPAT := by
    rw [hlabel]
    split <;> rfl
  have hon : hopOnLoadCost ctx i = enter := by rw [henter, hphi']; rfl
  have htr : travelLoadCost ctx i = travel := by rw [htravel, hphi']; rfl
  have hoff : hopOffLoadCost ctx i = exit := by rw [hexit, hphi']; rfl
  have hfull : fullLoadCost ctx i = enter + travel + exit := by
    unfold fullLoadCost
    rw [hon, htr, hoff]
  have hget : (scanConnection ctx st i).tripPAT.getD (connectionAt ctx i).tripId 0
      = if boardingPAT ctx st i ≥ ctx.unreachable then ctx.unreachable
        else boardingPAT ctx st i - hopOnLoadCost ctx i := by
    rw [scanConnection_tripPAT, getD_set_zero, if_pos ⟨rfl, htrip⟩]
  refine ⟨hphi', ?_, ?_, fun hlt => ?_, fun hge => ⟨?_, ?_, ?_⟩⟩
  · rw [htransfer]
    unfold boardingPAT
    rw [stdMin_eq_min, stdMin_eq_min]
    unfold travelPAT transferPAT
    rw [hon, htr, hfull]
    have hTrip : (scannedLabel ctx st i).tripPAT = st.tripPAT.getD (connectionAt ctx i).tripId 0 := rfl
    rw [hTrip]
    congr 1
    ring
  · unfold walkingPAT
    rw [hfull]
  · rw [hget, if_neg (not_le.mpr hlt), hon]
  · rw [hget, if_pos (not_lt.mp hge)]
  · rw [scanConnection_stopLabels, if_neg (fun h => hge h.1)]
  · rw [hlabel, if_pos (not_lt.mp hge)]
    rfl

/-- C16: when `pat_on` of connection `i` is below `Unreachable`, the stored
`hopOnPAT` is `p * pat_on + (1 - p) * (failurePAT + failureCosts)` with
`p = loadData[i].boardingProbability()`,
`failurePAT = min(failureTargetPAT, nextPAT, strandingPAT)`,
`failureTargetPAT = targetPAT(departureStop, departureTime)` and
`strandingPAT = pat_on + (1 + waitingCosts) * strandingWaitingTime`; it is `pat_on`
when `p = 1`. -/
theorem scanConnection_hopOnPAT (ctx : LockstepContext K E L) (st : ComputeLockstepPATs K E L)
    (i : Nat) (hst : st.wellFormed ctx) (hi : i < ctx.data.numberOfConnections)
    (hreach : boardingPAT ctx st i < ctx.unreachable)
    (p failureTargetPAT nextPAT strandingPAT failure : K)
    (hp : p = (ctx.loadData i).boardingProbability)
    (htarget : failureTargetPAT
      = (st.currentPATData ctx).targetPAT ctx.unreachable ctx.infty
          (connectionAt ctx i).departureStopId (connectionAt ctx i).departureTime)
    (hnext : nextPAT
      = ctx.ops.evaluate
          (ctx.ops.getFailureEntry (st.stopLabel ctx (connectionAt ctx i).departureStopId)
            (connectionAt ctx i).departureTime)
          (connectionAt ctx i).departureTime ctx.settings.waitingCosts)
    (hstranding : strandingPAT
      = boardingPAT ctx st i + (1 + ctx.settings.waitingCosts) * ctx.settings.strandingWaitingTime)
    (hfailure : failure = min (min failureTargetPAT nextPAT) strandingPAT) :
    ((scanConnection ctx st i).connectionLabel ctx i).hopOnPAT
      = p * boardingPAT ctx st i + (1 - p) * (failure + ctx.settings.failureCosts) ∧
    (p = 1 → ((scanConnection ctx st i).connectionLabel ctx i).hopOnPAT = boardingPAT ctx st i) := by
  obtain ⟨hidx, hlabels, _, _, _⟩ := hst
  have hlabel := scanConnection_label ctx st i hidx (by rw [hlabels]; exact hi)
  have hfail : failurePAT ctx st i = failure := by
    unfold failurePAT
    simp only
    rw [stdMin_eq_min, stdMin_eq_min, hfailure, htarget, hnext, hstranding]
    unfold PATData.failureTargetPAT
    rw [add_comm ctx.settings.waitingCosts 1]
  have hhop : ((scanConnection ctx st i).connectionLabel ctx i).hopOnPAT
      = p * boardingPAT ctx st i + (1 - p) * (failure + ctx.settings.failureCosts) := by
    rw [hlabel, if_neg (not_le.mpr hreach)]
    show expectedPAT ctx st i = _
    unfold expectedPAT
    simp only
    rw [hfail, hp]
  refine ⟨hhop, fun h1 => ?_⟩
  rw [hhop, h1]
  ring

end LockstepScanClaims
section LockstepScanExamples

/-- The load factor of the example connection: relative load 3/2 gives 3·(1/2)². -/
theorem exampleContext_loadFactor :
    computeLoadFactor (exampleContext ℚ 0 0).exp (exampleContext ℚ 0 0).settings
      (exampleContext ℚ 0 0).loadData 0 = 3 / 4 := by
  simp only [computeLoadFactor, exampleContext, exampleSettings, quadraticLoadFactor]
  norm_num

/-- The boarding PAT of the example connection: walking from the arrival stop, which
is the target, gives 110 + (3/4 + 15/2 + 3/4) + 0. -/
theorem exampleScanState_boardingPAT :
    boardingPAT (exampleContext ℚ 0 0) (exampleScanState ℚ) 0 = 119 := by
  simp [boardingPAT, stdMin, travelPAT, walkingPAT, transferPAT, scannedLabel, hopOnLoadCost,
    travelLoadCost, hopOffLoadCost, fullLoadCost, ComputeLockstepPATs.targetPAT,
    ComputeLockstepPATs.currentPATData, ComputeLockstepPATs.stopLabel, connectionAt,
    computeLoadFactor, exampleContext, exampleSettings, quadraticLoadFactor, exampleScanState,
    exampleOps]
  norm_num

/-- C15 on the example network: the connection 0 → 1 (departure 100, arrival 110)
has load factor 3/4 and `pat_on = 119`, and the scan leaves `tripPAT[0] = 119 - 3/4`. -/
theorem scanConnection_boardingPAT_witness :
    (exampleContext ℚ 0 0).wellFormed ∧
    (exampleScanState ℚ).wellFormed (exampleContext ℚ 0 0) ∧
    boardingPAT (exampleContext ℚ 0 0) (exampleScanState ℚ) 0 = 119 ∧
    (scanConnection (exampleContext ℚ 0 0) (exampleScanState ℚ) 0).tripPAT.getD 0 0
      = 119 - 3 / 4 := by
  obtain ⟨hctx, hst⟩ := exampleScanState_wellFormed ℚ 0 0
  have h := scanConnection_boardingPAT (exampleContext ℚ 0 0) (exampleScanState ℚ) 0 hctx hst
    (by decide) _ _ _ _ rfl rfl rfl rfl
  have hlt : boardingPAT (exampleContext ℚ 0 0) (exampleScanState ℚ) 0
      < (exampleContext ℚ 0 0).unreachable := by
    rw [exampleScanState_boardingPAT]
    norm_num [exampleContext]
  have htrip := h.2.2.2.1 hlt
  rw [h.1, exampleContext_loadFactor, exampleScanState_boardingPAT] at htrip
  refine ⟨hctx, hst, exampleScanState_boardingPAT, ?_⟩
  have hid : (connectionAt (exampleContext ℚ 0 0) 0).tripId = 0 := rfl
  rw [hid] at htrip
  rw [htrip]
  norm_num [exampleContext, exampleSettings]

/-- C16 on the example network: with boarding probability 1/2, `pat_on = 119` and
`failurePAT = strandingPAT = 119` the stored `hopOnPAT` is 119. -/
theorem scanConnection_hopOnPAT_witness :
    ((scanConnection (exampleContext ℚ 0 0) (exampleScanState ℚ) 0).connectionLabel
      (exampleContext ℚ 0 0) 0).hopOnPAT = 119 := by
  obtain ⟨_, hst⟩ := exampleScanState_wellFormed ℚ 0 0
  have hlt : boardingPAT (exampleContext ℚ 0 0) (exampleScanState ℚ) 0
      < (exampleContext ℚ 0 0).unreachable := by
    rw [exampleScanState_boardingPAT]
    norm_num [exampleContext]
  have h := scanConnection_hopOnPAT (exampleContext ℚ 0 0) (exampleScanState ℚ) 0 hst
    (by decide) hlt _ _ _ _ _ rfl rfl rfl rfl rfl
  rw [h.1, exampleScanState_boardingPAT]
  simp [PATData.targetPAT, ComputeLockstepPATs.currentPATData, ComputeLockstepPATs.stopLabel,
    connectionAt, exampleContext, exampleSettings, exampleScanState, exampleOps]
  norm_num

end LockstepScanExamples

section LockstepEdgeEntries

variable {K E L : Type}

/-- The transfer entry that the scan of connection `i` adds along a reverse-graph
edge of the departure stop. -/
theorem addTransferAlongEdge_fold (ctx : LockstepContext K E L) (i : Nat) (pat : K)
    (edges : List CSA.TransferEdge) (labels : List L)
    (hedges : ∀ e, e ∈ edges → ctx.data.isStop e.toVertex = true → e.toVertex < labels.length) :
    (edges.foldl (addTransferAlongEdge ctx i pat) labels).length = labels.length ∧
    ∀ s, (edges.foldl (addTransferAlongEdge ctx i pat) labels).getD s ctx.ops.emptyLabel
      = (edges.filter (fun e => ctx.data.isStop e.toVertex && decide (e.toVertex = s))).foldl
          (fun label e => ctx.ops.addTransferEntry label
            (ctx.ops.transferEntry (connectionAt ctx i).departureTime i pat e.travelTime
              (if ctx.useTransferBufferTimes
                then ctx.data.minTransferTime (connectionAt ctx i).departureStopId else 0)
              ctx.settings.walkingCosts ctx.settings.waitingCosts))
          (labels.getD s ctx.ops.emptyLabel) := by
  induction edges generalizing labels with
  | nil => exact ⟨rfl, fun s => rfl⟩
  | cons e edges ih =>
    have hlen : (addTransferAlongEdge ctx i pat labels e).length = labels.length := by
      unfold addTransferAlongEdge
      simp only
      split
      · rfl
      · rw [List.length_set]
    obtain ⟨hl, hg⟩ := ih (addTransferAlongEdge ctx i pat labels e) (fun x hx hstop => by
      rw [hlen]
      exact hedges x (List.mem_cons_of_mem e hx) hstop)
    refine ⟨by rw [List.foldl_cons, hl, hlen], fun s => ?_⟩
    rw [List.foldl_cons, hg s]
    by_cases hstop : ctx.data.isStop e.toVertex = true
    · have hlt : e.toVertex < labels.length := hedges e (List.mem_cons_self e edges) hstop
      by_cases hs : e.toVertex = s
      · have hcond : (ctx.data.isStop e.toVertex && decide (e.toVertex = s)) = true := by
          rw [hstop, Bool.true_and]
          exact decide_eq_true hs
        rw [List.filter_cons, if_pos hcond, List.foldl_cons]
        congr 1
        unfold addTransferAlongEdge
        simp only [hstop, not_true_eq_false, if_false]
        rw [getD_set_default, if_pos ⟨hs, hlt⟩, hs]
      · have hcond : ¬ (ctx.data.isStop e.toVertex && decide (e.toVertex = s)) = true := by
          simp [hs]
        rw [List.filter_cons, if_neg hcond]
        congr 1
        unfold addTransferAlongEdge
        simp only [hstop, not_true_eq_false, if_false]
        rw [getD_set_default, if_neg (fun h => hs h.1)]
    · have hcond : ¬ (ctx.data.isStop e.toVertex && decide (e.toVertex = s)) = true := by
        simp [hstop]
      rw [List.filter_cons, if_neg hcond]
      congr 1
      unfold addTransferAlongEdge
      simp only
      rw [if_pos hstop]

/-- The stop labels after the entries of connection `i` have been added, stop by
stop. -/
theorem addProfileEntries_getD (ctx : LockstepContext K E L) (hctx : ctx.wellFormed) (i : Nat)
    (pat : K) (labels : List L) (hlen : labels.length = ctx.data.numberOfStops)
    (hu : (connectionAt ctx i).departureStopId < ctx.data.numberOfStops) :
    (addProfileEntries ctx i pat labels).length = labels.length ∧
    ∀ s, (addProfileEntries ctx i pat labels).getD s ctx.ops.emptyLabel
      = ((ctx.reverseGraph.edgesFrom (connectionAt ctx i).departureStopId).filter
            (fun e => ctx.data.isStop e.toVertex && decide (e.toVertex = s))).foldl
          (fun label e => ctx.ops.addTransferEntry label
            (ctx.ops.transferEntry (connectionAt ctx i).departureTime i pat e.travelTime
              (if ctx.useTransferBufferTimes
                then ctx.data.minTransferTime (connectionAt ctx i).departureStopId else 0)
              ctx.settings.walkingCosts ctx.settings.waitingCosts))
          (if s = (connectionAt ctx i).departureStopId then
            ctx.ops.addTransferEntry
              (ctx.ops.addWaitingEntry
                (labels.getD (connectionAt ctx i).departureStopId ctx.ops.emptyLabel)
                (ctx.ops.waitingEntry (connectionAt ctx i).departureTime i pat
                  ctx.settings.waitingCosts))
              (ctx.ops.transferEntry (connectionAt ctx i).departureTime i pat 0
                (ctx.data.minTransferTime (connectionAt ctx i).departureStopId)
                ctx.settings.walkingCosts ctx.settings.waitingCosts)
           else labels.getD s ctx.ops.emptyLabel) := by
  have hu' : (connectionAt ctx i).departureStopId < labels.length := by rw [hlen]; exact hu
  unfold addProfileEntries
  simp only
  obtain ⟨hl, hg⟩ := addTransferAlongEdge_fold ctx i pat
    (ctx.reverseGraph.edgesFrom (connectionAt ctx i).departureStopId)
    ((labels.set (connectionAt ctx i).departureStopId
        (ctx.ops.addWaitingEntry
          (labels.getD (connectionAt ctx i).departureStopId ctx.ops.emptyLabel)
          (ctx.ops.waitingEntry (connectionAt ctx i).departureTime i pat
            ctx.settings.waitingCosts))).set (connectionAt ctx i).departureStopId
      (ctx.ops.addTransferEntry
        ((labels.set (connectionAt ctx i).departureStopId
          (ctx.ops.addWaitingEntry
            (labels.getD (connectionAt ctx i).departureStopId ctx.ops.emptyLabel)
            (ctx.ops.waitingEntry (connectionAt ctx i).departureTime i pat
              ctx.settings.waitingCosts))).getD (connectionAt ctx i).departureStopId
          ctx.ops.emptyLabel)
        (ctx.ops.transferEntry (connectionAt ctx i).departureTime i pat 0
          (ctx.data.minTransferTime (connectionAt ctx i).departureStopId)
          ctx.settings.walkingCosts ctx.settings.waitingCosts)))
    (fun e _ hstop => by
      rw [List.length_set, List.length_set, hlen]
      exact hctx.2 e.toVertex hstop)
  refine ⟨by rw [hl, List.length_set, List.length_set], fun s => ?_⟩
  rw [hg s]
  congr 1
  rw [getD_set_default, List.length_set, getD_set_default]
  by_cases hs : s = (connectionAt ctx i).departureStopId
  · rw [if_pos ⟨hs.symm, hu'⟩, if_pos ⟨rfl, hu'⟩, if_pos hs]
  · rw [if_neg (fun h => hs h.1.symm), getD_set_default, if_neg (fun h => hs h.1.symm), if_neg hs]

end LockstepEdgeEntries

section LockstepProfileEntries

variable {K E L : Type} [LinearOrderedField K]

/-- C17: the scan of connection `i` with departure stop `u` changes stop labels
exactly when `pat_on` is below `Unreachable` and `expectedPAT < skipPAT`. Then the
label of `u` receives one waiting entry and one transfer entry with walking distance
0 and buffer `minTransferTime(u)`, and after that every stop `s` receives, for each
reverse-graph edge from `u` whose head is the stop `s`, one transfer entry with the
travel time of the edge and buffer `minTransferTime(u)` if `UseTransferBufferTimes`
and 0 otherwise; nothing else is added to any label. -/
theorem scanConnection_profileEntries (ctx : LockstepContext K E L)
    (st : ComputeLockstepPATs K E L) (i : Nat) (hctx : ctx.wellFormed) (hst : st.wellFormed ctx)
    (hi : i < ctx.data.numberOfConnections) :
    (scanConnection ctx st i).stopLabels.length = st.stopLabels.length ∧
    (¬ (boardingPAT ctx st i < ctx.unreachable ∧
          expectedPAT ctx st i < (scannedLabel ctx st i).skipPAT) →
      (scanConnection ctx st i).stopLabels = st.stopLabels) ∧
    (boardingPAT ctx st i < ctx.unreachable ∧
        expectedPAT ctx st i < (scannedLabel ctx st i).skipPAT →
      ∀ s, (scanConnection ctx st i).stopLabels.getD s ctx.ops.emptyLabel
        = ((ctx.reverseGraph.edgesFrom (connectionAt ctx i).departureStopId).filter
              (fun e => ctx.data.isStop e.toVertex && decide (e.toVertex = s))).foldl
            (fun label e => ctx.ops.addTransferEntry label
              (ctx.ops.transferEntry (connectionAt ctx i).departureTime i (expectedPAT ctx st i)
                e.travelTime
                (if ctx.useTransferBufferTimes
                  then ctx.data.minTransferTime (connectionAt ctx i).departureStopId else 0)
                ctx.settings.walkingCosts ctx.settings.waitingCosts))
            (if s = (connectionAt ctx i).departureStopId then
              ctx.ops.addTransferEntry
                (ctx.ops.addWaitingEntry
                  (st.stopLabels.getD (connectionAt ctx i).departureStopId ctx.ops.emptyLabel)
                  (ctx.ops.waitingEntry (connectionAt ctx i).departureTime i (expectedPAT ctx st i)
                    ctx.settings.waitingCosts))
                (ctx.ops.transferEntry (connectionAt ctx i).departureTime i (expectedPAT ctx st i) 0
                  (ctx.data.minTransferTime (connectionAt ctx i).departureStopId)
                  ctx.settings.walkingCosts ctx.settings.waitingCosts)
             else st.stopLabels.getD s ctx.ops.emptyLabel)) := by
  obtain ⟨_, _, _, _, hstops⟩ := hst
  obtain ⟨hl, hg⟩ := addProfileEntries_getD ctx hctx i (expectedPAT ctx st i) st.stopLabels hstops
    (connectionAt_valid ctx hctx i hi).1
  refine ⟨?_, fun hno => ?_, fun hyes s => ?_⟩
  · rw [scanConnection_stopLabels]
    split
    · exact hl
    · rfl
  · rw [scanConnection_stopLabels, if_neg hno]
  · rw [scanConnection_stopLabels, if_pos hyes]
    exact hg s

end LockstepProfileEntries

section LockstepProfileEntriesExample

/-- The expected PAT of the example connection: boarding probability 1/2, boarding
PAT 119 and failure PAT 119. -/
theorem exampleScanState_expectedPAT :
    expectedPAT (exampleContext ℚ 0 0) (exampleScanState ℚ) 0 = 119 := by
  unfold expectedPAT failurePAT
  simp only [exampleScanState_boardingPAT]
  simp [stdMin, PATData.failureTargetPAT, PATData.targetPAT, ComputeLockstepPATs.currentPATData,
    ComputeLockstepPATs.stopLabel, connectionAt, exampleContext, exampleSettings,
    exampleScanState, exampleOps]
  norm_num

/-- C17 on the example network: the scan of the connection 0 → 1 with expected PAT
119 below the skip PAT adds a waiting entry and a transfer entry with buffer 5 at stop
0 and, along the edge 0 → 2 of travel time 3, a transfer entry without buffer at stop
2; stop 1 is unchanged and the edge to the vertex 3, which is no stop, adds nothing. -/
theorem scanConnection_profileEntries_witness :
    (scanConnection (exampleContext ℚ 0 0) (exampleScanState ℚ) 0).stopLabels.getD 0 ([], [])
      = ([{ departureTime := 100, pat := 119 }], [{ departureTime := 95, pat := 119 }]) ∧
    (scanConnection (exampleContext ℚ 0 0) (exampleScanState ℚ) 0).stopLabels.getD 1 ([], [])
      = ([], []) ∧
    (scanConnection (exampleContext ℚ 0 0) (exampleScanState ℚ) 0).stopLabels.getD 2 ([], [])
      = ([], [{ departureTime := 97, pat := 122 }]) := by
  obtain ⟨hctx, hst⟩ := exampleScanState_wellFormed ℚ 0 0
  have h := (scanConnection_profileEntries (exampleContext ℚ 0 0) (exampleScanState ℚ) 0 hctx hst
    (by decide)).2.2 (by
      rw [exampleScanState_boardingPAT, exampleScanState_expectedPAT]
      constructor
      · norm_num [exampleContext]
      · simp [scannedLabel, skipEntry, ComputeLockstepPATs.stopLabel, connectionAt,
          exampleContext, exampleSettings, exampleScanState, exampleOps]
        norm_num)
  rw [exampleScanState_expectedPAT] at h
  refine ⟨?_, ?_, ?_⟩
  · have h0 := h 0
    simp [CSA.TransferGraph.edgesFrom, connectionAt, exampleContext, exampleSettings,
      exampleScanState, exampleOps] at h0
    simpa [exampleContext, exampleOps] using h0
  · have h1 := h 1
    simp [CSA.TransferGraph.edgesFrom, connectionAt, exampleContext, exampleSettings,
      exampleScanState, exampleOps] at h1
    simpa [exampleContext, exampleOps] using h1
  · have h2 := h 2
    simp [CSA.TransferGraph.edgesFrom, connectionAt, exampleContext, exampleSettings,
      exampleScanState, exampleOps] at h2
    norm_num at h2
    simpa [exampleContext, exampleOps] using h2

end LockstepProfileEntriesExample

section LockstepDistances

variable {K E L : Type}

/-- The loop over the edges of the target keeps the size of the distance vector. -/
theorem relaxTargetEdges_length (ctx : LockstepContext K E L) (value : CSA.TransferEdge → Int)
    (edges : List CSA.TransferEdge) (distances : List Int) :
    (edges.foldl
      (fun d edge => if ctx.data.isStop edge.toVertex then d.set edge.toVertex (value edge) else d)
      distances).length = distances.length := by
  induction edges generalizing distances with
  | nil => rfl
  | cons e edges ih =>
    rw [List.foldl_cons, ih]
    split
    · rw [List.length_set]
    · rfl

/-- The loop over the edges of the target, read at one stop: the last edge whose head
is that stop decides. -/
theorem relaxTargetEdges_getD (ctx : LockstepContext K E L) (value : CSA.TransferEdge → Int)
    (edges : List CSA.TransferEdge) (distances : List Int)
    (hstops : ∀ v, ctx.data.isStop v = true → v < distances.length) (s : Nat) :
    (edges.foldl
      (fun d edge => if ctx.data.isStop edge.toVertex then d.set edge.toVertex (value edge) else d)
      distances).getD s 0
      = (edges.filter (fun e => ctx.data.isStop e.toVertex && decide (e.toVertex = s))).foldl
          (fun _ e => value e) (distances.getD s 0) := by
  induction edges generalizing distances with
  | nil => rfl
  | cons e edges ih =>
    rw [List.foldl_cons]
    by_cases hstop : ctx.data.isStop e.toVertex = true
    · rw [if_pos hstop, ih _ (fun v hv => by rw [List.length_set]; exact hstops v hv)]
      by_cases hs : e.toVertex = s
      · have hcond : (ctx.data.isStop e.toVertex && decide (e.toVertex = s)) = true := by
          rw [hstop, Bool.true_and]
          exact decide_eq_true hs
        rw [List.filter_cons, if_pos hcond, List.foldl_cons, getD_set_default,
          if_pos ⟨hs, hstops _ hstop⟩]
      · have hcond : ¬ (ctx.data.isStop e.toVertex && decide (e.toVertex = s)) = true := by
          simp [hs]
        rw [List.filter_cons, if_neg hcond, getD_set_default, if_neg (fun h => hs h.1)]
    · have hcond : ¬ (ctx.data.isStop e.toVertex && decide (e.toVertex = s)) = true := by
        simp [hstop]
      rw [if_neg hstop, List.filter_cons, if_neg hcond, ih _ hstops]

/-- The last edge to a stop decides the value that the loop over the edges leaves
there. -/
theorem relaxTargetEdges_last (ctx : LockstepContext K E L) (value : CSA.TransferEdge → Int)
    (before after : List CSA.TransferEdge) (e : CSA.TransferEdge) (distances : List Int)
    (hstops : ∀ v, ctx.data.isStop v = true → v < distances.length)
    (hstop : ctx.data.isStop e.toVertex = true)
    (hlast : ∀ x, x ∈ after → x.toVertex ≠ e.toVertex) :
    ((before ++ e :: after).foldl
      (fun d edge => if ctx.data.isStop edge.toVertex then d.set edge.toVertex (value edge) else d)
      distances).getD e.toVertex 0 = value e := by
  rw [relaxTargetEdges_getD ctx value _ distances hstops, List.filter_append, List.foldl_append]
  have hcond : (ctx.data.isStop e.toVertex && decide (e.toVertex = e.toVertex)) = true := by
    rw [hstop, Bool.true_and]
    exact decide_eq_true rfl
  have hafter : after.filter (fun x => ctx.data.isStop x.toVertex && decide (x.toVertex = e.toVertex))
      = [] := by
    rw [List.filter_eq_nil_iff]
    intro x hx hc
    have : x.toVertex = e.toVertex := by
      have h2 := (Bool.and_eq_true _ _).mp hc
      exact of_decide_eq_true h2.2
    exact hlast x hx this
  rw [List.filter_cons, if_pos hcond, hafter, List.foldl_cons, List.foldl_nil]

end LockstepDistances

section LockstepDistanceWrites

variable {K E L : Type} [LinearOrderedField K]

/-- A write to the current distances is read back. -/
theorem currentPATData_setDistances (ctx : LockstepContext K E L) (st : ComputeLockstepPATs K E L)
    (distances : List Int) (hidx : st.patDataIndex < st.patData.length) :
    ((st.setDistances ctx distances).currentPATData ctx).transferDistanceToTarget = distances := by
  unfold ComputeLockstepPATs.setDistances ComputeLockstepPATs.currentPATData
  simp only
  rw [getD_set_default, if_pos ⟨rfl, hidx⟩]

end LockstepDistanceWrites

section DoubleRounding

variable {K : Type} [LinearOrderedField K] [FloorRing K]

/-- Rounding changes no integer. -/
theorem roundHalfEven_intCast (n : Int) : roundHalfEven (n : K) = n := by
  unfold roundHalfEven
  rw [Int.floor_intCast, sub_self, if_pos (by norm_num)]

/-- Rounding to an integer, from the integer below. -/
theorem roundHalfEven_of_floor (x : K) (f : Int) (hf : ⌊x⌋ = f) :
    roundHalfEven x
      = if x - f < 1 / 2 then f else if 1 / 2 < x - f then f + 1
        else if f % 2 = 0 then f else f + 1 := by
  unfold roundHalfEven
  rw [hf]

/-- Rounding to a `double`, from the binary exponent of the value. -/
theorem roundToDouble_of_log (x : K) (hx : x ≠ 0) (l : Int) (hlow : (2 : K) ^ l ≤ |x|)
    (hhigh : |x| < (2 : K) ^ (l + 1)) :
    roundToDouble x = (roundHalfEven (x / (2 : K) ^ (l - 52)) : K) * (2 : K) ^ (l - 52) := by
  have hpos : 0 < |x| := abs_pos.mpr hx
  have hl : Int.log 2 |x| = l := by
    apply le_antisymm
    · have h1 : ((2 : ℕ) : K) ^ Int.log 2 |x| ≤ |x| := Int.zpow_log_le_self (by norm_num) hpos
      have h2 : ((2 : ℕ) : K) ^ Int.log 2 |x| < ((2 : ℕ) : K) ^ (l + 1) := by
        refine lt_of_le_of_lt h1 ?_
        exact_mod_cast hhigh
      have := (zpow_lt_zpow_iff_right₀ (by norm_num : (1 : K) < ((2 : ℕ) : K))).mp h2
      omega
    · have h1 : |x| < ((2 : ℕ) : K) ^ (Int.log 2 |x| + 1) := Int.lt_zpow_succ_log_self (by norm_num) _
      have h2 : ((2 : ℕ) : K) ^ l < ((2 : ℕ) : K) ^ (Int.log 2 |x| + 1) := by
        refine lt_of_le_of_lt ?_ h1
        exact_mod_cast hlow
      have := (zpow_lt_zpow_iff_right₀ (by norm_num : (1 : K) < ((2 : ℕ) : K))).mp h2
      omega
  unfold roundToDouble
  rw [if_neg hx, hl]

/-- A value `m / 2 ^ k` with `|m| < 2 ^ 53` is a `double`: rounding does not change
it. -/
theorem roundToDouble_dyadic (m : Int) (k : ℕ) (hm : |m| < 2 ^ 53) :
    roundToDouble ((m : K) / 2 ^ k) = (m : K) / 2 ^ k := by
  by_cases h0 : m = 0
  · subst h0
    simp [roundToDouble]
  have hmK : (m : K) ≠ 0 := Int.cast_ne_zero.mpr h0
  have h2k : (0 : K) < 2 ^ k := by positivity
  have hx : (m : K) / 2 ^ k ≠ 0 := div_ne_zero hmK (ne_of_gt h2k)
  have hpos : 0 < |(m : K) / 2 ^ k| := abs_pos.mpr hx
  have hlow : ((2 : ℕ) : K) ^ Int.log 2 |(m : K) / 2 ^ k| ≤ |(m : K) / 2 ^ k| :=
    Int.zpow_log_le_self (by norm_num) hpos
  have habs : |(m : K) / 2 ^ k| < (2 : K) ^ ((53 : ℤ) - k) := by
    rw [abs_div, abs_of_pos h2k, div_lt_iff₀ h2k, ← zpow_natCast (2 : K) k,
      ← zpow_add₀ (two_ne_zero), sub_add_cancel]
    have : ((|m| : Int) : K) < ((2 ^ 53 : Int) : K) := Int.cast_lt.mpr hm
    rw [Int.cast_abs] at this
    exact_mod_cast this
  have hl : Int.log 2 |(m : K) / 2 ^ k| < (53 : ℤ) - k := by
    have h2 : ((2 : ℕ) : K) ^ Int.log 2 |(m : K) / 2 ^ k| < ((2 : ℕ) : K) ^ ((53 : ℤ) - k) := by
      refine lt_of_le_of_lt hlow ?_
      exact_mod_cast habs
    exact (zpow_lt_zpow_iff_right₀ (by norm_num : (1 : K) < ((2 : ℕ) : K))).mp h2
  obtain ⟨j, hj⟩ := Int.eq_ofNat_of_zero_le
    (show (0 : ℤ) ≤ 52 - k - Int.log 2 |(m : K) / 2 ^ k| by omega)
  have hdiv : (m : K) / 2 ^ k / (2 : K) ^ (Int.log 2 |(m : K) / 2 ^ k| - 52)
      = ((m * 2 ^ j : Int) : K) := by
    rw [Int.cast_mul, Int.cast_pow, Int.cast_ofNat, ← zpow_natCast (2 : K) j, ← hj,
      ← zpow_natCast (2 : K) k, div_div, ← zpow_add₀ (two_ne_zero), div_eq_mul_inv, ← zpow_neg]
    congr 2
    ring
  unfold roundToDouble
  rw [if_neg hx, hdiv, roundHalfEven_intCast, Int.cast_mul, Int.cast_pow, Int.cast_ofNat,
    ← zpow_natCast (2 : K) j, ← hj, ← zpow_natCast (2 : K) k, mul_assoc,
    ← zpow_add₀ (two_ne_zero), div_eq_mul_inv, ← zpow_neg]
  congr 2
  ring

/-- An integer below `2 ^ 53` in absolute value is a `double`. -/
theorem roundToDouble_intCast (n : Int) (hn : |n| < 2 ^ 53) : roundToDouble (n : K) = n := by
  have h := roundToDouble_dyadic (K := K) n 0 hn
  simpa using h

/-- The conversion to `int` changes no integer in the range of `int`. -/
theorem doubleToInt_intCast (n : Int) (hn : fitsInt n = true) : doubleToInt (n : K) = n := by
  have htrunc : (if (0 : K) ≤ (n : K) then ⌊(n : K)⌋ else ⌈(n : K)⌉) = n := by
    split
    · exact Int.floor_intCast n
    · exact Int.ceil_intCast n
  unfold doubleToInt
  rw [htrunc, if_pos hn]

/-- A value in the range of `int` is below `2 ^ 53` in absolute value. -/
theorem fitsInt_abs (n : Int) (hn : fitsInt n = true) : |n| < 2 ^ 53 := by
  unfold fitsInt at hn
  simp only [Bool.and_eq_true, decide_eq_true_eq] at hn
  rw [abs_lt]
  constructor <;> omega

/-- The stored value is the product itself when the sum `walkingCosts + 1` is a
`double` and the product is an integer in the range of `int`. -/
theorem doubleToInt_exact_product (w : K) (t n m : Int) (k : ℕ) (hm : |m| < 2 ^ 53)
    (hsum : w + 1 = (m : K) / 2 ^ k) (hprod : (w + 1) * (t : K) = (n : K))
    (hn : fitsInt n = true) :
    doubleToInt (roundToDouble (roundToDouble (w + 1) * (t : K))) = n := by
  have h1 : roundToDouble (w + 1) = w + 1 := by
    rw [hsum]
    exact roundToDouble_dyadic m k hm
  rw [h1, hprod, roundToDouble_intCast n (fitsInt_abs n hn), doubleToInt_intCast n hn]

end DoubleRounding

section DoubleRoundingExample

/-- The rounding of `double` arithmetic at walking costs 0.13 and travel time 100. The
`double` nearest to 13/100 is `1170935903116329 / 2 ^ 53`; the sum with 1 lies halfway
between two `double` values and is rounded down to `1272266894732165 / 2 ^ 50`; the
product with 100 is rounded to `7951668092076031 / 2 ^ 46`, which is below 113, and the
conversion to `int` gives 112, while the exact product has the integer part 113. -/
theorem roundToDouble_example :
    roundToDouble (13 / 100 : ℚ) = 1170935903116329 / 2 ^ 53 ∧
    roundToDouble ((1170935903116329 : ℚ) / 2 ^ 53 + 1) = 1272266894732165 / 2 ^ 50 ∧
    roundToDouble ((1272266894732165 : ℚ) / 2 ^ 50 * ((100 : Int) : ℚ))
      = 7951668092076031 / 2 ^ 46 ∧
    doubleToInt ((7951668092076031 : ℚ) / 2 ^ 46) = 112 ∧
    ⌊((1170935903116329 : ℚ) / 2 ^ 53 + 1) * ((100 : Int) : ℚ)⌋ = 113 := by
  refine ⟨?_, ?_, ?_, ?_, ?_⟩
  · rw [roundToDouble_of_log (13 / 100 : ℚ) (by norm_num) (-3) (by norm_num [abs_of_pos])
      (by norm_num [abs_of_pos]),
      roundHalfEven_of_floor _ 4683743612465315 (by rw [Int.floor_eq_iff]; norm_num)]
    norm_num
  · rw [roundToDouble_of_log _ (by norm_num) 0 (by norm_num [abs_of_pos])
      (by norm_num [abs_of_pos]),
      roundHalfEven_of_floor _ 5089067578928660 (by rw [Int.floor_eq_iff]; norm_num)]
    norm_num
  · rw [roundToDouble_of_log _ (by norm_num) 6 (by norm_num [abs_of_pos])
      (by norm_num [abs_of_pos]),
      roundHalfEven_of_floor _ 7951668092076031 (by rw [Int.floor_eq_iff]; norm_num)]
    norm_num
  · have hfloor : ⌊(7951668092076031 : ℚ) / 2 ^ 46⌋ = 112 := by
      rw [Int.floor_eq_iff]
      norm_num
    have htrunc : (if (0 : ℚ) ≤ 7951668092076031 / 2 ^ 46 then ⌊(7951668092076031 : ℚ) / 2 ^ 46⌋
        else ⌈(7951668092076031 : ℚ) / 2 ^ 46⌉) = 112 := by
      rw [if_pos (by norm_num), hfloor]
    unfold doubleToInt
    rw [htrunc, if_pos (by decide)]
  · rw [Int.floor_eq_iff]
    norm_num

/-- The conversion at walking costs `10 ^ 9` and travel time 3: the sum and the product
3000000003 need no rounding, the product lies outside the range of `int`, and the
stored value is `INT_MIN`. -/
theorem doubleToInt_example_outside_range :
    doubleToInt (roundToDouble (roundToDouble ((10 : ℚ) ^ 9 + 1) * ((3 : Int) : ℚ)))
      = -2147483648 := by
  have hsum : (10 : ℚ) ^ 9 + 1 = ((1000000001 : Int) : ℚ) := by norm_num
  have hprod : ((1000000001 : Int) : ℚ) * ((3 : Int) : ℚ) = ((3000000003 : Int) : ℚ) := by
    norm_num
  have htrunc : (if (0 : ℚ) ≤ ((3000000003 : Int) : ℚ) then ⌊((3000000003 : Int) : ℚ)⌋
      else ⌈((3000000003 : Int) : ℚ)⌉) = 3000000003 := by
    rw [if_pos (by norm_num), Int.floor_intCast]
  rw [hsum, roundToDouble_intCast 1000000001 (by decide), hprod,
    roundToDouble_intCast 3000000003 (by decide)]
  unfold doubleToInt
  rw [htrunc, if_neg (by decide)]
  norm_num

end DoubleRoundingExample

section LockstepEdgeValues

variable {K E L : Type}

/-- The loop over the edges of the target depends on the stored values of these edges
only. -/
theorem relaxTargetEdges_congr (ctx : LockstepContext K E L) (value1 value2 : CSA.TransferEdge → Int)
    (target : Nat) (distances : List Int)
    (h : ∀ e, e ∈ ctx.reverseGraph.edgesFrom target → value1 e = value2 e) :
    relaxTargetEdges ctx value1 target distances = relaxTargetEdges ctx value2 target distances := by
  unfold relaxTargetEdges
  generalize ctx.reverseGraph.edgesFrom target = edges at h
  induction edges generalizing distances with
  | nil => rfl
  | cons e rest ih =>
    rw [List.foldl_cons, List.foldl_cons, h e (List.mem_cons_self e rest)]
    exact ih _ (fun x hx => h x (List.mem_cons_of_mem e hx))

end LockstepEdgeValues

section LockstepInitialize

variable {K E L : Type} [LinearOrderedField K] [FloorRing K]

/-- The distances of the current `PATData` after `initialize(target)`. -/
theorem initialize_distances (ctx : LockstepContext K E L) (st : ComputeLockstepPATs K E L)
    (target : Nat) (hidx : st.patDataIndex < st.patData.length) :
    (( ComputeLockstepPATs.initialize ctx st target).currentPATData ctx).transferDistanceToTarget
      = initializeDistances ctx target (st.currentPATData ctx).transferDistanceToTarget := by
  exact currentPATData_setDistances ctx { st with targetVertex := some target } _ hidx

/-- The distance that `initialize(target)` stores for the head of an edge of the
target: the converted product for the last edge with that head, and 0 for the target
itself. -/
theorem initializeDistances_edge (ctx : LockstepContext K E L) (target : Nat)
    (distances : List Int) (hstops : ∀ v, ctx.data.isStop v = true → v < distances.length) :
    (∀ before e after, ctx.reverseGraph.edgesFrom target = before ++ e :: after →
      (∀ x, x ∈ after → x.toVertex ≠ e.toVertex) → ctx.data.isStop e.toVertex = true →
      e.toVertex ≠ target →
      (initializeDistances ctx target distances).getD e.toVertex 0
        = doubleToInt (roundToDouble (roundToDouble (ctx.settings.walkingCosts + 1)
            * (e.travelTime : K)))) ∧
    (ctx.data.isStop target = true → (initializeDistances ctx target distances).getD target 0 = 0) := by
  refine ⟨fun before e after hsplit hlast hstop hne => ?_, fun htarget => ?_⟩
  · unfold initializeDistances relaxTargetEdges
    simp only
    rw [hsplit]
    have hval := relaxTargetEdges_last ctx
      (fun edge => doubleToInt (roundToDouble (roundToDouble (ctx.settings.walkingCosts + 1)
        * (edge.travelTime : K))))
      before after e distances hstops hstop hlast
    split
    · rw [getD_set_default, if_neg (fun h => hne h.1.symm)]
      exact hval
    · exact hval
  · unfold initializeDistances
    simp only
    rw [if_pos htarget, getD_set_default]
    have hlen : target < (relaxTargetEdges ctx
        (fun edge => doubleToInt (roundToDouble (roundToDouble (ctx.settings.walkingCosts + 1)
          * (edge.travelTime : K))))
        target distances).length := by
      unfold relaxTargetEdges
      rw [relaxTargetEdges_length]
      exact hstops target htarget
    rw [if_pos ⟨rfl, hlen⟩]

/-- The distances that `initialize(target)` leaves untouched: every entry that is
neither the head of an edge of the target nor the target itself. -/
theorem initializeDistances_other (ctx : LockstepContext K E L) (target : Nat)
    (distances : List Int) (s : Nat) (hs : s ≠ target)
    (hedges : ∀ x, x ∈ ctx.reverseGraph.edgesFrom target → x.toVertex ≠ s) :
    (initializeDistances ctx target distances).getD s 0 = distances.getD s 0 := by
  have hfold : ∀ (edges : List CSA.TransferEdge) (d : List Int),
      (∀ x, x ∈ edges → x.toVertex ≠ s) →
      (edges.foldl
        (fun d edge =>
          if ctx.data.isStop edge.toVertex then
            d.set edge.toVertex
              (doubleToInt (roundToDouble (roundToDouble (ctx.settings.walkingCosts + 1)
                * (edge.travelTime : K))))
          else d) d).getD s 0 = d.getD s 0 := by
    intro edges
    induction edges with
    | nil => intro d _; rfl
    | cons e rest ih =>
      intro d hne
      rw [List.foldl_cons, ih _ (fun x hx => hne x (List.mem_cons_of_mem _ hx))]
      split
      · rw [getD_set_default, if_neg (fun h => hne e (List.mem_cons_self _ _) h.1)]
      · rfl
  unfold initializeDistances relaxTargetEdges
  simp only
  split
  · rw [getD_set_default, if_neg (fun h => hs h.1.symm)]
    exact hfold _ _ hedges
  · exact hfold _ _ hedges

/-- With walking costs 0 and travel times in the range of `int`, `initialize(target)`
stores the travel times: the sum 1 and the products need no rounding. -/
theorem initializeDistances_of_zero_costs (ctx : LockstepContext K E L) (target : Nat)
    (distances : List Int) (hcosts : ctx.settings.walkingCosts = 0)
    (hfit : ∀ e, e ∈ ctx.reverseGraph.edgesFrom target → fitsInt e.travelTime = true) :
    initializeDistances ctx target distances
      = if ctx.data.isStop target
        then (relaxTargetEdges ctx (fun edge => edge.travelTime) target distances).set target 0
        else relaxTargetEdges ctx (fun edge => edge.travelTime) target distances := by
  unfold initializeDistances
  simp only
  rw [relaxTargetEdges_congr ctx _ (fun edge => edge.travelTime) target distances
    (fun e he => by
      have h1 : ctx.settings.walkingCosts + 1 = ((1 : Int) : K) := by
        rw [hcosts, zero_add, Int.cast_one]
      rw [h1, roundToDouble_intCast 1 (by decide), Int.cast_one, one_mul,
        roundToDouble_intCast _ (fitsInt_abs _ (hfit e he)), doubleToInt_intCast _ (hfit e he)])]

end LockstepInitialize

section LockstepInitializeClaims

/-- The example network is well formed, and so is a fresh example object with a
`patDataIndex` inside `patData`. -/
theorem exampleLockstepAt_wellFormed (F : Type) [LinearOrderedField F] (w t : F) (size index : Nat)
    (h : index < size) :
    (exampleContext F w t).wellFormed ∧
    (exampleLockstepAt F size index).wellFormed (exampleContext F w t) := by
  refine ⟨(exampleScanState_wellFormed F w t).1, ?_⟩
  have hcur : (exampleLockstepAt F size index).currentPATData (exampleContext F w t)
      = PATData.fresh (ExampleEntry F) 1000000 1000000 3 1 := by
    simp only [ComputeLockstepPATs.currentPATData, exampleLockstepAt, exampleLockstep,
      List.getD_eq_getElem?_getD, List.getElem?_replicate, h, if_true, Option.getD_some]
  refine ⟨by simpa [exampleLockstepAt, exampleLockstep] using h, ?_, ?_, rfl, rfl⟩
  · rw [hcur]
    simp [PATData.fresh, exampleContext, CSA.Data.numberOfConnections]
  · rw [hcur]
    simp [PATData.fresh, exampleContext]

/-- C18 fails for a product that is no integer: with `walkingCosts = 1/2` and the
edge 1 → 2 of travel time 7, the sum 3/2 and the product 21/2 are `double` values and
the conversion to `int` drops the fraction, so `initialize(1)` on fresh distances
stores 10 for stop 2, while `(1 + walkingCosts) * travelTime` is 21/2. -/
theorem initialize_stores_truncated_distance :
    (( ComputeLockstepPATs.initialize (exampleContext ℚ (1 / 2) 0) (exampleLockstepAt ℚ 1 0) 1).currentPATData
      (exampleContext ℚ (1 / 2) 0)).transferDistanceToTarget.getD 2 0 = 10 ∧
    ((( ComputeLockstepPATs.initialize (exampleContext ℚ (1 / 2) 0) (exampleLockstepAt ℚ 1 0) 1).currentPATData
      (exampleContext ℚ (1 / 2) 0)).transferDistanceToTarget.getD 2 0 : ℚ)
      ≠ (1 + (exampleContext ℚ (1 / 2) 0).settings.walkingCosts) * ((7 : Int) : ℚ) := by
  obtain ⟨hctx, hst⟩ := exampleLockstepAt_wellFormed ℚ (1 / 2) 0 1 0 (by decide)
  have hval : (( ComputeLockstepPATs.initialize (exampleContext ℚ (1 / 2) 0) (exampleLockstepAt ℚ 1 0) 1).currentPATData
      (exampleContext ℚ (1 / 2) 0)).transferDistanceToTarget.getD 2 0 = 10 := by
    rw [initialize_distances _ _ _ hst.1]
    have hedge := (initializeDistances_edge (exampleContext ℚ (1 / 2) 0) 1
      ((exampleLockstepAt ℚ 1 0).currentPATData (exampleContext ℚ (1 / 2) 0)).transferDistanceToTarget
      (fun v hv => by rw [hst.2.2.1]; exact hctx.2 v hv)).1
      [] { toVertex := 2, travelTime := 7 } [] rfl (fun x hx => absurd hx (List.not_mem_nil x))
      rfl (by decide)
    rw [hedge]
    have hsum : (exampleContext ℚ (1 / 2) 0).settings.walkingCosts + 1
        = ((3 : Int) : ℚ) / 2 ^ 1 := by
      simp only [exampleContext]
      norm_num
    have hprod : ((3 : Int) : ℚ) / 2 ^ 1 * ((7 : Int) : ℚ) = ((21 : Int) : ℚ) / 2 ^ 1 := by
      norm_num
    have hfloor : ⌊((21 : Int) : ℚ) / 2 ^ 1⌋ = 10 := by
      rw [Int.floor_eq_iff]
      norm_num
    have htrunc : (if (0 : ℚ) ≤ ((21 : Int) : ℚ) / 2 ^ 1 then ⌊((21 : Int) : ℚ) / 2 ^ 1⌋
        else ⌈((21 : Int) : ℚ) / 2 ^ 1⌉) = 10 := by
      rw [if_pos (by norm_num), hfloor]
    rw [hsum, roundToDouble_dyadic 3 1 (by decide), hprod, roundToDouble_dyadic 21 1 (by decide)]
    unfold doubleToInt
    rw [htrunc, if_pos (by decide)]
  refine ⟨hval, ?_⟩
  rw [hval]
  simp only [exampleContext]
  norm_num

/-- C18 as amended: `initialize(target)` stores, for every reverse-graph edge from
the target to a stop `s` other than the target that is the last edge with head `s`,
the `int` that the `double` value of `(1 + walkingCosts) * travelTime(edge)` is
converted to: the sum and the product are rounded to `double` values and the fraction
of the product is dropped. The stored value is the product itself when the sum
`1 + walkingCosts` is a `double` (`m / 2 ^ k` with `|m| < 2 ^ 53`) and the product is
an integer in the range of `int`. For the target, when it is a stop, `initialize`
stores 0, also when an edge from the target to itself exists; every other entry keeps
its value. -/
theorem initialize_transferDistance {K E L : Type} [LinearOrderedField K] [FloorRing K]
    (ctx : LockstepContext K E L) (st : ComputeLockstepPATs K E L)
    (target : Nat) (hctx : ctx.wellFormed) (hst : st.wellFormed ctx) :
    (∀ before e after, ctx.reverseGraph.edgesFrom target = before ++ e :: after →
      (∀ x, x ∈ after → x.toVertex ≠ e.toVertex) → ctx.data.isStop e.toVertex = true →
      e.toVertex ≠ target →
      (( ComputeLockstepPATs.initialize ctx st target).currentPATData ctx).transferDistanceToTarget.getD e.toVertex 0
        = doubleToInt (roundToDouble (roundToDouble (1 + ctx.settings.walkingCosts)
            * (e.travelTime : K))) ∧
      ∀ (m n : Int) (k : ℕ), |m| < 2 ^ 53 → 1 + ctx.settings.walkingCosts = (m : K) / 2 ^ k →
        (1 + ctx.settings.walkingCosts) * (e.travelTime : K) = (n : K) → fitsInt n = true →
        (( ComputeLockstepPATs.initialize ctx st target).currentPATData ctx).transferDistanceToTarget.getD e.toVertex 0
          = n) ∧
    (ctx.data.isStop target = true →
      (( ComputeLockstepPATs.initialize ctx st target).currentPATData ctx).transferDistanceToTarget.getD target 0 = 0) ∧
    (∀ s, s ≠ target → (∀ x, x ∈ ctx.reverseGraph.edgesFrom target → x.toVertex ≠ s) →
      (( ComputeLockstepPATs.initialize ctx st target).currentPATData ctx).transferDistanceToTarget.getD s 0
        = (st.currentPATData ctx).transferDistanceToTarget.getD s 0) := by
  obtain ⟨hedge, htarget⟩ := initializeDistances_edge ctx target
    (st.currentPATData ctx).transferDistanceToTarget
    (fun v hv => by rw [hst.2.2.1]; exact hctx.2 v hv)
  rw [initialize_distances ctx st target hst.1]
  refine ⟨fun before e after hsplit hlast hstop hne => ?_, htarget, fun s hs hne =>
    initializeDistances_other ctx target _ s hs hne⟩
  have hval := hedge before e after hsplit hlast hstop hne
  rw [add_comm ctx.settings.walkingCosts 1] at hval
  refine ⟨hval, fun m n k hm hsum hprod hn => ?_⟩
  rw [hval]
  rw [add_comm 1 ctx.settings.walkingCosts] at hsum hprod ⊢
  exact doubleToInt_exact_product ctx.settings.walkingCosts e.travelTime n m k hm hsum hprod hn

/-- C18 as amended, with `walkingCosts = 1` and the edge 1 → 2 of travel time 7:
`initialize(1)` on fresh distances stores 14 for stop 2, where the sum 2 and the
product 14 need no rounding, stores 0 for the target 1 and leaves stop 0 at `INFTY`. -/
theorem initialize_transferDistance_witness :
    (exampleContext ℚ 1 0).wellFormed ∧
    (exampleLockstepAt ℚ 1 0).wellFormed (exampleContext ℚ 1 0) ∧
    (( ComputeLockstepPATs.initialize (exampleContext ℚ 1 0) (exampleLockstepAt ℚ 1 0) 1).currentPATData
      (exampleContext ℚ 1 0)).transferDistanceToTarget.getD 2 0 = 14 ∧
    (( ComputeLockstepPATs.initialize (exampleContext ℚ 1 0) (exampleLockstepAt ℚ 1 0) 1).currentPATData
      (exampleContext ℚ 1 0)).transferDistanceToTarget.getD 1 0 = 0 ∧
    (( ComputeLockstepPATs.initialize (exampleContext ℚ 1 0) (exampleLockstepAt ℚ 1 0) 1).currentPATData
      (exampleContext ℚ 1 0)).transferDistanceToTarget.getD 0 0 = 1000000 := by
  obtain ⟨hctx, hst⟩ := exampleLockstepAt_wellFormed ℚ 1 0 1 0 (by decide)
  have h := initialize_transferDistance (exampleContext ℚ 1 0) (exampleLockstepAt ℚ 1 0) 1 hctx hst
  refine ⟨hctx, hst, ?_, h.2.1 rfl, ?_⟩
  · refine (h.1 [] { toVertex := 2, travelTime := 7 } [] rfl
      (fun x hx => absurd hx (List.not_mem_nil x)) rfl (by decide)).2 2 14 0 (by decide) ?_ ?_
      (by decide)
    · simp only [exampleContext]
      norm_num
    · simp only [exampleContext]
      norm_num
  · rw [h.2.2 0 (by decide) (by
      intro x hx
      simp only [exampleContext, CSA.TransferGraph.edgesFrom] at hx
      simp at hx
      rw [hx]
      decide)]
    simp [ComputeLockstepPATs.currentPATData, exampleLockstepAt, exampleLockstep, PATData.fresh]

end LockstepInitializeClaims

section LockstepRunDistances

variable {K E L : Type} [LinearOrderedField K]

/-- A write to the current distances, seen from every entry of `patData`. -/
theorem setDistances_distances (ctx : LockstepContext K E L) (st : ComputeLockstepPATs K E L)
    (distances : List Int) (hidx : st.patDataIndex < st.patData.length) (j : Nat) :
    (st.setDistances ctx distances).distances ctx j
      = if j = st.patDataIndex then distances else st.distances ctx j := by
  unfold ComputeLockstepPATs.setDistances ComputeLockstepPATs.distances
  simp only
  rw [getD_set_default]
  by_cases hj : j = st.patDataIndex
  · rw [if_pos ⟨hj.symm, hidx⟩, if_pos hj]
  · rw [if_neg (fun h => hj h.1.symm), if_neg hj]

/-- A write to the current connection labels changes no distance. -/
theorem setConnectionLabel_distances (ctx : LockstepContext K E L)
    (st : ComputeLockstepPATs K E L) (i : Nat) (label : ConnectionLabel K) (j : Nat) :
    (st.setConnectionLabel ctx i label).distances ctx j = st.distances ctx j := by
  unfold ComputeLockstepPATs.setConnectionLabel ComputeLockstepPATs.distances
    ComputeLockstepPATs.currentPATData
  simp only
  rw [getD_set_default]
  split
  · rename_i h
    rw [h.1]
  · rfl

/-- The scan of a connection changes no distance, and neither `patDataIndex`, the
size of `patData` nor `targetVertex`. -/
theorem scanConnection_frame (ctx : LockstepContext K E L) (st : ComputeLockstepPATs K E L)
    (i : Nat) :
    (scanConnection ctx st i).patDataIndex = st.patDataIndex ∧
    (scanConnection ctx st i).patData.length = st.patData.length ∧
    (scanConnection ctx st i).targetVertex = st.targetVertex ∧
    ∀ j, (scanConnection ctx st i).distances ctx j = st.distances ctx j := by
  have h1 := setConnectionLabel_frame ctx st i (scannedLabel ctx st i)
  have d1 := setConnectionLabel_distances ctx st i (scannedLabel ctx st i)
  have h2 := setConnectionLabel_frame ctx
    { st.setConnectionLabel ctx i (scannedLabel ctx st i) with
      tripPAT := st.tripPAT.set (connectionAt ctx i).tripId
        (if boardingPAT ctx st i ≥ ctx.unreachable then ctx.unreachable
         else boardingPAT ctx st i - hopOnLoadCost ctx i) }
    i { scannedLabel ctx st i with hopOnPAT := expectedPAT ctx st i }
  have d2 := setConnectionLabel_distances ctx
    { st.setConnectionLabel ctx i (scannedLabel ctx st i) with
      tripPAT := st.tripPAT.set (connectionAt ctx i).tripId
        (if boardingPAT ctx st i ≥ ctx.unreachable then ctx.unreachable
         else boardingPAT ctx st i - hopOnLoadCost ctx i) }
    i { scannedLabel ctx st i with hopOnPAT := expectedPAT ctx st i }
  unfold scanConnection
  simp only
  split
  · exact ⟨h1.1, h1.2.1, h1.2.2.2.2.1, d1⟩
  · split
    · exact ⟨h2.1.trans h1.1, h2.2.1.trans h1.2.1, h2.2.2.2.2.1.trans h1.2.2.2.2.1,
        fun j => (d2 j).trans (d1 j)⟩
    · exact ⟨h2.1.trans h1.1, h2.2.1.trans h1.2.1, h2.2.2.2.2.1.trans h1.2.2.2.2.1,
        fun j => (d2 j).trans (d1 j)⟩

/-- The loop of `run` changes no distance. -/
theorem scanConnections_frame (ctx : LockstepContext K E L) (indices : List Nat)
    (st : ComputeLockstepPATs K E L) :
    (indices.foldl (scanConnection ctx) st).patDataIndex = st.patDataIndex ∧
    (indices.foldl (scanConnection ctx) st).patData.length = st.patData.length ∧
    (indices.foldl (scanConnection ctx) st).targetVertex = st.targetVertex ∧
    ∀ j, (indices.foldl (scanConnection ctx) st).distances ctx j = st.distances ctx j := by
  induction indices generalizing st with
  | nil => exact ⟨rfl, rfl, rfl, fun _ => rfl⟩
  | cons i indices ih =>
    obtain ⟨a1, a2, a3, a4⟩ := ih (scanConnection ctx st i)
    obtain ⟨b1, b2, b3, b4⟩ := scanConnection_frame ctx st i
    rw [List.foldl_cons]
    exact ⟨a1.trans b1, a2.trans b2, a3.trans b3, fun j => (a4 j).trans (b4 j)⟩

/-- Collecting the waiting profiles changes no distance. -/
theorem collectProfiles_frame (ctx : LockstepContext K E L) (st : ComputeLockstepPATs K E L) :
    (collectProfiles ctx st).patDataIndex = st.patDataIndex ∧
    (collectProfiles ctx st).patData.length = st.patData.length ∧
    (collectProfiles ctx st).targetVertex = st.targetVertex ∧
    ∀ j, (collectProfiles ctx st).distances ctx j = st.distances ctx j := by
  refine ⟨rfl, by simp [collectProfiles], rfl, fun j => ?_⟩
  unfold collectProfiles ComputeLockstepPATs.distances ComputeLockstepPATs.currentPATData
  simp only
  rw [getD_set_default]
  split
  · rename_i h
    rw [h.1]
  · rfl

/-- `clear()` seen from every entry of `patData`: only the current entry is cleaned,
for the target vertex of the previous call. -/
theorem clear_distances (ctx : LockstepContext K E L) (st : ComputeLockstepPATs K E L)
    (hidx : st.patDataIndex < st.patData.length) :
    (st.clear ctx).patDataIndex = st.patDataIndex ∧
    (st.clear ctx).patData.length = st.patData.length ∧
    ∀ j, (st.clear ctx).distances ctx j
      = if j = st.patDataIndex
        then clearedDistances ctx st.targetVertex (st.distances ctx st.patDataIndex)
        else st.distances ctx j := by
  have hdist : ∀ j, ComputeLockstepPATs.distances ctx
      { st with
        tripPAT := List.replicate st.tripPAT.length ctx.unreachable
        stopLabels := List.replicate st.stopLabels.length ctx.ops.emptyLabel } j
      = st.distances ctx j := fun _ => rfl
  cases htv : st.targetVertex with
  | none =>
    have hclear : st.clear ctx
        = { st with
            tripPAT := List.replicate st.tripPAT.length ctx.unreachable
            stopLabels := List.replicate st.stopLabels.length ctx.ops.emptyLabel } := by
      unfold ComputeLockstepPATs.clear
      simp only [htv]
    rw [hclear]
    refine ⟨rfl, rfl, fun j => ?_⟩
    rw [hdist j]
    unfold clearedDistances
    by_cases hj : j = st.patDataIndex
    · rw [if_pos hj, hj]
    · rw [if_neg hj]
  | some target =>
    by_cases hv : ctx.reverseGraph.isVertex target = true
    · have hclear : st.clear ctx
          = ComputeLockstepPATs.cleanUp ctx
              { st with
                tripPAT := List.replicate st.tripPAT.length ctx.unreachable
                stopLabels := List.replicate st.stopLabels.length ctx.ops.emptyLabel } target := by
        unfold ComputeLockstepPATs.clear
        simp only [htv, hv, if_true]
      rw [hclear]
      refine ⟨rfl, by simp [ComputeLockstepPATs.cleanUp, ComputeLockstepPATs.setDistances],
        fun j => ?_⟩
      unfold ComputeLockstepPATs.cleanUp
      have hset := setDistances_distances ctx
        { st with
          tripPAT := List.replicate st.tripPAT.length ctx.unreachable
          stopLabels := List.replicate st.stopLabels.length ctx.ops.emptyLabel }
        (cleanUpDistances ctx target (st.currentPATData ctx).transferDistanceToTarget) hidx j
      refine hset.trans ?_
      rw [hdist j]
      unfold clearedDistances
      simp only [hv, if_true]
      rfl
    · have hclear : st.clear ctx
          = { st with
              tripPAT := List.replicate st.tripPAT.length ctx.unreachable
              stopLabels := List.replicate st.stopLabels.length ctx.ops.emptyLabel } := by
        unfold ComputeLockstepPATs.clear
        simp only [htv, hv]
        rfl
      rw [hclear]
      refine ⟨rfl, rfl, fun j => ?_⟩
      rw [hdist j]
      unfold clearedDistances
      simp only [hv]
      by_cases hj : j = st.patDataIndex
      · rw [if_pos hj, hj]
        rfl
      · rw [if_neg hj]

end LockstepRunDistances

section LockstepRunClaims

variable {K E L : Type} [LinearOrderedField K] [FloorRing K]

/-- The distances after `run(target, index)`, seen from every entry of `patData`:
entry `index` is cleaned for the target vertex of the previous call and initialised
for the new target, every other entry keeps its distances. -/
theorem run_distances (ctx : LockstepContext K E L) (st : ComputeLockstepPATs K E L)
    (target index : Nat) (hidx : index < st.patData.length) :
    (st.run ctx target index).patDataIndex = index ∧
    (st.run ctx target index).patData.length = st.patData.length ∧
    (st.run ctx target index).targetVertex = some target ∧
    ∀ j, (st.run ctx target index).distances ctx j
      = if j = index then
          initializeDistances ctx target
            (clearedDistances ctx st.targetVertex (st.distances ctx index))
        else st.distances ctx j := by
  obtain ⟨c1, c2, c3⟩ := clear_distances ctx { st with patDataIndex := index } hidx
  have hidx2 : (ComputeLockstepPATs.clear ctx { st with patDataIndex := index }).patDataIndex
      < (ComputeLockstepPATs.clear ctx { st with patDataIndex := index }).patData.length := by
    rw [c1, c2]
    exact hidx
  have hinit : ∀ j, ( ComputeLockstepPATs.initialize
      ctx (ComputeLockstepPATs.clear ctx { st with patDataIndex := index }) target).distances ctx j
      = if j = index then
          initializeDistances ctx target
            (clearedDistances ctx st.targetVertex (st.distances ctx index))
        else st.distances ctx j := by
    intro j
    have hset := setDistances_distances ctx
      { ComputeLockstepPATs.clear ctx { st with patDataIndex := index } with
        targetVertex := some target }
      (initializeDistances ctx target
        ((ComputeLockstepPATs.clear ctx { st with patDataIndex := index }).currentPATData
          ctx).transferDistanceToTarget) hidx2 j
    refine hset.trans ?_
    have hcur : ((ComputeLockstepPATs.clear ctx { st with patDataIndex := index }).currentPATData
        ctx).transferDistanceToTarget
        = clearedDistances ctx st.targetVertex (st.distances ctx index) := by
      have := c3 index
      rw [if_pos rfl] at this
      have hc : ((ComputeLockstepPATs.clear ctx { st with patDataIndex := index }).currentPATData
          ctx).transferDistanceToTarget
          = (ComputeLockstepPATs.clear ctx { st with patDataIndex := index }).distances ctx index := by
        unfold ComputeLockstepPATs.currentPATData ComputeLockstepPATs.distances
        rw [c1]
      rw [hc]
      exact this
    show (if j = (ComputeLockstepPATs.clear ctx { st with patDataIndex := index }).patDataIndex
      then _ else _) = _
    rw [c1, hcur]
    by_cases hj : j = index
    · rw [if_pos hj, if_pos hj]
    · rw [if_neg hj, if_neg hj]
      have := c3 j
      rw [if_neg hj] at this
      exact this
  have hlenInit : ( ComputeLockstepPATs.initialize
      ctx (ComputeLockstepPATs.clear ctx { st with patDataIndex := index }) target).patData.length = st.patData.length := by
    simp only [ComputeLockstepPATs.setDistances, ComputeLockstepPATs.initialize, List.length_set]
    exact c2
  have hidxInit : ( ComputeLockstepPATs.initialize
      ctx (ComputeLockstepPATs.clear ctx { st with patDataIndex := index }) target).patDataIndex = index := c1
  obtain ⟨s1, s2, s3, s4⟩ := scanConnections_frame ctx (descendingIndices ctx.data.numberOfConnections)
    ( ComputeLockstepPATs.initialize ctx (ComputeLockstepPATs.clear ctx { st with patDataIndex := index }) target)
  obtain ⟨p1, p2, p3, p4⟩ := collectProfiles_frame ctx
    ((descendingIndices ctx.data.numberOfConnections).foldl (scanConnection ctx)
      ( ComputeLockstepPATs.initialize ctx (ComputeLockstepPATs.clear ctx { st with patDataIndex := index }) target))
  unfold ComputeLockstepPATs.run
  simp only
  exact ⟨p1.trans (s1.trans hidxInit), p2.trans (s2.trans hlenInit), p3.trans s3,
    fun j => (p4 j).trans ((s4 j).trans (hinit j))⟩

end LockstepRunClaims

section LockstepRunExample

/-- The travel times of the example network lie in the range of `int`. -/
theorem exampleContext_travelTimes (target : Nat) :
    ∀ e, e ∈ (exampleContext ℚ 0 0).reverseGraph.edgesFrom target → fitsInt e.travelTime = true := by
  intro e he
  have hall : ∀ l, l ∈ (exampleContext ℚ 0 0).reverseGraph.outEdges →
      ∀ x, x ∈ l → fitsInt x.travelTime = true := by decide
  unfold CSA.TransferGraph.edgesFrom at he
  rw [List.getD_eq_getElem?_getD] at he
  cases hget : (exampleContext ℚ 0 0).reverseGraph.outEdges[target]? with
  | none =>
    rw [hget] at he
    exact absurd he (List.not_mem_nil e)
  | some l =>
    rw [hget] at he
    exact hall l (List.getElem?_mem hget) e he

/-- C19, evaluated on the example network with two `PATData` objects: after
`run(0, 0)`, `run(1, 1)`, `run(1, 0)` the vector `patData[0].transferDistanceToTarget`
is `[0, 0, 7]`. Stop 0 keeps the distance 0 of the first target although it is neither
the last target 1 nor the head of an edge from 1: the second call has replaced the
target vertex, so the third call cleans `patData[0]` for target 1 only. -/
theorem run_keeps_distance_of_earlier_target :
    ((((exampleLockstep ℚ 2).run (exampleContext ℚ 0 0) 0 0).run (exampleContext ℚ 0 0) 1 1).run
      (exampleContext ℚ 0 0) 1 0).distances (exampleContext ℚ 0 0) 0 = [0, 0, 7] ∧
    (0 : Int) < (exampleContext ℚ 0 0).infty ∧
    (∀ e, e ∈ (exampleContext ℚ 0 0).reverseGraph.edgesFrom 1 → e.toVertex ≠ 0) := by
  have h0 : (exampleLockstep ℚ 2).patData.length = 2 := by simp [exampleLockstep]
  obtain ⟨_, l1, t1, d1⟩ := run_distances (exampleContext ℚ 0 0) (exampleLockstep ℚ 2) 0 0
    (by rw [h0]; decide)
  obtain ⟨_, l2, t2, d2⟩ := run_distances (exampleContext ℚ 0 0)
    ((exampleLockstep ℚ 2).run (exampleContext ℚ 0 0) 0 0) 1 1 (by rw [l1, h0]; decide)
  obtain ⟨_, _, _, d3⟩ := run_distances (exampleContext ℚ 0 0)
    (((exampleLockstep ℚ 2).run (exampleContext ℚ 0 0) 0 0).run (exampleContext ℚ 0 0) 1 1) 1 0
    (by rw [l2, l1, h0]; decide)
  have e0 : (exampleLockstep ℚ 2).distances (exampleContext ℚ 0 0) 0 = [1000000, 1000000, 1000000] := by
    simp [ComputeLockstepPATs.distances, exampleLockstep, PATData.fresh, List.replicate]
  have e1 : ((exampleLockstep ℚ 2).run (exampleContext ℚ 0 0) 0 0).distances (exampleContext ℚ 0 0) 0
      = [0, 1000000, 3] := by
    rw [d1 0, if_pos rfl, e0]
    have htv : (exampleLockstep ℚ 2).targetVertex = none := rfl
    rw [htv, initializeDistances_of_zero_costs _ _ _ rfl (exampleContext_travelTimes 0)]
    simp only [clearedDistances, relaxTargetEdges]
    simp [exampleContext, CSA.TransferGraph.edgesFrom]
  refine ⟨?_, by simp [exampleContext], ?_⟩
  · rw [d3 0, if_pos rfl, t2, d2 0, if_neg (by decide), e1,
      initializeDistances_of_zero_costs _ _ _ rfl (exampleContext_travelTimes 1)]
    simp only [clearedDistances, cleanUpDistances, relaxTargetEdges]
    simp [exampleContext, CSA.TransferGraph.edgesFrom, CSA.TransferGraph.isVertex]
  · intro e he
    simp [exampleContext, CSA.TransferGraph.edgesFrom] at he
    rw [he]
    decide

end LockstepRunExample

section LockstepSentinel

variable {K E L : Type} [LinearOrderedField K]

/-- The members `transferPAT` and `failureTransferPAT` that the scan of connection `i`
stores are those of `scannedLabel`. -/
theorem scanConnection_label_transfer (ctx : LockstepContext K E L)
    (st : ComputeLockstepPATs K E L) (i : Nat) (hidx : st.patDataIndex < st.patData.length)
    (hi : i < (st.currentPATData ctx).connectionLabels.length) :
    ((scanConnection ctx st i).connectionLabel ctx i).transferPAT
      = (scannedLabel ctx st i).transferPAT ∧
    ((scanConnection ctx st i).connectionLabel ctx i).failureTransferPAT
      = (scannedLabel ctx st i).failureTransferPAT := by
  rw [scanConnection_label ctx st i hidx hi]
  constructor
  · split <;> rfl
  · split <;> rfl

/-- C20, counterexample: on the example network with transfer costs 5 the transfer
profile of the arrival stop evaluates to `Unreachable` (1000000), and the scan stores
`label.transferPAT = 1000005`, which is `Unreachable` plus the transfer costs and not
`Unreachable`. -/
theorem scanConnection_adds_cost_to_unreachable :
    (exampleContext ℚ 0 5).ops.evaluateWithDelay
        ((exampleScanState ℚ).stopLabel (exampleContext ℚ 0 5)
          (connectionAt (exampleContext ℚ 0 5) 0).arrivalStopId)
        (connectionAt (exampleContext ℚ 0 5) 0).arrivalTime
        (exampleContext ℚ 0 5).settings.maxDelay (exampleContext ℚ 0 5).settings.waitingCosts
      = (exampleContext ℚ 0 5).unreachable ∧
    ((scanConnection (exampleContext ℚ 0 5) (exampleScanState ℚ) 0).connectionLabel
      (exampleContext ℚ 0 5) 0).transferPAT = 1000005 ∧
    ((scanConnection (exampleContext ℚ 0 5) (exampleScanState ℚ) 0).connectionLabel
      (exampleContext ℚ 0 5) 0).transferPAT ≠ (exampleContext ℚ 0 5).unreachable := by
  obtain ⟨_, hst⟩ := exampleScanState_wellFormed ℚ 0 5
  obtain ⟨hidx, hlabels, _, _, _⟩ := hst
  have h := (scanConnection_label_transfer (exampleContext ℚ 0 5) (exampleScanState ℚ) 0 hidx
    (by rw [hlabels]; decide)).1
  have hval : (scannedLabel (exampleContext ℚ 0 5) (exampleScanState ℚ) 0).transferPAT
      = 1000005 := by
    simp [scannedLabel, ComputeLockstepPATs.stopLabel, connectionAt, exampleContext,
      exampleSettings, exampleScanState, exampleOps]
    norm_num
  refine ⟨?_, h.trans hval, ?_⟩
  · simp [ComputeLockstepPATs.stopLabel, connectionAt, exampleContext, exampleScanState,
      exampleOps]
  · rw [h, hval]
    norm_num [exampleContext]

/-- C20, amended: in the scan of connection `i` only `walkingPAT` (through `targetPAT`)
and the stored `tripPAT[trip]` carry the sentinel exactly: `walkingPAT` is `Unreachable`
when the target distance is not below `INFTY`, and `tripPAT[trip]` is set to
`Unreachable` when `pat` is not below `Unreachable`. The other values are computed by
arithmetic on the sentinel: when `tripPAT[trip]` is `Unreachable`, `travelPAT` is
`Unreachable + hopOnLoadCost + travelLoadCost`; when the evaluation at the arrival stop
is `Unreachable`, `label.transferPAT` is `Unreachable + transferCosts` and the local
`transferPAT` is `Unreachable + transferCosts + fullLoadCost`; when the evaluation at
the departure stop is `Unreachable`, `label.failureTransferPAT` is
`Unreachable + transferCosts`. With cost terms that are not negative these sums are
not below `Unreachable`, so when all three inputs are unreachable `pat` is not below
`Unreachable` either and the connection is skipped. -/
theorem scanConnection_unreachable (ctx : LockstepContext K E L)
    (st : ComputeLockstepPATs K E L) (i : Nat) (hctx : ctx.wellFormed) (hst : st.wellFormed ctx)
    (hi : i < ctx.data.numberOfConnections) :
    (¬ (st.currentPATData ctx).transferDistanceToTarget.getD (connectionAt ctx i).arrivalStopId 0
        < ctx.infty →
      walkingPAT ctx st i = ctx.unreachable) ∧
    (boardingPAT ctx st i ≥ ctx.unreachable →
      (scanConnection ctx st i).tripPAT.getD (connectionAt ctx i).tripId 0 = ctx.unreachable) ∧
    (st.tripPAT.getD (connectionAt ctx i).tripId 0 = ctx.unreachable →
      travelPAT ctx st i = ctx.unreachable + hopOnLoadCost ctx i + travelLoadCost ctx i) ∧
    (ctx.ops.evaluateWithDelay (st.stopLabel ctx (connectionAt ctx i).arrivalStopId)
        (connectionAt ctx i).arrivalTime ctx.settings.maxDelay ctx.settings.waitingCosts
        = ctx.unreachable →
      ((scanConnection ctx st i).connectionLabel ctx i).transferPAT
        = ctx.unreachable + ctx.settings.transferCosts ∧
      transferPAT ctx st i
        = ctx.unreachable + ctx.settings.transferCosts + fullLoadCost ctx i) ∧
    (ctx.ops.evaluateWithDelay (st.stopLabel ctx (connectionAt ctx i).departureStopId)
        (connectionAt ctx i).departureTime ctx.settings.maxDelay ctx.settings.waitingCosts
        = ctx.unreachable →
      ((scanConnection ctx st i).connectionLabel ctx i).failureTransferPAT
        = ctx.unreachable + ctx.settings.transferCosts) ∧
    (0 ≤ hopOnLoadCost ctx i → 0 ≤ travelLoadCost ctx i → 0 ≤ hopOffLoadCost ctx i →
      0 ≤ ctx.settings.transferCosts →
      st.tripPAT.getD (connectionAt ctx i).tripId 0 = ctx.unreachable →
      ctx.ops.evaluateWithDelay (st.stopLabel ctx (connectionAt ctx i).arrivalStopId)
        (connectionAt ctx i).arrivalTime ctx.settings.maxDelay ctx.settings.waitingCosts
        = ctx.unreachable →
      ¬ (st.currentPATData ctx).transferDistanceToTarget.getD (connectionAt ctx i).arrivalStopId 0
        < ctx.infty →
      boardingPAT ctx st i ≥ ctx.unreachable ∧
      (scanConnection ctx st i).stopLabels = st.stopLabels) := by
  obtain ⟨hidx, hlabels, _, htrips, _⟩ := hst
  obtain ⟨hl1, hl2⟩ := scanConnection_label_transfer ctx st i hidx (by rw [hlabels]; exact hi)
  have htrip : (connectionAt ctx i).tripId < st.tripPAT.length := by
    rw [htrips]
    exact (connectionAt_valid ctx hctx i hi).2.2
  have hwalk : ¬ (st.currentPATData ctx).transferDistanceToTarget.getD
      (connectionAt ctx i).arrivalStopId 0 < ctx.infty → walkingPAT ctx st i = ctx.unreachable := by
    intro hd
    unfold walkingPAT ComputeLockstepPATs.targetPAT
    simp only
    rw [if_neg hd]
  have htravel : st.tripPAT.getD (connectionAt ctx i).tripId 0 = ctx.unreachable →
      travelPAT ctx st i = ctx.unreachable + hopOnLoadCost ctx i + travelLoadCost ctx i := by
    intro ht
    unfold travelPAT scannedLabel
    simp only
    rw [ht]
  have htransfer : ctx.ops.evaluateWithDelay (st.stopLabel ctx (connectionAt ctx i).arrivalStopId)
      (connectionAt ctx i).arrivalTime ctx.settings.maxDelay ctx.settings.waitingCosts
      = ctx.unreachable →
      (scannedLabel ctx st i).transferPAT = ctx.unreachable + ctx.settings.transferCosts := by
    intro he
    unfold scannedLabel
    simp only
    rw [he]
  refine ⟨hwalk, fun hge => ?_, htravel, fun he => ⟨?_, ?_⟩, fun he => ?_, ?_⟩
  · rw [scanConnection_tripPAT, getD_set_zero, if_pos ⟨rfl, htrip⟩, if_pos hge]
  · rw [hl1]
    exact htransfer he
  · unfold transferPAT
    rw [htransfer he]
  · rw [hl2]
    unfold scannedLabel
    simp only
    rw [he]
  · intro h1 h2 h3 h4 ht he hd
    have hge : boardingPAT ctx st i ≥ ctx.unreachable := by
      unfold boardingPAT
      rw [stdMin_eq_min, stdMin_eq_min, htravel ht, hwalk hd]
      unfold transferPAT fullLoadCost
      rw [htransfer he]
      refine le_min (le_min ?_ (le_refl _)) ?_
      · linarith
      · linarith
    refine ⟨hge, ?_⟩
    rw [scanConnection_stopLabels]
    rw [if_neg (fun h => absurd h.1 (not_lt.mpr hge))]

end LockstepSentinel

section LockstepSentinelExample

/-- C20 on the example network with transfer costs 5: the trip label and the
evaluation at the arrival stop are `Unreachable` (1000000); the scan computes
`travelPAT = 1000000 + 3/4 + 15/2` and stores `label.transferPAT = 1000000 + 5`. -/
theorem scanConnection_unreachable_witness :
    (exampleContext ℚ 0 5).wellFormed ∧
    (exampleScanState ℚ).wellFormed (exampleContext ℚ 0 5) ∧
    travelPAT (exampleContext ℚ 0 5) (exampleScanState ℚ) 0 = 1000000 + 3 / 4 + 15 / 2 ∧
    ((scanConnection (exampleContext ℚ 0 5) (exampleScanState ℚ) 0).connectionLabel
      (exampleContext ℚ 0 5) 0).transferPAT = 1000000 + 5 := by
  obtain ⟨hctx, hst⟩ := exampleScanState_wellFormed ℚ 0 5
  have h := scanConnection_unreachable (exampleContext ℚ 0 5) (exampleScanState ℚ) 0 hctx hst
    (by decide)
  have htravel := h.2.2.1 rfl
  have htransfer := (h.2.2.2.1 (by
    simp [ComputeLockstepPATs.stopLabel, connectionAt, exampleContext, exampleScanState,
      exampleOps])).1
  refine ⟨hctx, hst, ?_, ?_⟩
  · rw [htravel]
    simp [hopOnLoadCost, travelLoadCost, connectionAt, computeLoadFactor, exampleContext,
      exampleSettings, quadraticLoadFactor]
    norm_num
  · rw [htransfer]
    simp [exampleContext, exampleSettings]

end LockstepSentinelExample

section DemandOrderProofs

/-- A pass with a counter other than 1 leaves the demand lists as they are. -/
theorem demandOfPass_later
    (sort : (DemandEntry → DemandEntry → Bool) → List DemandEntry → List DemandEntry)
    (iteration : Nat) (h : iteration ≠ 1) (demand : List (List DemandEntry)) :
    demandOfPass sort iteration demand = demand := by
  unfold demandOfPass
  simp [h]

/-- From the first pass on the demand lists do not change while the counter has not
wrapped. -/
theorem demandInPass_later
    (sort : (DemandEntry → DemandEntry → Bool) → List DemandEntry → List DemandEntry)
    (demand : List (List DemandEntry)) (k : Nat) (h1 : 1 ≤ k) (hk : k < sizeLimit) :
    demandInPass sort demand k = demandInPass sort demand 1 := by
  induction k with
  | zero => omega
  | succ n ih =>
    by_cases hn : n = 0
    · subst hn
      rfl
    · have hmod : (n + 1) % sizeLimit = n + 1 := Nat.mod_eq_of_lt hk
      show demandOfPass sort ((n + 1) % sizeLimit) (demandInPass sort demand n) = _
      rw [hmod, demandOfPass_later sort (n + 1) (by omega)]
      exact ih (by omega) (by omega)

/-- The list of destination `d` in the first pass is the sorted input list. -/
theorem demandInPass_one
    (sort : (DemandEntry → DemandEntry → Bool) → List DemandEntry → List DemandEntry)
    (demand : List (List DemandEntry)) (d : Nat) (hd : d < demand.length) :
    (demandInPass sort demand 1).getD d [] = sort departsEarlier (demand.getD d []) := by
  show (demandOfPass sort (1 % sizeLimit) demand).getD d [] = _
  have h1 : 1 % sizeLimit = 1 := by decide
  rw [h1]
  unfold demandOfPass
  simp [List.getD_eq_getElem?_getD, List.getElem?_map, List.getElem?_eq_getElem hd]

/-- C11: in the first pass of `Assignment::run` the demand list that `worker.run`
receives for destination `d` is a permutation of the input entries of `d` in ascending
order of `earliestDepartureTime`, for every `sort` that returns a permutation of its
input in which no later element compares less than an earlier one; in every later
pass (while the counter has not wrapped) the worker receives the same list. -/
theorem run_sorts_demand_once
    (sort : (DemandEntry → DemandEntry → Bool) → List DemandEntry → List DemandEntry)
    (hperm : ∀ l, (sort departsEarlier l).Perm l)
    (hsorted : ∀ l, (sort departsEarlier l).Pairwise (fun a b => departsEarlier b a = false))
    (demand : List (List DemandEntry)) (d : Nat) (hd : d < demand.length) :
    ((demandInPass sort demand 1).getD d []).Perm (demand.getD d []) ∧
    ((demandInPass sort demand 1).getD d []).Pairwise
      (fun a b => a.earliestDepartureTime ≤ b.earliestDepartureTime) ∧
    ∀ k, 1 ≤ k → k < sizeLimit →
      (demandInPass sort demand k).getD d [] = (demandInPass sort demand 1).getD d [] := by
  refine ⟨?_, ?_, fun k h1 hk => ?_⟩
  · rw [demandInPass_one sort demand d hd]
    exact hperm _
  · rw [demandInPass_one sort demand d hd]
    refine (hsorted (demand.getD d [])).imp ?_
    intro a b hab
    unfold departsEarlier at hab
    exact not_lt.mp (of_decide_eq_false hab)
  · rw [demandInPass_later sort demand k h1 hk]

/-- The sort of the examples returns a permutation in which no later element compares
less than an earlier one. -/
theorem exampleSort_sorts (l : List DemandEntry) :
    (exampleSort departsEarlier l).Perm l ∧
    (exampleSort departsEarlier l).Pairwise (fun a b => departsEarlier b a = false) := by
  haveI : IsTotal DemandEntry (fun a b => departsEarlier b a = false) :=
    ⟨fun a b => by
      unfold departsEarlier
      by_cases h : b.earliestDepartureTime < a.earliestDepartureTime
      · right
        exact decide_eq_false (not_lt.mpr (le_of_lt h))
      · left
        exact decide_eq_false h⟩
  haveI : IsTrans DemandEntry (fun a b => departsEarlier b a = false) :=
    ⟨fun a b c hab hbc => by
      unfold departsEarlier at *
      have h1 := not_lt.mp (of_decide_eq_false hab)
      have h2 := not_lt.mp (of_decide_eq_false hbc)
      exact decide_eq_false (not_lt.mpr (le_trans h1 h2))⟩
  exact ⟨List.perm_insertionSort _ l, List.sorted_insertionSort _ l⟩

/-- C11 on the example demand: the first destination has the departure times 300,
100, 200; the worker receives them as 100, 200, 300 in pass 1 and again in pass 3. -/
theorem run_sorts_demand_once_witness :
    ((demandInPass exampleSort exampleDemandByDestination 1).getD 0 []).map
        (fun e => e.earliestDepartureTime) = [100, 200, 300] ∧
    (demandInPass exampleSort exampleDemandByDestination 3).getD 0 []
      = (demandInPass exampleSort exampleDemandByDestination 1).getD 0 [] ∧
    ((demandInPass exampleSort exampleDemandByDestination 1).getD 0 []).Pairwise
      (fun a b => a.earliestDepartureTime ≤ b.earliestDepartureTime) := by
  have h := run_sorts_demand_once exampleSort (fun l => (exampleSort_sorts l).1)
    (fun l => (exampleSort_sorts l).2) exampleDemandByDestination 0 (by decide)
  refine ⟨by decide, h.2.2 3 (by decide) (by decide), h.2.1⟩

end DemandOrderProofs

section LoadFactorMonotone

variable {K : Type} [LinearOrderedField K]

end LoadFactorMonotone

section LoadFactorMonotoneClaim

end LoadFactorMonotoneClaim

section ProfileScanProofs

variable {E : Type}

/-- The first loop of `findEntry` with enough fuel: it stops at an index from which
the next entry of the stop, if there is one, departs before `time`; the entries it
has passed depart at `time` or later; and it reads entries of the stop only. -/
theorem scanForward_spec (departureTime : E → Int) (entries : List E) (stopEnd : Nat) (time : Int)
    (hend : stopEnd < sizeLimit) (fuel index : Nat) (reads : List Nat)
    (hindex : index + 1 < sizeLimit)
    (hrange : ∀ i, index < i → i < stopEnd → ∃ e, entries[i]? = some e)
    (hfuel : stopEnd ≤ index + fuel) :
    (scanForward departureTime entries stopEnd time fuel index reads).stopped = none ∧
    index ≤ (scanForward departureTime entries stopEnd time fuel index reads).index ∧
    ((scanForward departureTime entries stopEnd time fuel index reads).index = index ∨
      (scanForward departureTime entries stopEnd time fuel index reads).index < stopEnd) ∧
    (∀ i, index < i → i ≤ (scanForward departureTime entries stopEnd time fuel index reads).index →
      ∃ e, entries[i]? = some e ∧ time ≤ departureTime e) ∧
    ((scanForward departureTime entries stopEnd time fuel index reads).index + 1 < stopEnd →
      ∃ e, entries[(scanForward departureTime entries stopEnd time fuel index reads).index + 1]?
        = some e ∧ departureTime e < time) ∧
    (∀ x, x ∈ (scanForward departureTime entries stopEnd time fuel index reads).reads →
      x ∈ reads ∨ (index < x ∧ x < stopEnd)) := by
  induction fuel generalizing index reads with
  | zero =>
    have hle : stopEnd ≤ index := by omega
    refine ⟨rfl, le_refl _, Or.inl rfl, fun i h1 h2 => ?_, fun h => ?_, fun x hx => Or.inl hx⟩
    · exact absurd h2 (by show ¬ i ≤ index; omega)
    · exact absurd h (by show ¬ index + 1 < stopEnd; omega)
  | succ fuel ih =>
    have hmod : (index + 1) % sizeLimit = index + 1 := Nat.mod_eq_of_lt hindex
    unfold scanForward
    rw [hmod]
    by_cases hlt : index + 1 < stopEnd
    · rw [if_pos hlt]
      obtain ⟨e, he⟩ := hrange (index + 1) (by omega) hlt
      rw [he]
      simp only
      by_cases hdep : departureTime e ≥ time
      · rw [if_pos hdep]
        obtain ⟨r1, r2, r3, r4, r5, r6⟩ := ih (index + 1) (reads ++ [index + 1]) (by omega)
          (fun i h1 h2 => hrange i (by omega) h2) (by omega)
        refine ⟨r1, by omega, Or.inr ?_, fun i h1 h2 => ?_, r5, fun x hx => ?_⟩
        · rcases r3 with h | h
          · rw [h]
            exact hlt
          · exact h
        · by_cases hi : i = index + 1
          · subst hi
            exact ⟨e, he, hdep⟩
          · exact r4 i (by omega) h2
        · rcases r6 x hx with h | h
          · rcases List.mem_append.mp h with h' | h'
            · exact Or.inl h'
            · rw [List.mem_singleton] at h'
              subst h'
              exact Or.inr ⟨by omega, hlt⟩
          · exact Or.inr ⟨by omega, h.2⟩
      · rw [if_neg hdep]
        refine ⟨rfl, le_refl _, Or.inl rfl, fun i h1 h2 => ?_, fun _ => ⟨e, he, not_le.mp hdep⟩,
          fun x hx => ?_⟩
        · exact absurd h2 (by show ¬ i ≤ index; omega)
        · rcases List.mem_append.mp hx with h' | h'
          · exact Or.inl h'
          · rw [List.mem_singleton] at h'
            subst h'
            exact Or.inr ⟨by omega, hlt⟩
    · rw [if_neg hlt]
      refine ⟨rfl, le_refl _, Or.inl rfl, fun i h1 h2 => ?_, fun h => absurd h hlt,
        fun x hx => Or.inl hx⟩
      exact absurd h2 (by show ¬ i ≤ index; omega)

end ProfileScanProofs

section ProfileScanBackward

variable {E : Type}

/-- The assertion between the loops holds when the next entry of the stop, if there is
one, departs before `time`. -/
theorem checkMonotonous_spec (departureTime : E → Int) (entries : List E) (stopEnd : Nat)
    (time : Int) (index : Nat) (reads : List Nat) (hindex : index + 1 < sizeLimit)
    (hnext : index + 1 < stopEnd → ∃ e, entries[index + 1]? = some e ∧ departureTime e < time) :
    (checkMonotonous departureTime entries stopEnd time index reads).stopped = none ∧
    (checkMonotonous departureTime entries stopEnd time index reads).index = index ∧
    (∀ x, x ∈ (checkMonotonous departureTime entries stopEnd time index reads).reads →
      x ∈ reads ∨ (x = index + 1 ∧ x < stopEnd)) := by
  have hmod : (index + 1) % sizeLimit = index + 1 := Nat.mod_eq_of_lt hindex
  unfold checkMonotonous
  rw [hmod]
  by_cases hlt : index + 1 < stopEnd
  · obtain ⟨e, he, hdep⟩ := hnext hlt
    rw [if_pos hlt, he]
    simp only
    rw [if_pos hdep]
    refine ⟨rfl, rfl, fun x hx => ?_⟩
    rcases List.mem_append.mp hx with h | h
    · exact Or.inl h
    · rw [List.mem_singleton] at h
      exact Or.inr ⟨h, h ▸ hlt⟩
  · rw [if_neg hlt]
    exact ⟨rfl, rfl, fun x hx => Or.inl hx⟩

/-- The second loop of `findEntry`, when it returns an entry: the index has not grown,
the entry is the one at the index and departs at `time` or later, the entries that
the loop has passed depart before `time`, and the loop has read the entries between
the two positions only. -/
theorem scanBackward_returned (departureTime : E → Int) (entries : List E) (begin : Nat)
    (time : Int) (index : Nat) (reads : List Nat) (e : E)
    (h : (scanBackward departureTime entries begin time index reads).stopped
      = some (FindEntryOutcome.returned e)) :
    (scanBackward departureTime entries begin time index reads).index ≤ index ∧
    entries[(scanBackward departureTime entries begin time index reads).index]? = some e ∧
    time ≤ departureTime e ∧
    (∀ i, (scanBackward departureTime entries begin time index reads).index < i → i ≤ index →
      ∃ e', entries[i]? = some e' ∧ departureTime e' < time) ∧
    (∀ x, x ∈ (scanBackward departureTime entries begin time index reads).reads →
      x ∈ reads ∨ ((scanBackward departureTime entries begin time index reads).index ≤ x ∧
        x ≤ index)) := by
  induction index generalizing reads with
  | zero =>
    unfold scanBackward at h ⊢
    cases hget : entries[0]? with
    | none =>
      rw [hget] at h
      simp at h
    | some entry =>
      rw [hget] at h
      simp only at h ⊢
      by_cases hdep : departureTime entry < time
      · rw [if_pos hdep] at h
        split at h <;> simp at h
      · rw [if_neg hdep] at h ⊢
        simp only [Option.some.injEq, FindEntryOutcome.returned.injEq] at h
        subst h
        refine ⟨le_refl _, hget, not_lt.mp hdep, fun i h1 h2 => ?_, fun x hx => ?_⟩
        · exact absurd h2 (by show ¬ i ≤ 0; omega)
        · rcases List.mem_append.mp hx with h' | h'
          · exact Or.inl h'
          · rw [List.mem_singleton] at h'
            exact Or.inr ⟨by show 0 ≤ x; omega, by omega⟩
  | succ index ih =>
    unfold scanBackward at h ⊢
    cases hget : entries[index + 1]? with
    | none =>
      rw [hget] at h
      simp at h
    | some entry =>
      rw [hget] at h
      simp only at h ⊢
      by_cases hdep : departureTime entry < time
      · rw [if_pos hdep] at h ⊢
        by_cases hb : index < begin
        · rw [if_pos hb] at h
          simp at h
        · rw [if_neg hb] at h ⊢
          obtain ⟨r1, r2, r3, r4, r5⟩ := ih (reads ++ [index + 1]) h
          refine ⟨by omega, r2, r3, fun i h1 h2 => ?_, fun x hx => ?_⟩
          · by_cases hi : i = index + 1
            · subst hi
              exact ⟨entry, hget, hdep⟩
            · exact r4 i h1 (by omega)
          · rcases r5 x hx with h' | h'
            · rcases List.mem_append.mp h' with h'' | h''
              · exact Or.inl h''
              · rw [List.mem_singleton] at h''
                subst h''
                exact Or.inr ⟨by omega, le_refl _⟩
            · exact Or.inr ⟨h'.1, by omega⟩
      · rw [if_neg hdep] at h ⊢
        simp only [Option.some.injEq, FindEntryOutcome.returned.injEq] at h
        subst h
        refine ⟨le_refl _, hget, not_lt.mp hdep, fun i h1 h2 => ?_, fun x hx => ?_⟩
        · dsimp only at h1
          exact absurd h2 (by show ¬ i ≤ index + 1; omega)
        · rcases List.mem_append.mp hx with h' | h'
          · exact Or.inl h'
          · rw [List.mem_singleton] at h'
            dsimp only
            exact Or.inr ⟨by omega, by omega⟩

/-- The second loop of `findEntry` returns an entry at or behind position `b` when
the entry at `b` departs at `time` or later and all entries from `b` to the index
exist. -/
theorem scanBackward_finds (departureTime : E → Int) (entries : List E) (begin : Nat)
    (time : Int) (b : Nat) (hb : begin ≤ b) (index : Nat) (reads : List Nat) (hbi : b ≤ index)
    (hrange : ∀ i, b ≤ i → i ≤ index → ∃ e, entries[i]? = some e)
    (hfirst : ∃ e, entries[b]? = some e ∧ time ≤ departureTime e) :
    b ≤ (scanBackward departureTime entries begin time index reads).index ∧
    ∃ e, (scanBackward departureTime entries begin time index reads).stopped
      = some (FindEntryOutcome.returned e) := by
  induction index generalizing reads with
  | zero =>
    have hb0 : b = 0 := by omega
    subst hb0
    obtain ⟨e, he, hdep⟩ := hfirst
    unfold scanBackward
    rw [he]
    simp only
    rw [if_neg (not_lt.mpr hdep)]
    exact ⟨le_refl _, e, rfl⟩
  | succ index ih =>
    obtain ⟨entry, hget⟩ := hrange (index + 1) hbi (le_refl _)
    unfold scanBackward
    rw [hget]
    simp only
    by_cases hdep : departureTime entry < time
    · rw [if_pos hdep]
      have hne : b ≠ index + 1 := by
        intro hEq
        obtain ⟨e, he, hle⟩ := hfirst
        rw [hEq, hget] at he
        simp only [Option.some.injEq] at he
        subst he
        exact absurd hdep (not_lt.mpr hle)
      rw [if_neg (by show ¬ index < begin; omega)]
      exact ih (reads ++ [index + 1]) (by omega) (fun i h1 h2 => hrange i h1 (by omega))
    · rw [if_neg hdep]
      exact ⟨hbi, entry, rfl⟩

end ProfileScanBackward

section FindEntryProofs

variable {E : Type}

/-- The entry at position `i` of a list that is long enough. -/
theorem getElem?_of_lt (entries : List E) (i : Nat) (h : i < entries.length) :
    ∃ e, entries[i]? = some e :=
  ⟨entries[i], List.getElem?_eq_getElem h⟩

/-- The first loop and the assertion of `findEntry` on a container whose vectors hold
`size_t` values: the second loop starts at an index `f` that is not below the old one,
from which the next entry of the stop, if there is one, departs before `time`. -/
theorem findEntryScan_forward (departureTime : E → Int) (entries : List E) (begin stopEnd : Nat)
    (time : Int) (index : Nat) (hend : stopEnd < sizeLimit) (hlen : stopEnd ≤ entries.length)
    (hindex : index + 1 < sizeLimit) :
    ∃ f reads, index ≤ f ∧ (f = index ∨ f < stopEnd) ∧
      (∀ i, index < i → i ≤ f → ∃ e, entries[i]? = some e ∧ time ≤ departureTime e) ∧
      (f + 1 < stopEnd → ∃ e, entries[f + 1]? = some e ∧ departureTime e < time) ∧
      (∀ x, x ∈ reads → index < x ∧ x < stopEnd) ∧
      findEntryScan departureTime entries begin stopEnd time index
        = scanBackward departureTime entries begin time f reads := by
  obtain ⟨r1, r2, r3, r4, r5, r6⟩ := scanForward_spec departureTime entries stopEnd time hend
    (stopEnd + 1) index [] hindex
    (fun i _ h2 => getElem?_of_lt entries i (by omega)) (by omega)
  have hf : (scanForward departureTime entries stopEnd time (stopEnd + 1) index []).index + 1
      < sizeLimit := by
    rcases r3 with h | h
    · rw [h]
      exact hindex
    · omega
  obtain ⟨c1, c2, c3⟩ := checkMonotonous_spec departureTime entries stopEnd time
    (scanForward departureTime entries stopEnd time (stopEnd + 1) index []).index
    (scanForward departureTime entries stopEnd time (stopEnd + 1) index []).reads hf r5
  refine ⟨(scanForward departureTime entries stopEnd time (stopEnd + 1) index []).index,
    (checkMonotonous departureTime entries stopEnd time
      (scanForward departureTime entries stopEnd time (stopEnd + 1) index []).index
      (scanForward departureTime entries stopEnd time (stopEnd + 1) index []).reads).reads,
    r2, r3, r4, r5, fun x hx => ?_, ?_⟩
  · rcases c3 x hx with h | h
    · rcases r6 x h with h' | h'
      · exact absurd h' (List.not_mem_nil x)
      · exact h'
    · exact ⟨by omega, h.2⟩
  · unfold findEntryScan
    simp only
    rw [r1]
    simp only
    rw [c1]
    simp only
    rw [c2]

/-- The outcome of a call of `findEntry` that returns an entry, on a container whose
vectors hold `size_t` values: when the entry after the old index, if the stop has
one, departs before `time`, the index does not grow, and the same holds for the new
index. -/
theorem findEntryScan_returned (departureTime : E → Int) (entries : List E) (begin stopEnd : Nat)
    (time : Int) (index : Nat) (hend : stopEnd < sizeLimit) (hlen : stopEnd ≤ entries.length)
    (hindex : index + 1 < sizeLimit)
    (hnext : index + 1 < stopEnd → ∃ e, entries[index + 1]? = some e ∧ departureTime e < time)
    (e : E)
    (h : (findEntryScan departureTime entries begin stopEnd time index).stopped
      = some (FindEntryOutcome.returned e)) :
    (findEntryScan departureTime entries begin stopEnd time index).index ≤ index ∧
    entries[(findEntryScan departureTime entries begin stopEnd time index).index]? = some e ∧
    time ≤ departureTime e ∧
    ((findEntryScan departureTime entries begin stopEnd time index).index + 1 < stopEnd →
      ∃ e', entries[(findEntryScan departureTime entries begin stopEnd time index).index + 1]?
        = some e' ∧ departureTime e' < time) := by
  obtain ⟨f, reads, f1, f2, f3, f4, _, f6⟩ := findEntryScan_forward departureTime entries begin
    stopEnd time index hend hlen hindex
  have hf : f = index := by
    rcases f2 with h' | h'
    · exact h'
    · by_contra hne
      obtain ⟨e1, he1, hd1⟩ := f3 (index + 1) (by omega) (by omega)
      obtain ⟨e2, he2, hd2⟩ := hnext (by omega)
      rw [he1] at he2
      simp only [Option.some.injEq] at he2
      subst he2
      exact absurd hd2 (not_lt.mpr hd1)
  subst hf
  rw [f6] at h ⊢
  obtain ⟨b1, b2, b3, b4, _⟩ := scanBackward_returned departureTime entries begin time f reads e h
  refine ⟨b1, b2, b3, fun hlt => ?_⟩
  by_cases hj : (scanBackward departureTime entries begin time f reads).index = f
  · rw [hj] at hlt ⊢
    exact hnext hlt
  · exact b4 _ (by omega) (by omega)

end FindEntryProofs

section FindEntryClaims

variable {E : Type}

/-- C25: `findEntry(stop, time)` returns the tightest entry. When the departure times
of the entries of the stop fall strictly with the index, the scan index of the stop
lies in `[begin(stop), end(stop))` and the first entry of the stop departs at `time`
or later, the call returns `entries[j]` for the largest index `j` of the range whose
entry departs at `time` or later, it leaves `scanIndex[stop] = j`, and it has read
entries at indices of `[begin(stop), end(stop))` only, for every position of the scan
index before the call. -/
theorem findEntry_tightest (departureTime : E → Int) (c : PATProfileContainer E) (stop : Nat)
    (time : Int) (hstop : stop < c.scanIndex.length)
    (hlen : c.stopEnd stop ≤ c.entries.length) (hsize : c.entries.length < sizeLimit)
    (hlow : c.begin stop ≤ c.scanIndex.getD stop 0)
    (hhigh : c.scanIndex.getD stop 0 < c.stopEnd stop)
    (hsorted : ∀ i j ei ej, c.begin stop ≤ i → i < j → j < c.stopEnd stop →
      c.entries[i]? = some ei → c.entries[j]? = some ej → departureTime ej < departureTime ei)
    (hfirst : ∃ e, c.entries[c.begin stop]? = some e ∧ time ≤ departureTime e) :
    ∃ j e, c.begin stop ≤ j ∧ j < c.stopEnd stop ∧ c.entries[j]? = some e ∧
      time ≤ departureTime e ∧
      (∀ i e', j < i → i < c.stopEnd stop → c.entries[i]? = some e' → departureTime e' < time) ∧
      (c.findEntry departureTime stop time).1.stopped = some (FindEntryOutcome.returned e) ∧
      (c.findEntry departureTime stop time).2.scanIndex.getD stop 0 = j ∧
      ∀ x, x ∈ (c.findEntry departureTime stop time).1.reads →
        c.begin stop ≤ x ∧ x < c.stopEnd stop := by
  obtain ⟨f, reads, f1, f2, _, f4, f5, f6⟩ := findEntryScan_forward departureTime c.entries
    (c.begin stop) (c.stopEnd stop) time (c.scanIndex.getD stop 0) (by omega) hlen (by omega)
  have hfEnd : f < c.stopEnd stop := by
    rcases f2 with h | h
    · rw [h]
      exact hhigh
    · exact h
  obtain ⟨g1, e, g2⟩ := scanBackward_finds departureTime c.entries (c.begin stop) time
    (c.begin stop) (le_refl _) f reads (by omega)
    (fun i _ h2 => getElem?_of_lt c.entries i (by omega)) hfirst
  obtain ⟨b1, b2, b3, b4, b5⟩ := scanBackward_returned departureTime c.entries (c.begin stop)
    time f reads e g2
  have hscan : (c.findEntry departureTime stop time).1
      = scanBackward departureTime c.entries (c.begin stop) time f reads := f6
  have hindex : (c.findEntry departureTime stop time).2.scanIndex.getD stop 0
      = (scanBackward departureTime c.entries (c.begin stop) time f reads).index := by
    show (c.scanIndex.set stop (findEntryScan departureTime c.entries (c.begin stop)
      (c.stopEnd stop) time (c.scanIndex.getD stop 0)).index).getD stop 0 = _
    rw [f6, getD_set_default, if_pos ⟨rfl, hstop⟩]
  refine ⟨(scanBackward departureTime c.entries (c.begin stop) time f reads).index, e, g1,
    by omega, b2, b3, fun i e' h1 h2 he' => ?_, ?_, hindex, fun x hx => ?_⟩
  · by_cases hi : i ≤ f
    · obtain ⟨e'', he'', hd⟩ := b4 i h1 hi
      rw [he'] at he''
      simp only [Option.some.injEq] at he''
      subst he''
      exact hd
    · obtain ⟨e'', he'', hd⟩ := f4 (by omega)
      by_cases hi' : i = f + 1
      · subst hi'
        rw [he'] at he''
        simp only [Option.some.injEq] at he''
        subst he''
        exact hd
      · exact lt_trans (hsorted (f + 1) i e'' e' (by omega) (by omega) h2 he'' he') hd
  · rw [hscan]
    exact g2
  · rw [hscan] at hx
    rcases b5 x hx with h | h
    · have := f5 x h
      exact ⟨by omega, this.2⟩
    · exact ⟨by omega, by omega⟩

/-- C25 on the example container: for stop 2 with the entries 250 and 150 at the
indices 3 and 4 and the scan index 4, `findEntry(2, 200)` returns the entry 250 at
index 3, which is the last one that departs at 200 or later. -/
theorem findEntry_tightest_witness :
    ∃ j e, exampleContainer.begin 2 ≤ j ∧ j < exampleContainer.stopEnd 2 ∧
      exampleContainer.entries[j]? = some e ∧ (200 : Int) ≤ id e ∧
      (∀ i e', j < i → i < exampleContainer.stopEnd 2 → exampleContainer.entries[i]? = some e' →
        id e' < (200 : Int)) ∧
      (exampleContainer.findEntry id 2 200).1.stopped = some (FindEntryOutcome.returned e) ∧
      (exampleContainer.findEntry id 2 200).2.scanIndex.getD 2 0 = j ∧
      ∀ x, x ∈ (exampleContainer.findEntry id 2 200).1.reads →
        exampleContainer.begin 2 ≤ x ∧ x < exampleContainer.stopEnd 2 :=
  findEntry_tightest id exampleContainer 2 200 (by decide) (by decide) (by decide) (by decide)
    (by decide)
    (by
      intro i j ei ej h1 h2 h3 hi hj
      have hb : exampleContainer.begin 2 = 3 := rfl
      have he : exampleContainer.stopEnd 2 = 5 := rfl
      rw [hb] at h1
      rw [he] at h3
      have hi3 : i = 3 := by omega
      have hj4 : j = 4 := by omega
      subst hi3
      subst hj4
      have h3v : exampleContainer.entries[3]? = some 250 := rfl
      have h4v : exampleContainer.entries[4]? = some 150 := rfl
      rw [h3v] at hi
      rw [h4v] at hj
      simp only [Option.some.injEq] at hi hj
      subst hi
      subst hj
      decide)
    ⟨250, rfl, by decide⟩

end FindEntryClaims

section FindEntrySequence

variable {E : Type}

/-- The second loop of `findEntry` reads behind the end of `entries` when it starts
there. -/
theorem scanBackward_outOfRange (departureTime : E → Int) (entries : List E) (begin : Nat)
    (time : Int) (index : Nat) (reads : List Nat) (h : entries.length ≤ index) :
    (scanBackward departureTime entries begin time index reads).stopped
      = some (FindEntryOutcome.outOfRange index) := by
  have hnone : entries[index]? = none := List.getElem?_eq_none h
  cases index with
  | zero =>
    unfold scanBackward
    rw [hnone]
  | succ k =>
    unfold scanBackward
    rw [hnone]

/-- Calls of `findEntry` for times that do not fall, from a scan index behind which
the next entry of the stop departs before the first time: no call that returns an
entry moves the scan index up. -/
theorem findEntries_chain (departureTime : E → Int) (stop : Nat) (times : List Int)
    (c : PATProfileContainer E) (hstop : stop < c.scanIndex.length)
    (hlen : c.stopEnd stop ≤ c.entries.length) (hsize : c.entries.length < sizeLimit)
    (hindex : c.scanIndex.getD stop 0 + 1 < sizeLimit)
    (htimes : times.Chain' (fun a b => a ≤ b))
    (hnext : ∀ t, times.head? = some t → c.scanIndex.getD stop 0 + 1 < c.stopEnd stop →
      ∃ e, c.entries[c.scanIndex.getD stop 0 + 1]? = some e ∧ departureTime e < t) :
    List.Chain (fun a b => b ≤ a) (c.scanIndex.getD stop 0)
      (returnedIndices (findEntries departureTime stop c times)) := by
  induction times generalizing c with
  | nil => exact List.Chain.nil
  | cons t rest ih =>
    have hP := hnext t rfl
    unfold findEntries
    cases hs : (c.findEntry departureTime stop t).1.stopped with
    | none =>
      simp only
      have hnot : ¬ ProfileScan.hasReturned (c.findEntry departureTime stop t).1 = true := by
        unfold ProfileScan.hasReturned
        rw [hs]
        simp
      unfold returnedIndices
      rw [List.filter_cons_of_neg hnot]
      exact List.Chain.nil
    | some outcome =>
      cases outcome with
      | returned e =>
        simp only
        have hs' : (findEntryScan departureTime c.entries (c.begin stop) (c.stopEnd stop) t
            (c.scanIndex.getD stop 0)).stopped = some (FindEntryOutcome.returned e) := hs
        obtain ⟨r1, r2, _, r4⟩ := findEntryScan_returned departureTime c.entries (c.begin stop)
          (c.stopEnd stop) t (c.scanIndex.getD stop 0) (by omega) hlen hindex hP e hs'
        have hreturned : ProfileScan.hasReturned (c.findEntry departureTime stop t).1 = true := by
          unfold ProfileScan.hasReturned
          rw [hs]
        have hnew : (c.findEntry departureTime stop t).2.scanIndex.getD stop 0
            = (findEntryScan departureTime c.entries (c.begin stop) (c.stopEnd stop) t
                (c.scanIndex.getD stop 0)).index := by
          show (c.scanIndex.set stop _).getD stop 0 = _
          rw [getD_set_default, if_pos ⟨rfl, hstop⟩]
        have hlt : (findEntryScan departureTime c.entries (c.begin stop) (c.stopEnd stop) t
            (c.scanIndex.getD stop 0)).index < c.entries.length := by
          by_contra hge
          rw [List.getElem?_eq_none (Nat.le_of_not_lt hge)] at r2
          simp at r2
        have hrest := ih (c.findEntry departureTime stop t).2
          (by show stop < (c.scanIndex.set stop _).length; rw [List.length_set]; exact hstop)
          hlen hsize (by rw [hnew]; omega) htimes.tail
          (fun t' ht' hlt' => by
            rw [hnew] at hlt' ⊢
            obtain ⟨e', he', hd⟩ := r4 hlt'
            have hle : t ≤ t' := by
              cases rest with
              | nil => simp at ht'
              | cons a rest' =>
                simp only [List.head?_cons, Option.some.injEq] at ht'
                subst ht'
                exact (List.chain'_cons.mp htimes).1
            exact ⟨e', he', lt_of_lt_of_le hd hle⟩)
        unfold returnedIndices
        rw [List.filter_cons_of_pos hreturned, List.map_cons]
        refine List.Chain.cons r1 ?_
        rw [hnew] at hrest
        exact hrest
      | notMonotonous =>
        simp only
        have hnot : ¬ ProfileScan.hasReturned (c.findEntry departureTime stop t).1 = true := by
          unfold ProfileScan.hasReturned
          rw [hs]
          simp
        unfold returnedIndices
        rw [List.filter_cons_of_neg hnot]
        exact List.Chain.nil
      | noProfileEntry =>
        simp only
        have hnot : ¬ ProfileScan.hasReturned (c.findEntry departureTime stop t).1 = true := by
          unfold ProfileScan.hasReturned
          rw [hs]
          simp
        unfold returnedIndices
        rw [List.filter_cons_of_neg hnot]
        exact List.Chain.nil
      | outOfRange i =>
        simp only
        have hnot : ¬ ProfileScan.hasReturned (c.findEntry departureTime stop t).1 = true := by
          unfold ProfileScan.hasReturned
          rw [hs]
          simp
        unfold returnedIndices
        rw [List.filter_cons_of_neg hnot]
        exact List.Chain.nil

end FindEntrySequence

section ScanIndexClaims

variable {E : Type}

/-- C23, counterexample: on the example container the stop 0 has the entries 300, 200,
100. After `resetScanIndex(0)` the call `findEntry(0, 250)` leaves the scan index at 0,
and the call `findEntry(0, 150)` that follows moves it up to 1. -/
theorem findEntry_moves_scanIndex_up :
    (exampleContainer.resetScanIndex 0).scanIndex.getD 0 0 = 2 ∧
    returnedIndices (findEntries id 0 (exampleContainer.resetScanIndex 0) [250, 150]) = [0, 1] := by
  decide

/-- C23, amended: after `resetScanIndex(stop)`, in a sequence of calls
`findEntry(stop, time)` whose times do not fall from one call to the next, no call
that returns an entry moves `scanIndex[stop]` up: the values of the scan index, from
`end(stop) - 1` on, form a chain that does not rise. The container holds `size_t`
values and `end(stop)` is not behind the end of `entries`. -/
theorem findEntry_never_backtracks (departureTime : E → Int) (c : PATProfileContainer E)
    (stop : Nat) (times : List Int) (hstop : stop < c.scanIndex.length)
    (hlen : c.stopEnd stop ≤ c.entries.length) (hsize : c.entries.length < sizeLimit)
    (htimes : times.Chain' (fun a b => a ≤ b)) :
    List.Chain (fun a b => b ≤ a) ((c.resetScanIndex stop).scanIndex.getD stop 0)
      (returnedIndices (findEntries departureTime stop (c.resetScanIndex stop) times)) := by
  have hreset : (c.resetScanIndex stop).scanIndex.getD stop 0
      = (c.stopEnd stop + sizeLimit - 1) % sizeLimit := by
    show (c.scanIndex.set stop _).getD stop 0 = _
    rw [getD_set_default, if_pos ⟨rfl, hstop⟩]
  by_cases hzero : c.stopEnd stop = 0
  · cases times with
    | nil => exact List.Chain.nil
    | cons t rest =>
      have hidx : (c.resetScanIndex stop).scanIndex.getD stop 0 = sizeLimit - 1 := by
        rw [hreset, hzero]
        decide
      have hscan : ((c.resetScanIndex stop).findEntry departureTime stop t).1.stopped
          = some (FindEntryOutcome.outOfRange (sizeLimit - 1)) := by
        show (findEntryScan departureTime c.entries (c.begin stop) (c.stopEnd stop) t
          ((c.resetScanIndex stop).scanIndex.getD stop 0)).stopped = _
        rw [hidx, hzero]
        have hfwd : scanForward departureTime c.entries 0 t (0 + 1) (sizeLimit - 1) []
            = { stopped := none, index := sizeLimit - 1, reads := [] } := by
          unfold scanForward
          rw [if_neg (Nat.not_lt_zero _)]
        have hchk : checkMonotonous departureTime c.entries 0 t (sizeLimit - 1) []
            = { stopped := none, index := sizeLimit - 1, reads := [] } := by
          unfold checkMonotonous
          rw [if_neg (Nat.not_lt_zero _)]
        unfold findEntryScan
        simp only
        rw [hfwd]
        simp only
        rw [hchk]
        simp only
        exact scanBackward_outOfRange departureTime c.entries (c.begin stop) t (sizeLimit - 1) []
          (by omega)
      unfold findEntries
      rw [hscan]
      simp only
      have hnot : ¬ ProfileScan.hasReturned ((c.resetScanIndex stop).findEntry departureTime stop t).1
          = true := by
        unfold ProfileScan.hasReturned
        rw [hscan]
        simp
      unfold returnedIndices
      rw [List.filter_cons_of_neg hnot]
      exact List.Chain.nil
  · have hidx : (c.resetScanIndex stop).scanIndex.getD stop 0 = c.stopEnd stop - 1 := by
      rw [hreset]
      have h1 : c.stopEnd stop + sizeLimit - 1 = c.stopEnd stop - 1 + sizeLimit := by omega
      rw [h1, Nat.add_mod_right]
      exact Nat.mod_eq_of_lt (by omega)
    exact findEntries_chain departureTime stop times (c.resetScanIndex stop)
      (by show stop < (c.scanIndex.set stop _).length; rw [List.length_set]; exact hstop)
      hlen hsize (by rw [hidx]; omega) htimes
      (fun t _ hlt => by
        rw [hidx] at hlt
        have hsame : (c.resetScanIndex stop).stopEnd stop = c.stopEnd stop := rfl
        rw [hsame] at hlt
        omega)

/-- C23 on the example container: with the times 150 and 250 the scan index of stop 0
goes from 2 to 1 and then to 0. -/
theorem findEntry_never_backtracks_witness :
    List.Chain (fun a b => b ≤ a) ((exampleContainer.resetScanIndex 0).scanIndex.getD 0 0)
      (returnedIndices (findEntries id 0 (exampleContainer.resetScanIndex 0) [150, 250])) ∧
    returnedIndices (findEntries id 0 (exampleContainer.resetScanIndex 0) [150, 250]) = [1, 0] :=
  ⟨findEntry_never_backtracks id exampleContainer 0 [150, 250] (by decide) (by decide) (by decide)
    (by simp), by decide⟩

/-- C24, evaluated on the example container, which `addProfile` builds from the
profiles 300, 200, 100 of stop 0, the empty profile of stop 1 and 250, 150 of stop 2.
For the first stop and a time after all its entries, the decrement of the scan index
0 wraps to `2 ^ 64 - 1`, the assertion `scanIndex[stop] >= begin(stop)` holds, and the
call reads `entries[2 ^ 64 - 1]`. For the stop with the empty profile the call reads
`entries[2]`, which is an entry of stop 0, and returns it without any assertion. -/
theorem findEntry_misses_assertion :
    (((PATProfileContainer.empty Int).addProfile [300, 200, 100]).addProfile []).addProfile
        [250, 150] = exampleContainer ∧
    (exampleContainer.findEntry id 0 350).1.stopped
      = some (FindEntryOutcome.outOfRange (sizeLimit - 1)) ∧
    (exampleContainer.findEntry id 0 350).1.reads = [2, 1, 0, sizeLimit - 1] ∧
    exampleContainer.begin 1 = 3 ∧ exampleContainer.stopEnd 1 = 3 ∧
    (exampleContainer.findEntry id 1 100).1.stopped = some (FindEntryOutcome.returned 100) ∧
    (exampleContainer.findEntry id 1 100).1.reads = [2] := by
  refine ⟨rfl, by decide, by decide, by decide, by decide, by decide, by decide⟩

end ScanIndexClaims

section ReverseScanProofs

/-- The loop of `run` from an id `i` below `n`: it applies the body to `i`, `i - 1`,
down to 0 and ends, when the fuel allows `i + 2` evaluations of the condition. -/
theorem reverseLoop_spec {S : Type} (idLimit n : Nat) (body : S → Nat → S) (hid : n < idLimit)
    (i : Nat) (hi : i < n) (fuel : Nat) (hfuel : i + 2 ≤ fuel) (s : S) :
    reverseLoop idLimit n body fuel i s = some ((List.range (i + 1)).reverse.foldl body s) := by
  induction i generalizing fuel s with
  | zero =>
    obtain ⟨f, rfl⟩ : ∃ f, fuel = f + 2 := ⟨fuel - 2, by omega⟩
    unfold reverseLoop
    rw [if_pos hi]
    have hnext : (0 + idLimit - 1) % idLimit = idLimit - 1 := by
      rw [Nat.zero_add]
      exact Nat.mod_eq_of_lt (by omega)
    rw [hnext]
    unfold reverseLoop
    rw [if_neg (by omega)]
    rfl
  | succ k ih =>
    obtain ⟨f, rfl⟩ : ∃ f, fuel = f + 1 := ⟨fuel - 1, by omega⟩
    unfold reverseLoop
    rw [if_pos hi]
    have hnext : (k + 1 + idLimit - 1) % idLimit = k := by
      have h1 : k + 1 + idLimit - 1 = k + idLimit := by omega
      rw [h1, Nat.add_mod_right]
      exact Nat.mod_eq_of_lt (by omega)
    rw [hnext, ih (by omega) f (by omega) (body s (k + 1))]
    rw [List.range_succ (n := k + 1), List.reverse_append]
    rfl

/-- The loop of `run` with its start value, for a number of connections that the id
type can count. -/
theorem reverseScan_spec {S : Type} (idLimit n : Nat) (body : S → Nat → S) (hid : n < idLimit)
    (hsize : idLimit ≤ sizeLimit) (fuel : Nat) (hfuel : n + 1 ≤ fuel) (s : S) :
    reverseScan idLimit n body fuel s = some ((descendingIndices n).foldl body s) := by
  unfold reverseScan descendingIndices
  cases n with
  | zero =>
    obtain ⟨f, rfl⟩ : ∃ f, fuel = f + 1 := ⟨fuel - 1, by omega⟩
    unfold reverseLoop
    rw [if_neg (Nat.not_lt_zero _)]
    rfl
  | succ k =>
    have hstart : ((k + 1 + sizeLimit - 1) % sizeLimit) % idLimit = k := by
      have h1 : k + 1 + sizeLimit - 1 = k + sizeLimit := by omega
      have hk : k % sizeLimit = k := Nat.mod_eq_of_lt (by omega)
      have hk2 : k % idLimit = k := Nat.mod_eq_of_lt (by omega)
      rw [h1, Nat.add_mod_right, hk, hk2]
    rw [hstart]
    exact reverseLoop_spec idLimit (k + 1) body hid k (by omega) fuel (by omega) s

end ReverseScanProofs

section ReverseScanClaim

variable {K E L : Type} [LinearOrderedField K] [FloorRing K]

/-- The ids `n - 1` down to 0 by position. -/
theorem descendingIndices_getElem (n k : Nat) (hk : k < n) :
    (descendingIndices n)[k]? = some (n - 1 - k) := by
  unfold descendingIndices
  rw [List.getElem?_reverse (by rw [List.length_range]; exact hk), List.length_range,
    List.getElem?_range (by omega)]

/-- C22: the loop of `ComputeLockstepPATs::run` ends, for every number `n` of
connections that the id type can count, and has then visited the connection ids
`n - 1`, `n - 2`, down to 0, each once and all of them below `n`; for `n = 0` the start
value wraps and the loop visits nothing. The state that `run` returns is the one that
the loop leaves, with the profiles collected. -/
theorem run_visits_each_connection_once (ctx : LockstepContext K E L)
    (st : ComputeLockstepPATs K E L) (target index idLimit fuel : Nat)
    (hid : ctx.data.numberOfConnections < idLimit) (hsize : idLimit ≤ sizeLimit)
    (hfuel : ctx.data.numberOfConnections + 1 ≤ fuel) :
    reverseScan idLimit ctx.data.numberOfConnections (fun visited i => visited ++ [i]) fuel []
      = some (descendingIndices ctx.data.numberOfConnections) ∧
    (descendingIndices ctx.data.numberOfConnections).length = ctx.data.numberOfConnections ∧
    (∀ k, k < ctx.data.numberOfConnections →
      (descendingIndices ctx.data.numberOfConnections)[k]?
        = some (ctx.data.numberOfConnections - 1 - k)) ∧
    (∀ i, i ∈ descendingIndices ctx.data.numberOfConnections → i < ctx.data.connections.length) ∧
    (ctx.data.numberOfConnections = 0 →
      reverseScan idLimit ctx.data.numberOfConnections (fun visited i => visited ++ [i]) fuel []
        = some []) ∧
    (reverseScan idLimit ctx.data.numberOfConnections (scanConnection ctx) fuel
      ( ComputeLockstepPATs.initialize ctx
        (ComputeLockstepPATs.clear ctx { st with patDataIndex := index }) target)).map
        (collectProfiles ctx)
      = some (st.run ctx target index) := by
  have hvisited := reverseScan_spec idLimit ctx.data.numberOfConnections
    (fun (visited : List Nat) i => visited ++ [i]) hid hsize fuel hfuel []
  have hfold : ∀ (l acc : List Nat), l.foldl (fun visited i => visited ++ [i]) acc = acc ++ l := by
    intro l
    induction l with
    | nil => intro acc; simp
    | cons a rest ih => intro acc; simp [ih]
  rw [hfold, List.nil_append] at hvisited
  refine ⟨hvisited, ?_, fun k hk => descendingIndices_getElem _ k hk, fun i hi => ?_,
    fun hzero => ?_, ?_⟩
  · unfold descendingIndices
    rw [List.length_reverse, List.length_range]
  · unfold descendingIndices at hi
    rw [List.mem_reverse, List.mem_range] at hi
    exact hi
  · rw [hvisited, hzero]
    rfl
  · rw [reverseScan_spec idLimit ctx.data.numberOfConnections (scanConnection ctx) hid hsize fuel
      hfuel]
    rfl

/-- C22 on the example network with one connection and ids of 32 bits: two evaluations
of the loop condition suffice, and the loop visits the connection 0. -/
theorem run_visits_each_connection_once_witness :
    reverseScan (2 ^ 32) (exampleContext ℚ 0 0).data.numberOfConnections
        (fun visited i => visited ++ [i]) 2 []
      = some (descendingIndices (exampleContext ℚ 0 0).data.numberOfConnections) ∧
    descendingIndices (exampleContext ℚ 0 0).data.numberOfConnections = [0] :=
  ⟨(run_visits_each_connection_once (exampleContext ℚ 0 0) (exampleLockstep ℚ 1) 1 0 (2 ^ 32) 2
      (by decide) (by decide) (by decide)).1, by decide⟩

end ReverseScanClaim

section LockstepLabelFrame

variable {K E L : Type} [LinearOrderedField K]

/-- A write to the current distances changes no connection label. -/
theorem setDistances_labels (ctx : LockstepContext K E L) (st : ComputeLockstepPATs K E L)
    (distances : List Int) :
    ((st.setDistances ctx distances).currentPATData ctx).connectionLabels
      = (st.currentPATData ctx).connectionLabels := by
  unfold ComputeLockstepPATs.setDistances ComputeLockstepPATs.currentPATData
  simp only
  rw [getD_set_default]
  split
  · rfl
  · rfl

/-- `clear()` changes no connection label. -/
theorem clear_labels (ctx : LockstepContext K E L) (st : ComputeLockstepPATs K E L) :
    ((st.clear ctx).currentPATData ctx).connectionLabels
      = (st.currentPATData ctx).connectionLabels := by
  unfold ComputeLockstepPATs.clear
  simp only
  cases st.targetVertex with
  | none => rfl
  | some target =>
    simp only
    split
    · unfold ComputeLockstepPATs.cleanUp
      rw [setDistances_labels]
      rfl
    · rfl

/-- Collecting the waiting profiles changes no connection label. -/
theorem collectProfiles_labels (ctx : LockstepContext K E L) (st : ComputeLockstepPATs K E L) :
    ((collectProfiles ctx st).currentPATData ctx).connectionLabels
      = (st.currentPATData ctx).connectionLabels := by
  unfold collectProfiles ComputeLockstepPATs.currentPATData
  simp only
  rw [getD_set_default]
  split
  · rfl
  · rfl

/-- The connection labels after a write to label `i`. -/
theorem setConnectionLabel_labels (ctx : LockstepContext K E L) (st : ComputeLockstepPATs K E L)
    (i : Nat) (label : ConnectionLabel K) (hidx : st.patDataIndex < st.patData.length) :
    ((st.setConnectionLabel ctx i label).currentPATData ctx).connectionLabels
      = (st.currentPATData ctx).connectionLabels.set i label := by
  unfold ComputeLockstepPATs.setConnectionLabel ComputeLockstepPATs.currentPATData
  simp only
  rw [getD_set_default, if_pos ⟨rfl, hidx⟩]

/-- The scan of connection `i` writes label `i` only. -/
theorem scanConnection_labels (ctx : LockstepContext K E L) (st : ComputeLockstepPATs K E L)
    (i : Nat) (hidx : st.patDataIndex < st.patData.length) :
    ∃ label, ((scanConnection ctx st i).currentPATData ctx).connectionLabels
      = (st.currentPATData ctx).connectionLabels.set i label := by
  have h1 := setConnectionLabel_labels ctx st i (scannedLabel ctx st i) hidx
  obtain ⟨f1, f2, _⟩ := setConnectionLabel_frame ctx st i (scannedLabel ctx st i)
  have h2 := setConnectionLabel_labels ctx
    { st.setConnectionLabel ctx i (scannedLabel ctx st i) with
      tripPAT := st.tripPAT.set (connectionAt ctx i).tripId
        (if boardingPAT ctx st i ≥ ctx.unreachable then ctx.unreachable
         else boardingPAT ctx st i - hopOnLoadCost ctx i) }
    i { scannedLabel ctx st i with hopOnPAT := expectedPAT ctx st i }
    (by
      show (st.setConnectionLabel ctx i (scannedLabel ctx st i)).patDataIndex
        < (st.setConnectionLabel ctx i (scannedLabel ctx st i)).patData.length
      rw [f1, f2]
      exact hidx)
  have h3 : ((st.setConnectionLabel ctx i (scannedLabel ctx st i)).currentPATData ctx).connectionLabels.set
      i { scannedLabel ctx st i with hopOnPAT := expectedPAT ctx st i }
      = (st.currentPATData ctx).connectionLabels.set i
          { scannedLabel ctx st i with hopOnPAT := expectedPAT ctx st i } := by
    rw [h1, List.set_set]
  unfold scanConnection
  simp only
  split
  · exact ⟨_, h1⟩
  · split
    · exact ⟨_, h2.trans h3⟩
    · exact ⟨_, h2.trans h3⟩

/-- A part of the loop of `run` that does not scan connection `i` leaves label `i` as
it is. -/
theorem scanConnections_other_label (ctx : LockstepContext K E L) (indices : List Nat)
    (st : ComputeLockstepPATs K E L) (i : Nat) (hidx : st.patDataIndex < st.patData.length)
    (hi : i ∉ indices) :
    (indices.foldl (scanConnection ctx) st).connectionLabel ctx i = st.connectionLabel ctx i ∧
    ((indices.foldl (scanConnection ctx) st).currentPATData ctx).connectionLabels.length
      = (st.currentPATData ctx).connectionLabels.length := by
  induction indices generalizing st with
  | nil => exact ⟨rfl, rfl⟩
  | cons j indices ih =>
    obtain ⟨b1, b2, _, _⟩ := scanConnection_frame ctx st j
    obtain ⟨a1, a2⟩ := ih (scanConnection ctx st j) (by rw [b1, b2]; exact hidx)
      (fun h => hi (List.mem_cons_of_mem j h))
    obtain ⟨label, hlabel⟩ := scanConnection_labels ctx st j hidx
    have hji : j ≠ i := fun h => hi (h ▸ List.mem_cons_self j indices)
    rw [List.foldl_cons]
    refine ⟨a1.trans ?_, a2.trans ?_⟩
    · unfold ComputeLockstepPATs.connectionLabel
      rw [hlabel, getD_set_default, if_neg (fun h => hji h.1)]
    · rw [hlabel, List.length_set]

end LockstepLabelFrame

section LockstepStaleLabel

variable {K E L : Type} [LinearOrderedField K] [FloorRing K]

/-- The loop variable takes the values above `i`, then `i`, then the values below. -/
theorem descendingIndices_split (n i : Nat) (hi : i < n) :
    descendingIndices n = indicesAbove n i ++ i :: descendingIndices i := by
  unfold descendingIndices indicesAbove
  have h : n = (i + 1) + (n - (i + 1)) := by omega
  conv_lhs => rw [h]
  rw [List.range_add, List.reverse_append, List.range_succ, List.reverse_append]
  rfl

/-- The state in which `run(target, index)` enters its loop has the connection labels
that `patData[index]` held before the call. -/
theorem loopEntry_labels (ctx : LockstepContext K E L) (st : ComputeLockstepPATs K E L)
    (target index : Nat) (hidx : index < st.patData.length) :
    ( ComputeLockstepPATs.initialize ctx
      (ComputeLockstepPATs.clear ctx { st with patDataIndex := index }) target).patDataIndex
      = index ∧
    ( ComputeLockstepPATs.initialize ctx
      (ComputeLockstepPATs.clear ctx { st with patDataIndex := index }) target).patData.length
      = st.patData.length ∧
    (( ComputeLockstepPATs.initialize ctx
      (ComputeLockstepPATs.clear ctx { st with patDataIndex := index }) target).currentPATData
        ctx).connectionLabels
      = (ComputeLockstepPATs.currentPATData ctx { st with patDataIndex := index }).connectionLabels := by
  obtain ⟨c1, c2, _⟩ := clear_distances ctx { st with patDataIndex := index } hidx
  refine ⟨c1, ?_, ?_⟩
  · simp only [ComputeLockstepPATs.setDistances, ComputeLockstepPATs.initialize, List.length_set]
    exact c2
  · unfold ComputeLockstepPATs.initialize
    simp only
    rw [setDistances_labels]
    exact clear_labels ctx { st with patDataIndex := index }

/-- The label of a connection whose `pat_on` is not below `Unreachable` when the loop
of `run(target, index)` reaches it: `hopOnPAT` is what `patData[index]` held before
the call. -/
theorem run_hopOnPAT_of_unreachable (ctx : LockstepContext K E L)
    (st : ComputeLockstepPATs K E L) (target index i : Nat) (hidx : index < st.patData.length)
    (hi : i < ctx.data.numberOfConnections)
    (hlabel : i < (ComputeLockstepPATs.currentPATData ctx
      { st with patDataIndex := index }).connectionLabels.length)
    (hpat : boardingPAT ctx
      ((indicesAbove ctx.data.numberOfConnections i).foldl (scanConnection ctx)
        ( ComputeLockstepPATs.initialize ctx
          (ComputeLockstepPATs.clear ctx { st with patDataIndex := index }) target)) i
      ≥ ctx.unreachable) :
    ((st.run ctx target index).connectionLabel ctx i).hopOnPAT
      = (ComputeLockstepPATs.connectionLabel ctx { st with patDataIndex := index } i).hopOnPAT := by
  obtain ⟨e1, e2, e3⟩ := loopEntry_labels ctx st target index hidx
  have habove : i ∉ indicesAbove ctx.data.numberOfConnections i := by
    unfold indicesAbove
    rw [List.mem_reverse, List.mem_map]
    rintro ⟨k, _, hk⟩
    omega
  have hbelow : i ∉ descendingIndices i := by
    unfold descendingIndices
    rw [List.mem_reverse, List.mem_range]
    omega
  obtain ⟨s1, s2, _, _⟩ := scanConnections_frame ctx (indicesAbove ctx.data.numberOfConnections i)
    ( ComputeLockstepPATs.initialize ctx
      (ComputeLockstepPATs.clear ctx { st with patDataIndex := index }) target)
  obtain ⟨a1, a2⟩ := scanConnections_other_label ctx (indicesAbove ctx.data.numberOfConnections i)
    ( ComputeLockstepPATs.initialize ctx
      (ComputeLockstepPATs.clear ctx { st with patDataIndex := index }) target) i
    (by rw [e1, e2]; exact hidx) habove
  have hidxS : ((indicesAbove ctx.data.numberOfConnections i).foldl (scanConnection ctx)
      ( ComputeLockstepPATs.initialize ctx
        (ComputeLockstepPATs.clear ctx { st with patDataIndex := index }) target)).patDataIndex
      < ((indicesAbove ctx.data.numberOfConnections i).foldl (scanConnection ctx)
      ( ComputeLockstepPATs.initialize ctx
        (ComputeLockstepPATs.clear ctx { st with patDataIndex := index }) target)).patData.length := by
    rw [s1, s2, e1, e2]
    exact hidx
  have hscan := scanConnection_label ctx
    ((indicesAbove ctx.data.numberOfConnections i).foldl (scanConnection ctx)
      ( ComputeLockstepPATs.initialize ctx
        (ComputeLockstepPATs.clear ctx { st with patDataIndex := index }) target)) i hidxS
    (by rw [a2, e3]; exact hlabel)
  rw [if_pos hpat] at hscan
  obtain ⟨b1, b2, _, _⟩ := scanConnection_frame ctx
    ((indicesAbove ctx.data.numberOfConnections i).foldl (scanConnection ctx)
      ( ComputeLockstepPATs.initialize ctx
        (ComputeLockstepPATs.clear ctx { st with patDataIndex := index }) target)) i
  obtain ⟨d1, _⟩ := scanConnections_other_label ctx (descendingIndices i)
    (scanConnection ctx ((indicesAbove ctx.data.numberOfConnections i).foldl (scanConnection ctx)
      ( ComputeLockstepPATs.initialize ctx
        (ComputeLockstepPATs.clear ctx { st with patDataIndex := index }) target)) i) i
    (by rw [b1, b2]; exact hidxS) hbelow
  have hrun : (st.run ctx target index).connectionLabel ctx i
      = ((descendingIndices i).foldl (scanConnection ctx)
          (scanConnection ctx
            ((indicesAbove ctx.data.numberOfConnections i).foldl (scanConnection ctx)
              ( ComputeLockstepPATs.initialize ctx
                (ComputeLockstepPATs.clear ctx { st with patDataIndex := index }) target))
            i)).connectionLabel ctx i := by
    unfold ComputeLockstepPATs.run
    simp only
    rw [descendingIndices_split ctx.data.numberOfConnections i hi, List.foldl_append,
      List.foldl_cons]
    unfold ComputeLockstepPATs.connectionLabel
    rw [collectProfiles_labels]
  rw [hrun, d1, hscan]
  show ((List.foldl (scanConnection ctx)
    ( ComputeLockstepPATs.initialize ctx
      (ComputeLockstepPATs.clear ctx { st with patDataIndex := index }) target)
    (indicesAbove ctx.data.numberOfConnections i)).connectionLabel ctx i).hopOnPAT = _
  rw [a1]
  unfold ComputeLockstepPATs.connectionLabel
  rw [e3]

end LockstepStaleLabel

section LockstepStaleLabelExample

/-- On the example network no journey over the connection 0 → 1 reaches the target 0:
when `run(0, 0)` enters its loop, `pat_on` of the connection is not below
`Unreachable`, whatever the connection labels hold. -/
theorem exampleContext_unreachable_connection
    (st : ComputeLockstepPATs ℚ (ExampleEntry ℚ) (List (ExampleEntry ℚ) × List (ExampleEntry ℚ)))
    (hpat : st.patData.length = 1) (htrip : st.tripPAT.length = 1)
    (hstops : st.stopLabels.length = 3) (htarget : st.targetVertex = none)
    (hdist : (st.patData.getD 0 (PATData.fresh (ExampleEntry ℚ) 1000000 1000000 0 0)).transferDistanceToTarget
      = [1000000, 1000000, 1000000]) :
    boardingPAT (exampleContext ℚ 0 0)
      ((indicesAbove (exampleContext ℚ 0 0).data.numberOfConnections 0).foldl
        (scanConnection (exampleContext ℚ 0 0))
        ( ComputeLockstepPATs.initialize (exampleContext ℚ 0 0)
          (ComputeLockstepPATs.clear (exampleContext ℚ 0 0) { st with patDataIndex := 0 }) 0)) 0
      ≥ (exampleContext ℚ 0 0).unreachable := by
  have habove : indicesAbove (exampleContext ℚ 0 0).data.numberOfConnections 0 = [] := by decide
  rw [habove, List.foldl_nil]
  obtain ⟨p, hp⟩ : ∃ p, st.patData = [p] := by
    match hps : st.patData, hpat with
    | [p], _ => exact ⟨p, rfl⟩
  rw [hp] at hdist
  simp only [List.getD_cons_zero] at hdist
  simp [boardingPAT, stdMin, travelPAT, walkingPAT, transferPAT, scannedLabel, hopOnLoadCost,
    travelLoadCost, hopOffLoadCost, fullLoadCost, ComputeLockstepPATs.targetPAT,
    ComputeLockstepPATs.currentPATData, ComputeLockstepPATs.stopLabel, connectionAt,
    computeLoadFactor, exampleContext, exampleSettings, quadraticLoadFactor, exampleOps,
    ComputeLockstepPATs.initialize, ComputeLockstepPATs.clear, ComputeLockstepPATs.setDistances,
    initializeDistances, relaxTargetEdges, CSA.TransferGraph.edgesFrom, htarget, htrip, hstops,
    hp, hdist]
  norm_num

end LockstepStaleLabelExample

section LockstepStaleLabelClaim

/-- C26, evaluated on the example network for the target 0, which no journey over the
connection 0 → 1 reaches: `pat_on` of the connection is not below `Unreachable`. The
call `run(0, 0)` on the fresh object leaves `hopOnPAT = 1000000`, which is
`Unreachable`; the same call on the object that differs in the old value 119 of
`hopOnPAT` only leaves `hopOnPAT = 119`. The loop writes `hopOnPAT` for a connection
with `pat_on` below `Unreachable` only, and `clear()` does not reset the labels. -/
theorem run_keeps_stale_hopOnPAT :
    (exampleStaleLockstep ℚ).tripPAT = (exampleLockstep ℚ 1).tripPAT ∧
    (exampleStaleLockstep ℚ).stopLabels = (exampleLockstep ℚ 1).stopLabels ∧
    (exampleStaleLockstep ℚ).targetVertex = (exampleLockstep ℚ 1).targetVertex ∧
    (exampleStaleLockstep ℚ).distances (exampleContext ℚ 0 0) 0
      = (exampleLockstep ℚ 1).distances (exampleContext ℚ 0 0) 0 ∧
    boardingPAT (exampleContext ℚ 0 0)
      ((indicesAbove (exampleContext ℚ 0 0).data.numberOfConnections 0).foldl
        (scanConnection (exampleContext ℚ 0 0))
        ( ComputeLockstepPATs.initialize (exampleContext ℚ 0 0)
          (ComputeLockstepPATs.clear (exampleContext ℚ 0 0)
            { exampleStaleLockstep ℚ with patDataIndex := 0 }) 0)) 0
      ≥ (exampleContext ℚ 0 0).unreachable ∧
    (((exampleLockstep ℚ 1).run (exampleContext ℚ 0 0) 0 0).connectionLabel
      (exampleContext ℚ 0 0) 0).hopOnPAT = 1000000 ∧
    (((exampleStaleLockstep ℚ).run (exampleContext ℚ 0 0) 0 0).connectionLabel
      (exampleContext ℚ 0 0) 0).hopOnPAT = 119 := by
  have hfresh := exampleContext_unreachable_connection (exampleLockstep ℚ 1) rfl rfl rfl rfl rfl
  have hstale := exampleContext_unreachable_connection (exampleStaleLockstep ℚ) rfl rfl rfl rfl rfl
  have h1 := run_hopOnPAT_of_unreachable (exampleContext ℚ 0 0) (exampleLockstep ℚ 1) 0 0 0
    (by decide) (by decide) (by decide) hfresh
  have h2 := run_hopOnPAT_of_unreachable (exampleContext ℚ 0 0) (exampleStaleLockstep ℚ) 0 0 0
    (by decide) (by decide) (by decide) hstale
  refine ⟨rfl, rfl, rfl, rfl, hstale, ?_, ?_⟩
  · rw [h1]
    rfl
  · rw [h2]
    rfl

end LockstepStaleLabelClaim

section WaitingProfileTransfers

variable {K E L : Type}

end WaitingProfileTransfers

section WaitingProfileInvariant

variable {K E L : Type} [LinearOrderedField K]

end WaitingProfileInvariant

section ConnectionMembership

variable {K E L : Type}

end ConnectionMembership

section StopLabelInvariant

variable {K E L : Type} [LinearOrderedField K]

end StopLabelInvariant

section SkipEntryAssertion

variable {K E L : Type} [LinearOrderedField K] [FloorRing K]

end SkipEntryAssertion

section SkipEntryExample

/-- The transfer profile of stop 0 on the example timetable, when the loop of
`run(1, 0)` reaches the connection that departs at 98: the scan of the connection
0 → 1 has added one entry, which departs at 100. -/
theorem exampleTimetable_transferProfile :
    (((indicesAbove (exampleTimetable ℚ).data.numberOfConnections 0).foldl
        (scanConnection (exampleTimetable ℚ))
        ( ComputeLockstepPATs.initialize (exampleTimetable ℚ)
          (ComputeLockstepPATs.clear (exampleTimetable ℚ)
            { exampleTimetableLockstep ℚ with patDataIndex := 0 }) 1)).stopLabel
        (exampleTimetable ℚ) 0).2.map (fun e => e.departureTime) = [100] := by
  have habove : indicesAbove (exampleTimetable ℚ).data.numberOfConnections 0 = [1] := by decide
  rw [habove, List.foldl_cons, List.foldl_nil]
  unfold ComputeLockstepPATs.initialize
  simp only
  rw [initializeDistances_of_zero_costs (exampleTimetable ℚ) _ _ rfl
    (exampleContext_travelTimes 1)]
  simp [scanConnection, addProfileEntries, addTransferAlongEdge, expectedPAT, failurePAT,
    PATData.failureTargetPAT, PATData.targetPAT, boardingPAT, stdMin, travelPAT, walkingPAT,
    transferPAT, scannedLabel, skipEntry, hopOnLoadCost, travelLoadCost, hopOffLoadCost,
    fullLoadCost, ComputeLockstepPATs.targetPAT, ComputeLockstepPATs.currentPATData,
    ComputeLockstepPATs.stopLabel, connectionAt, ComputeLockstepPATs.setConnectionLabel,
    computeLoadFactor, exampleTimetable, exampleContext, exampleSettings, quadraticLoadFactor,
    exampleOps, exampleProfileOps, ComputeLockstepPATs.initialize, ComputeLockstepPATs.clear,
    ComputeLockstepPATs.setDistances, initializeDistances, relaxTargetEdges,
    CSA.TransferGraph.edgesFrom, exampleTimetableLockstep, PATData.fresh]
  norm_num

end SkipEntryExample

section GraphUnionProofs

variable {A : Type}

/-- When neither graph has the edge, `findEdge` returns `noEdge + offset`, wrapped. -/
theorem Union_findEdge_without_edge (edgeValues : Nat) (u : Graph.Union A) (tail head : Nat)
    (hA : u.graphA.findEdge tail head = Graph.noEdge edgeValues)
    (hB : u.graphB.findEdge tail head = Graph.noEdge edgeValues)
    (hpos : 0 < u.offset) (hlt : u.offset < edgeValues) :
    u.findEdge edgeValues tail head = u.offset - 1 ∧
    u.findEdge edgeValues tail head ≠ Graph.noEdge edgeValues := by
  have hval : u.findEdge edgeValues tail head = u.offset - 1 := by
    unfold Graph.Union.findEdge
    rw [if_pos hA, hB]
    unfold Graph.noEdge
    have h1 : edgeValues - 1 + u.offset = u.offset - 1 + edgeValues := by omega
    rw [h1, Nat.add_mod_right]
    exact Nat.mod_eq_of_lt (by omega)
  refine ⟨hval, ?_⟩
  rw [hval]
  unfold Graph.noEdge
  omega

/-- C28, evaluated: the union of a graph with the single edge 0 → 1 (id 0) and a graph
without edges has the offset 1. For the pair (1, 0) `hasEdge` is false in both graphs,
and `findEdge(1, 0)` returns `noEdge + 1`, which wraps to 0: not `noEdge`, but the id
of the edge 0 → 1, which `findEdge(0, 1)` returns as well. -/
theorem Union_findEdge_returns_edge_for_missing_edge :
    (Graph.Union.setGraphs (2 ^ 32) true exampleGraphSmall exampleGraphEmpty).offset = 1 ∧
    (Graph.Union.setGraphs (2 ^ 32) true exampleGraphSmall exampleGraphEmpty).hasEdge 1 0
      = false ∧
    (Graph.Union.setGraphs (2 ^ 32) true exampleGraphSmall exampleGraphEmpty).findEdge (2 ^ 32) 1 0
      = 0 ∧
    (0 : Nat) ≠ Graph.noEdge (2 ^ 32) ∧
    (Graph.Union.setGraphs (2 ^ 32) true exampleGraphSmall exampleGraphEmpty).findEdge (2 ^ 32) 0 1
      = 0 := by
  refine ⟨by decide, by decide, by decide, by decide, by decide⟩

/-- C29, evaluated: for two graphs of one type of which the first has 3 vertices and
the edge limit 2 and the second has 2 vertices and the edge limit 1, `setGraphs` swaps
the pointers, so that the stored first graph is the one with the edge limit 1, and
leaves `offset = 2`, the edge limit of the stored second graph. `get(attribute, 1)`
then reads edge 1 of the stored first graph, which is behind its edge limit, and not
edge 0 of the stored second graph. -/
theorem Union_setGraphs_offset_after_swap :
    (Graph.Union.setGraphs (2 ^ 32) true exampleGraphLarge exampleGraphSmall).graphA.numVertices
      = 2 ∧
    (Graph.Union.setGraphs (2 ^ 32) true exampleGraphLarge exampleGraphSmall).graphA.edgeLimit
      = 1 ∧
    (Graph.Union.setGraphs (2 ^ 32) true exampleGraphLarge exampleGraphSmall).graphB.edgeLimit
      = 2 ∧
    (Graph.Union.setGraphs (2 ^ 32) true exampleGraphLarge exampleGraphSmall).offset = 2 ∧
    (Graph.Union.setGraphs (2 ^ 32) true exampleGraphLarge exampleGraphSmall).get (2 ^ 32) 1
      = exampleGraphSmall.getEdge 1 ∧
    exampleGraphSmall.getEdge 1 ≠ exampleGraphLarge.getEdge 0 := by
  refine ⟨by decide, by decide, by decide, by decide, by decide, by decide⟩

end GraphUnionProofs

section AnchorLabelProofs

/-- The arrival time of the last anchor label is `never` or the arrival time of one of
the labels. -/
theorem backArrivalTime_cases (never : Int) (labels : List RAPTOR.WalkingParetoLabel) :
    (labels = [] ∧ RAPTOR.backArrivalTime never labels = never) ∨
    ∃ back, back ∈ labels ∧ RAPTOR.backArrivalTime never labels = back.arrivalTime := by
  unfold RAPTOR.backArrivalTime
  cases h : labels.getLast? with
  | none =>
    left
    exact ⟨List.getLast?_eq_none_iff.mp h, rfl⟩
  | some back =>
    right
    exact ⟨back, List.mem_of_getLast?_eq_some h, rfl⟩

/-- The arrival time of the last anchor label after one more label. -/
theorem backArrivalTime_append (never : Int) (labels : List RAPTOR.WalkingParetoLabel)
    (label : RAPTOR.WalkingParetoLabel) :
    RAPTOR.backArrivalTime never (labels ++ [label]) = label.arrivalTime := by
  unfold RAPTOR.backArrivalTime
  rw [List.getLast?_append, List.getLast?_singleton]
  rfl

/-- The anchor labels after the loop of `computeAnchorLabels` has passed the first `m`
odd rounds, before they are reversed: arrival times fall and trip counts rise along
the list, the last label arrives first, and there is a label for the odd round
`2 * k + 1` exactly when the target arrives in it before `never` and before its
arrival in every earlier odd round. -/
theorem anchorLabels_invariant (never infty : Int) (s : RAPTOR.NewForwardPruningULTRARAPTOR)
    (m : Nat) :
    List.Pairwise (fun a b => b.arrivalTime < a.arrivalTime ∧ a.numberOfTrips < b.numberOfTrips)
      (((List.range m).map (fun k => 2 * k + 1)).foldl (RAPTOR.anchorStep never infty s) []) ∧
    (∀ l, l ∈ ((List.range m).map (fun k => 2 * k + 1)).foldl (RAPTOR.anchorStep never infty s) [] →
      l.arrivalTime < never ∧ l.numberOfTrips < m ∧
      l.arrivalTime = (RAPTOR.targetLabel never infty s (2 * l.numberOfTrips + 1)).arrivalTime ∧
      l.walkingDistance
        = (RAPTOR.targetLabel never infty s (2 * l.numberOfTrips + 1)).walkingDistance ∧
      (∀ k, k < l.numberOfTrips →
        l.arrivalTime < (RAPTOR.targetLabel never infty s (2 * k + 1)).arrivalTime) ∧
      RAPTOR.backArrivalTime never
          (((List.range m).map (fun k => 2 * k + 1)).foldl (RAPTOR.anchorStep never infty s) [])
        ≤ l.arrivalTime) ∧
    (∀ k, k < m → (RAPTOR.targetLabel never infty s (2 * k + 1)).arrivalTime < never →
      (∀ j, j < k → (RAPTOR.targetLabel never infty s (2 * k + 1)).arrivalTime
        < (RAPTOR.targetLabel never infty s (2 * j + 1)).arrivalTime) →
      ∃ l, l ∈ ((List.range m).map (fun k => 2 * k + 1)).foldl (RAPTOR.anchorStep never infty s) []
        ∧ l.numberOfTrips = k) ∧
    RAPTOR.backArrivalTime never
        (((List.range m).map (fun k => 2 * k + 1)).foldl (RAPTOR.anchorStep never infty s) [])
      ≤ never ∧
    (∀ k, k < m →
      RAPTOR.backArrivalTime never
          (((List.range m).map (fun k => 2 * k + 1)).foldl (RAPTOR.anchorStep never infty s) [])
        ≤ (RAPTOR.targetLabel never infty s (2 * k + 1)).arrivalTime) := by
  induction m with
  | zero =>
    refine ⟨List.Pairwise.nil, fun l hl => ?_, fun k hk => ?_, le_refl _, fun k hk => ?_⟩
    · simp at hl
    · omega
    · omega
  | succ m ih =>
    obtain ⟨ha, hb, hd, he1, he2⟩ := ih
    rw [List.range_succ, List.map_append, List.foldl_append, List.map_singleton, List.foldl_cons,
      List.foldl_nil]
    generalize ((List.range m).map (fun k => 2 * k + 1)).foldl (RAPTOR.anchorStep never infty s) []
      = labels at ha hb hd he1 he2 ⊢
    unfold RAPTOR.anchorStep
    have htrips : (2 * m + 1) / 2 = m := by omega
    by_cases hge : (RAPTOR.targetLabel never infty s (2 * m + 1)).arrivalTime
        ≥ RAPTOR.backArrivalTime never labels
    · rw [if_pos hge]
      refine ⟨ha, fun l hl => ?_, fun k hk hnever hless => ?_, he1, fun k hk => ?_⟩
      · obtain ⟨b1, b2, b3, b4, b5, b6⟩ := hb l hl
        exact ⟨b1, by omega, b3, b4, b5, b6⟩
      · by_cases hkm : k = m
        · subst hkm
          rcases backArrivalTime_cases never labels with ⟨_, hback⟩ | ⟨back, hmem, hback⟩
          · rw [hback] at hge
            exact absurd hnever (not_lt.mpr hge)
          · obtain ⟨_, b2, b3, _, _, _⟩ := hb back hmem
            have := hless back.numberOfTrips b2
            rw [← b3, ← hback] at this
            exact absurd this (not_lt.mpr hge)
        · exact hd k (by omega) hnever hless
      · by_cases hkm : k = m
        · subst hkm
          exact hge
        · exact he2 k (by omega)
    · rw [if_neg hge]
      have hlt := not_le.mp hge
      rw [htrips, backArrivalTime_append]
      refine ⟨?_, fun l hl => ?_, fun k hk hnever hless => ?_, ?_, fun k hk => ?_⟩
      · rw [List.pairwise_append]
        refine ⟨ha, List.pairwise_singleton _ _, fun a hmem b hb' => ?_⟩
        rw [List.mem_singleton] at hb'
        subst hb'
        obtain ⟨_, b2, _, _, _, b6⟩ := hb a hmem
        exact ⟨lt_of_lt_of_le hlt b6, b2⟩
      · rcases List.mem_append.mp hl with h | h
        · obtain ⟨b1, b2, b3, b4, b5, b6⟩ := hb l h
          exact ⟨b1, by omega, b3, b4, b5, le_of_lt (lt_of_lt_of_le hlt b6)⟩
        · rw [List.mem_singleton] at h
          subst h
          exact ⟨lt_of_lt_of_le hlt he1, by show m < m + 1; omega, rfl, rfl,
            fun k hk => lt_of_lt_of_le hlt (he2 k hk), le_refl _⟩
      · by_cases hkm : k = m
        · subst hkm
          exact ⟨_, List.mem_append_right _ (List.mem_singleton.mpr rfl), rfl⟩
        · obtain ⟨l, hl, hlk⟩ := hd k (by omega) hnever hless
          exact ⟨l, List.mem_append_left _ hl, hlk⟩
      · exact le_of_lt (lt_of_lt_of_le hlt he1)
      · by_cases hkm : k = m
        · subst hkm
          exact le_refl _
        · exact le_of_lt (lt_of_lt_of_le hlt (he2 k (by omega)))

end AnchorLabelProofs

section AnchorLabelClaims

/-- C30, counterexample: in the example rounds the target is not reached in round 1,
which has no earlier odd round, and there is no anchor label with 0 trips: the anchor
labels are those of the rounds 5 and 3. -/
theorem computeAnchorLabels_skips_unreached_round :
    (exampleRounds.computeAnchorLabels 1000000 1000000).anchorLabels
      = [{ arrivalTime := 450, walkingDistance := 9, numberOfTrips := 2 },
         { arrivalTime := 500, walkingDistance := 7, numberOfTrips := 1 }] ∧
    1 ∈ RAPTOR.oddRounds exampleRounds.rounds.length ∧
    (∀ j, j ∈ RAPTOR.oddRounds exampleRounds.rounds.length → j < 1 →
      (RAPTOR.targetLabel 1000000 1000000 exampleRounds 1).arrivalTime
        < (RAPTOR.targetLabel 1000000 1000000 exampleRounds j).arrivalTime) ∧
    (∀ l, l ∈ (exampleRounds.computeAnchorLabels 1000000 1000000).anchorLabels →
      l.numberOfTrips ≠ 0) := by
  refine ⟨by decide, by decide, fun j hj hlt => ?_, by decide⟩
  unfold RAPTOR.oddRounds at hj
  rw [List.mem_map] at hj
  obtain ⟨k, _, hk⟩ := hj
  omega

/-- C30, amended: after `run`, which clears the anchor labels before it computes them,
the anchor labels read in order have strictly increasing arrival times and strictly
decreasing numbers of trips, every arrival time is below `never`, every label holds
the arrival time and the walking distance of the target in the odd round `i` of its
trip count `i / 2`, and there is a label for exactly those odd rounds in which the
arrival time of the target is below `never` and strictly smaller than in every earlier
odd round. -/
theorem computeAnchorLabels_front (never infty : Int) (s : RAPTOR.NewForwardPruningULTRARAPTOR)
    (hclear : s.anchorLabels = []) :
    List.Pairwise (fun a b => a.arrivalTime < b.arrivalTime ∧ b.numberOfTrips < a.numberOfTrips)
      (s.computeAnchorLabels never infty).anchorLabels ∧
    (∀ l, l ∈ (s.computeAnchorLabels never infty).anchorLabels →
      l.arrivalTime < never ∧ 2 * l.numberOfTrips + 1 < s.rounds.length ∧
      l.arrivalTime = (RAPTOR.targetLabel never infty s (2 * l.numberOfTrips + 1)).arrivalTime ∧
      l.walkingDistance
        = (RAPTOR.targetLabel never infty s (2 * l.numberOfTrips + 1)).walkingDistance) ∧
    (∀ k, 2 * k + 1 < s.rounds.length →
      ((∃ l, l ∈ (s.computeAnchorLabels never infty).anchorLabels ∧ l.numberOfTrips = k) ↔
        ((RAPTOR.targetLabel never infty s (2 * k + 1)).arrivalTime < never ∧
          ∀ j, j < k → (RAPTOR.targetLabel never infty s (2 * k + 1)).arrivalTime
            < (RAPTOR.targetLabel never infty s (2 * j + 1)).arrivalTime))) := by
  obtain ⟨ha, hb, hd, _, _⟩ := anchorLabels_invariant never infty s (s.rounds.length / 2)
  have hlabels : (s.computeAnchorLabels never infty).anchorLabels
      = (((List.range (s.rounds.length / 2)).map (fun k => 2 * k + 1)).foldl
          (RAPTOR.anchorStep never infty s) []).reverse := by
    unfold RAPTOR.NewForwardPruningULTRARAPTOR.computeAnchorLabels RAPTOR.oddRounds
    simp only
    rw [hclear]
  rw [hlabels]
  refine ⟨?_, fun l hl => ?_, fun k hk => ⟨fun hex => ?_, fun hright => ?_⟩⟩
  · rw [List.pairwise_reverse]
    exact ha
  · rw [List.mem_reverse] at hl
    obtain ⟨b1, b2, b3, b4, _, _⟩ := hb l hl
    exact ⟨b1, by omega, b3, b4⟩
  · obtain ⟨l, hl, hlk⟩ := hex
    rw [List.mem_reverse] at hl
    obtain ⟨b1, _, b3, _, b5, _⟩ := hb l hl
    subst hlk
    rw [← b3]
    exact ⟨b1, b5⟩
  · obtain ⟨l, hl, hlk⟩ := hd k (by omega) hright.1 hright.2
    exact ⟨l, List.mem_reverse.mpr hl, hlk⟩

/-- C30 on the example rounds: the anchor labels are (450, 2 trips) and (500, 1 trip),
in this order. -/
theorem computeAnchorLabels_front_witness :
    List.Pairwise (fun a b => a.arrivalTime < b.arrivalTime ∧ b.numberOfTrips < a.numberOfTrips)
      (exampleRounds.computeAnchorLabels 1000000 1000000).anchorLabels ∧
    (exampleRounds.computeAnchorLabels 1000000 1000000).anchorLabels
      = [{ arrivalTime := 450, walkingDistance := 9, numberOfTrips := 2 },
         { arrivalTime := 500, walkingDistance := 7, numberOfTrips := 1 }] :=
  ⟨(computeAnchorLabels_front 1000000 1000000 exampleRounds rfl).1, by decide⟩

end AnchorLabelClaims

end Assignment.Capacities
